import Mathlib

/-!
# Notification and scheduling core of the health portal server

A shallow embedding of `backend/server.js` (the socket registry, `sendNotification`, the
reminder sweep, the notification endpoints and the two expiration sweeps) and of the client
helpers `scheduleAppointmentReminder` and `sendLabStatusNotification` of
`src/utils/notifications.js`, together with the properties of the specification that were
checked against them.

Modelling conventions.

* A JavaScript string is the list of its characters; record fields keep `String` and are
  converted with `String.toList` where the code inspects them.
* A JavaScript number is an `Int`, and `none : Option Int` stands for `NaN`.  Integer valued
  doubles agree with this below `2 ^ 53`; every date built from a larger value is invalid
  because the time clip bound `8.64e15` is smaller.
* A `Date` object is its time value (`Option Int`, `none` being `Invalid Date`).  The server
  runs in a zone with a fixed offset `Env.tza` from UTC (no daylight saving change).
* `Date.parse` is implementation defined and is a parameter (`Env.dateParse`).
* A thrown exception is `Except.error`; a sweep is one pass of the body of its
  `setInterval` callback, with the clock read as `now` throughout the pass and every store
  write accepted.
* The `notifications` collection is the list of its documents; document ids are unique in
  a collection, which the properties that update by id assume (`Nodup`).  A Firestore query
  is a filter of that list, `orderBy` a sort by Firestore's order of values that leaves out
  the documents without the field.  Whether a call to the store by an endpoint or by
  `sendNotification` is accepted is a parameter of the handler.
* The client writes with `addDoc` under the default settings of the store: a document with
  an `undefined` field value is rejected, and a `Date` is kept as a timestamp, which exists
  for the years 1 to 9999 only.  The conversion of a string to a number by the browser is a
  parameter (`ClientEnv.stringToNumber`).
-/

set_option autoImplicit false

namespace HealthHub

/-! ## JavaScript values and strings -/

/-- Values read from a Firestore document or a request body, as far as the server inspects
them; arrays and maps are not modelled.  A `timestamp` is a Firestore `Timestamp`, given by
its `toMillis()` value; Firestore only holds timestamps of the years 1 to 9999, so its
`toDate()` is always a valid date. -/
inductive JSVal where
  | undefined
  | null
  | bool (b : Bool)
  | num (n : Int)
  | str (s : String)
  | timestamp (ms : Int)
  deriving DecidableEq, Repr

/-- Truthiness of a value (`if (v)`, `!v`). -/
def JSVal.truthy : JSVal → Bool
  | .undefined => false
  | .null => false
  | .bool b => b
  | .num n => n != 0
  | .str s => !s.toList.isEmpty
  | .timestamp _ => true

/-- The only exception the modelled code can raise: a `TypeError` on a missing method or
property. -/
inductive JSError where
  | typeError
  deriving DecidableEq, Repr

instance instDecidableEqExcept {ε α : Type} [DecidableEq ε] [DecidableEq α] :
    DecidableEq (Except ε α)
  | .ok a, .ok b =>
    if h : a = b then isTrue (by rw [h]) else isFalse (fun hc => h (Except.ok.inj hc))
  | .error a, .error b =>
    if h : a = b then isTrue (by rw [h]) else isFalse (fun hc => h (Except.error.inj hc))
  | .ok _, .error _ => isFalse (fun hc => Except.noConfusion hc)
  | .error _, .ok _ => isFalse (fun hc => Except.noConfusion hc)

/-- A number or `NaN`. -/
abbrev JSNum := Option Int

/-- The loop of `String.prototype.split` for a non-empty separator: `skip` counts the
characters of a matched separator still to be passed over, `cur` is the current piece,
reversed. -/
def jsSplitGo (sep : List Char) : Nat → List Char → List Char → List (List Char)
  | _, [], cur => [cur.reverse]
  | k + 1, _ :: cs, cur => jsSplitGo sep k cs cur
  | 0, c :: cs, cur =>
    if sep.isPrefixOf (c :: cs) then cur.reverse :: jsSplitGo sep (sep.length - 1) cs []
    else jsSplitGo sep 0 cs (c :: cur)

/-- The pieces of `s.split(sep)` for a non-empty separator `sep`. -/
def jsSplit (sep : String) (s : List Char) : List (List Char) :=
  jsSplitGo sep.toList 0 s []

/-- White space and line terminators, the characters removed by `trim` and skipped by
`parseInt`. -/
def isJSWhiteSpace (c : Char) : Bool :=
  let n := c.toNat
  n == 9 || n == 10 || n == 11 || n == 12 || n == 13 || n == 32 || n == 160 || n == 5760 ||
  (8192 ≤ n && n ≤ 8202) || n == 8232 || n == 8233 || n == 8239 || n == 8287 ||
  n == 12288 || n == 65279

/-- The result of `s.trim()`. -/
def jsTrim (s : List Char) : List Char :=
  ((s.dropWhile isJSWhiteSpace).reverse.dropWhile isJSWhiteSpace).reverse

/-- Whether the regular expression `/pat/i` (a lower case ASCII literal) matches at the start
of `s`. -/
def startsWithCI (pat s : List Char) : Bool :=
  pat.isPrefixOf (s.map Char.toLower)

/-- The result of `s.replace(/pat/i, '')`: the first match is removed. -/
def removeFirstCI (pat : List Char) : List Char → List Char
  | [] => []
  | c :: cs => if startsWithCI pat (c :: cs) then (c :: cs).drop pat.length
               else c :: removeFirstCI pat cs

/-- The result of `s.toLowerCase()`, exact for the comparison with an ASCII word. -/
def jsToLowerCase (s : List Char) : List Char :=
  s.map Char.toLower

/-- The value of a decimal digit string, most significant digit first. -/
def digitsValue (ds : List Char) : Nat :=
  ds.foldl (fun acc c => 10 * acc + (c.toNat - 48)) 0

/-- The digits `parseInt` consumes and their value, or `NaN` when there is none. -/
def parseDigits (s : List Char) : Option Nat :=
  let ds := s.takeWhile Char.isDigit
  if ds.isEmpty then none else some (digitsValue ds)

/-- The result of `parseInt(s, 10)` on a string. -/
def parseInt10 (s : List Char) : JSNum :=
  match s.dropWhile isJSWhiteSpace with
  | '-' :: rest => (parseDigits rest).map (fun n => - (n : Int))
  | '+' :: rest => (parseDigits rest).map (fun n => (n : Int))
  | rest => (parseDigits rest).map (fun n => (n : Int))

/-- The result of `parseInt(x, 10)` where `x` is an array element that may be missing:
`undefined` is first converted to the string "undefined". -/
def parseIntOpt (x : Option (List Char)) : JSNum :=
  match x with
  | some s => parseInt10 s
  | none => parseInt10 "undefined".toList

/-! ## Dates -/

/-- What the model takes from the runtime: the offset of local time from UTC in
milliseconds, the implementation defined `Date.parse`, and the primitive string a Firestore
timestamp object converts to (by its `valueOf` or `toString`). -/
structure Env where
  tza : Int
  dateParse : List Char → Option Int
  timestampText : Int → List Char

def msPerDay : Int := 86400000

/-- The abstract operation `TimeClip`. -/
def timeClip (t : Int) : JSNum :=
  if t.natAbs ≤ 8640000000000000 then some t else none

/-- Year, month (0 to 11) and day of the month (1 to 31) of a day number counted from
1970-01-01, in the proleptic Gregorian calendar. -/
def civilFromDays (z0 : Int) : Int × Int × Int :=
  let z := z0 + 719468
  let era := z / 146097
  let doe := z - era * 146097
  let yoe := (doe - doe / 1460 + doe / 36524 - doe / 146096) / 365
  let doy := doe - (365 * yoe + yoe / 4 - yoe / 100)
  let mp := (5 * doy + 2) / 153
  let d := doy - (153 * mp + 2) / 5 + 1
  let m := if mp < 10 then mp + 3 else mp - 9
  let y := yoe + era * 400 + (if m ≤ 2 then 1 else 0)
  (y, m - 1, d)

/-- The day number of the first day of month `month` (0 to 11) of year `year`. -/
def daysFromCivil (year month : Int) : Int :=
  let m := month + 1
  let y := if m ≤ 2 then year - 1 else year
  let era := y / 400
  let yoe := y - era * 400
  let doy := (153 * (if m > 2 then m - 3 else m + 9) + 2) / 5
  let doe := yoe * 365 + yoe / 4 - yoe / 100 + doy
  era * 146097 + doe - 719468

/-- The abstract operation `MakeDay`. -/
def makeDay (year month date : Int) : Int :=
  daysFromCivil (year + month / 12) (month % 12) + date - 1

/-- The abstract operation `MakeTime` with zero seconds and milliseconds. -/
def makeTime (hour min : Int) : Int :=
  hour * 3600000 + min * 60000

/-- The abstract operation `MakeDate`. -/
def makeDate (day time : Int) : Int :=
  day * msPerDay + time

/-- The method `getFullYear` of a date. -/
def getFullYear (env : Env) (d : JSNum) : JSNum :=
  d.map (fun t => (civilFromDays ((t + env.tza) / msPerDay)).1)

/-- The method `getMonth` of a date. -/
def getMonth (env : Env) (d : JSNum) : JSNum :=
  d.map (fun t => (civilFromDays ((t + env.tza) / msPerDay)).2.1)

/-- The method `getDate` of a date. -/
def getDate (env : Env) (d : JSNum) : JSNum :=
  d.map (fun t => (civilFromDays ((t + env.tza) / msPerDay)).2.2)

/-- The date `new Date(year, month, date, hours, minutes)`, read in local time; a year from
0 to 99 means 1900 + year. -/
def newDateLocal (env : Env) (year month date hours minutes : JSNum) : JSNum :=
  match year, month, date, hours, minutes with
  | some y, some mo, some d, some h, some mi =>
    let yr := if 0 ≤ y ∧ y ≤ 99 then 1900 + y else y
    timeClip (makeDate (makeDay yr mo d) (makeTime h mi) - env.tza)
  | _, _, _, _, _ => none

/-- The date `new Date(v)` of a value `v`: a string is parsed, a timestamp object is first
converted to its primitive string, any other value is converted to a number. -/
def newDateOf (env : Env) : JSVal → JSNum
  | .undefined => none
  | .null => timeClip 0
  | .bool b => timeClip (if b then 1 else 0)
  | .num n => timeClip n
  | .str s => (env.dateParse s.toList).bind timeClip
  | .timestamp ms => (env.dateParse (env.timestampText ms)).bind timeClip

/-! ## The appointment expiration sweep (`server.js`, lines 249 to 310) -/

/-- The fields of an appointment document the sweep reads or writes. -/
structure AppointmentData where
  date : JSVal
  slotPortion : JSVal
  status : JSVal
  updatedAt : JSVal
  deriving DecidableEq, Repr

/-- An appointment document of the snapshot. -/
structure AppointmentDoc where
  id : String
  data : AppointmentData
  deriving DecidableEq, Repr

/-- The argument of `appointmentDoc.ref.update`. -/
structure AppointmentUpdate where
  status : String
  updatedAt : Int
  deriving DecidableEq, Repr

/-- The expression `date.toDate ? date.toDate() : new Date(date)`: only a Firestore
timestamp has a `toDate` method. -/
def appointmentDateOf (env : Env) (date : JSVal) : JSNum :=
  match date with
  | .timestamp ms => some ms
  | v => newDateOf env v

/-- Whether an array element bound by destructuring is falsy: missing or the empty
string. -/
def falsyPiece (x : Option (List Char)) : Bool :=
  match x with
  | none => true
  | some s => s.isEmpty

/-- The adjustment of the parsed hour by the meridiem token (lines 283 to 287). -/
def adjustHour (meridiem : List Char) (hour : JSNum) : JSNum :=
  if jsToLowerCase meridiem = "pm".toList ∧ hour ≠ some 12 then hour.map (fun h => h + 12)
  else if jsToLowerCase meridiem = "am".toList ∧ hour = some 12 then some 0
  else hour

/-- Lines 266 to 287 on a slot-portion string: `none` when the record is skipped with a
warning, otherwise the 24-hour `hour` and the `minute` handed to the `Date` constructor. -/
def parseSlotEnd (slot : List Char) : Option (JSNum × JSNum) :=
  let parts := jsSplit " - " slot
  if parts.length < 2 then none
  else
    let endTimeString := jsTrim (removeFirstCI "portion".toList (parts.getD 1 []))
    let pieces := jsSplit " " endTimeString
    let time := pieces.get? 0
    let meridiem := pieces.get? 1
    if falsyPiece time ∨ falsyPiece meridiem then none
    else
      let hm := jsSplit ":" (time.getD [])
      let hour := parseIntOpt (hm.get? 0)
      let minute := parseIntOpt (hm.get? 1)
      some (adjustHour (meridiem.getD []) hour, minute)

/-- Lines 255 to 296 for one record: a `TypeError` when `slotPortion` is truthy but has no
`split` method, `none` when the record is skipped, otherwise `endDateTime`. -/
def appointmentEnd (env : Env) (a : AppointmentData) : Except JSError (Option JSNum) :=
  if !a.date.truthy || !a.slotPortion.truthy then .ok none
  else
    let appointmentDate := appointmentDateOf env a.date
    match a.slotPortion with
    | .str s =>
      match parseSlotEnd s.toList with
      | none => .ok none
      | some (hour, minute) =>
        .ok (some (newDateLocal env (getFullYear env appointmentDate)
          (getMonth env appointmentDate) (getDate env appointmentDate) hour minute))
    | _ => .error .typeError

/-- The comparison `new Date() >= d` for a possibly invalid date `d`. -/
def nowAtLeast (now : Int) (d : JSNum) : Bool :=
  match d with
  | some t => decide (t ≤ now)
  | none => false

/-- The body of the loop for one record (lines 253 to 305): the update issued, if any. -/
def expireStep (env : Env) (now : Int) (a : AppointmentData) :
    Except JSError (Option AppointmentUpdate) :=
  match appointmentEnd env a with
  | .error e => .error e
  | .ok none => .ok none
  | .ok (some endDateTime) =>
    let expirationTime := endDateTime.bind (fun t => timeClip (t + 60000))
    if nowAtLeast now expirationTime ∧ a.status ≠ .str "expired" then
      .ok (some { status := "expired", updatedAt := now })
    else .ok none

/-- The effect of `ref.update` on the stored document. -/
def AppointmentDoc.applyUpdate (d : AppointmentDoc) (u : AppointmentUpdate) : AppointmentDoc :=
  { d with data := { d.data with status := .str u.status, updatedAt := .timestamp u.updatedAt } }

/-- The outcome of one sweep: the documents afterwards, the updates issued (by document id,
in order) and the error caught by the surrounding `try`, if any. -/
structure AppointmentSweepResult where
  docs : List AppointmentDoc
  writes : List (String × AppointmentUpdate)
  caught : Option JSError
  deriving DecidableEq, Repr

/-- One run of the appointment expiration sweep over the snapshot: the `for` loop sits
inside a single `try`, so a thrown error ends the pass. -/
def appointmentSweep (env : Env) (now : Int) : List AppointmentDoc → AppointmentSweepResult
  | [] => { docs := [], writes := [], caught := none }
  | d :: ds =>
    match expireStep env now d.data with
    | .error e => { docs := d :: ds, writes := [], caught := some e }
    | .ok none =>
      let r := appointmentSweep env now ds
      { r with docs := d :: r.docs }
    | .ok (some u) =>
      let r := appointmentSweep env now ds
      { r with docs := d.applyUpdate u :: r.docs, writes := (d.id, u) :: r.writes }

/-- The documents after the sweep has run once at each of the given times, in order. -/
def appointmentSweeps (env : Env) (nows : List Int) (docs : List AppointmentDoc) :
    List AppointmentDoc :=
  nows.foldl (fun ds now => (appointmentSweep env now ds).docs) docs

/-- The document after its own loop body has run. -/
def AppointmentDoc.afterStep (env : Env) (now : Int) (d : AppointmentDoc) : AppointmentDoc :=
  match expireStep env now d.data with
  | .ok (some u) => d.applyUpdate u
  | _ => d

/-! ## The socket registry (`server.js`, lines 20 to 40) -/

/-- The map `userSockets`, from user id to socket id, as its entries in insertion order. -/
abbrev Registry := List (String × String)

/-- The method `Map.prototype.get`. -/
def Registry.get (m : Registry) (userId : String) : Option String :=
  (m.find? (fun e => e.1 == userId)).map (fun e => e.2)

/-- The method `Map.prototype.set`: an existing key keeps its place, a new key goes last. -/
def Registry.set (m : Registry) (userId socketId : String) : Registry :=
  if m.any (fun e => e.1 == userId) then
    m.map (fun e => if e.1 == userId then (userId, socketId) else e)
  else m ++ [(userId, socketId)]

/-- The method `Map.prototype.delete`. -/
def Registry.delete (m : Registry) (userId : String) : Registry :=
  m.filter (fun e => e.1 != userId)

/-- The handler of the `register` event of the socket `socketId`. -/
def onRegister (m : Registry) (socketId userId : String) : Registry :=
  m.set userId socketId

/-- The handler of the `disconnect` event of the socket `socketId`: the loop deletes the
first entry whose value is the socket id and then leaves with `break`. -/
def onDisconnect (m : Registry) (socketId : String) : Registry :=
  match m.find? (fun e => e.2 == socketId) with
  | some e => m.delete e.1
  | none => m

/-! ## `sendNotification` (`server.js`, lines 43 to 64) -/

/-- The record built by `sendNotification`. -/
structure Notification where
  userId : String
  title : String
  message : String
  read : Bool
  createdAt : Int
  deriving DecidableEq, Repr

/-- A notification object as the store holds it and the sockets carry it: the fields the
server reads or writes, `undefined` standing for an absent field.  The field `id` is an
`id` property of the object itself, which a posted payload may have. -/
structure Payload where
  userId : JSVal
  title : JSVal
  message : JSVal
  type : JSVal
  read : JSVal
  createdAt : JSVal
  id : JSVal := .undefined
  deriving DecidableEq, Repr

/-- The record built by `sendNotification` as an object; the store keeps the `Date` as a
timestamp. -/
def Notification.toPayload (n : Notification) : Payload :=
  { userId := .str n.userId, title := .str n.title, message := .str n.message,
    type := .undefined, read := .bool n.read, createdAt := .timestamp n.createdAt }

/-- A document of the `notifications` collection. -/
structure NotificationDoc where
  id : String
  data : Payload
  deriving DecidableEq, Repr

/-- Where an emission goes: the room of one socket id (`io.to(socketId)`) or every connected
socket (`io.emit`). -/
inductive EmitTarget where
  | room (socketId : String)
  | all
  deriving DecidableEq, Repr

/-- One call `emit(event, payload)`. -/
structure Emission where
  target : EmitTarget
  event : String
  payload : Payload
  deriving DecidableEq, Repr

/-- The state the notification code acts on: the registry, the `notifications` collection
and the emissions made so far. -/
structure Server where
  userSockets : Registry
  notifications : List NotificationDoc
  emitted : List Emission
  deriving DecidableEq, Repr

/-- The rooms the push path of `sendNotification` emits to (lines 57 to 60): the socket id
the registry holds for the user, when there is one and it is truthy. -/
def pushTargets (m : Registry) (userId : String) : List String :=
  match m.get userId with
  | some socketId => if socketId.toList.isEmpty then [] else [socketId]
  | none => []

/-- The function `sendNotification`, called at time `now`.  `addOk` tells whether the store
accepts the new record, which then gets the id `newId`; `pushOk` tells whether the emission
goes through.  An error of either kind is caught and logged inside the function. -/
def sendNotification (addOk pushOk : Bool) (newId : String) (now : Int)
    (userId title message : String) (s : Server) : Server :=
  let notification : Notification :=
    { userId := userId, title := title, message := message, read := false, createdAt := now }
  if addOk then
    let s1 := { s with
      notifications := s.notifications ++ [{ id := newId, data := notification.toPayload }] }
    if pushOk then
      { s1 with
        emitted := s1.emitted ++
          (pushTargets s.userSockets userId).map
            (fun socketId => { target := .room socketId, event := "notification",
                               payload := notification.toPayload }) }
    else s1
  else s

/-! ## The reminder sweep (`server.js`, lines 67 to 106) -/

/-- One entry of the `reminders` array of a reminder document. -/
structure ReminderEntry where
  time : JSVal
  sent : JSVal
  message : String
  deriving DecidableEq, Repr

/-- The fields of a reminder document the sweep reads; `reminders` is `none` when the field
is not an array. -/
structure ReminderData where
  doctorId : String
  patientId : String
  doctorName : String
  patientName : String
  reminders : Option (List ReminderEntry)
  deriving DecidableEq, Repr

/-- A reminder document of the snapshot. -/
structure ReminderDoc where
  id : String
  data : ReminderData
  deriving DecidableEq, Repr

/-- One call `sendNotification(userId, title, message)`. -/
structure NotifyCall where
  userId : String
  title : String
  message : String
  deriving DecidableEq, Repr

/-- The call `r.time.toDate()`: only a Firestore timestamp has the method. -/
def toDateOf (time : JSVal) : Except JSError JSNum :=
  match time with
  | .timestamp ms => .ok (some ms)
  | _ => .error .typeError

/-- The comparison `d <= now` for a possibly invalid date `d`. -/
def dateAtMost (d : JSNum) (now : Int) : Bool :=
  match d with
  | some t => decide (t ≤ now)
  | none => false

/-- The two calls made for a due entry (lines 82 to 91). -/
def reminderCalls (rem : ReminderData) (r : ReminderEntry) : List NotifyCall :=
  [ { userId := rem.doctorId, title := "Appointment Reminder",
      message := r.message ++ " with " ++ rem.patientName },
    { userId := rem.patientId, title := "Appointment Reminder",
      message := r.message ++ " with Dr. " ++ rem.doctorName } ]

/-- What one run of the callback of `reminders.map` does: the entry it returns, the calls
it makes and whether it sets `updateNeeded`. -/
structure EntryResult where
  entry : ReminderEntry
  calls : List NotifyCall
  updateNeeded : Bool
  deriving DecidableEq, Repr

/-- The callback of `reminders.map` on one entry (lines 78 to 96), or the error thrown. -/
def remindEntry (now : Int) (rem : ReminderData) (r : ReminderEntry) :
    Except JSError EntryResult :=
  match toDateOf r.time with
  | .error e => .error e
  | .ok reminderTime =>
    if !r.sent.truthy && dateAtMost reminderTime now then
      .ok { entry := { r with sent := .bool true }, calls := reminderCalls rem r,
            updateNeeded := true }
    else .ok { entry := r, calls := [], updateNeeded := false }

/-- What `reminders.map` leaves behind: the calls made (also those before a throw), the flag
`updateNeeded`, and the new array or the error thrown. -/
structure MapResult where
  calls : List NotifyCall
  updateNeeded : Bool
  outcome : Except JSError (List ReminderEntry)
  deriving DecidableEq, Repr

/-- The expression `reminder.reminders.map(...)` on the array `rs`. -/
def remindMap (now : Int) (rem : ReminderData) : List ReminderEntry → MapResult
  | [] => { calls := [], updateNeeded := false, outcome := .ok [] }
  | r :: rs =>
    match remindEntry now rem r with
    | .error e => { calls := [], updateNeeded := false, outcome := .error e }
    | .ok res =>
      let rest := remindMap now rem rs
      { calls := res.calls ++ rest.calls,
        updateNeeded := res.updateNeeded || rest.updateNeeded,
        outcome := rest.outcome.map (fun l => res.entry :: l) }

/-- The outcome of one reminder sweep: the documents afterwards, the `sendNotification`
calls made, the updates issued (by document id) and the error caught, if any. -/
structure ReminderSweepResult where
  docs : List ReminderDoc
  calls : List NotifyCall
  updates : List (String × List ReminderEntry)
  caught : Option JSError
  deriving DecidableEq, Repr

/-- One run of the reminder sweep over the snapshot; the `for` loop sits inside a single
`try`, so a thrown error ends the pass. -/
def reminderSweep (now : Int) : List ReminderDoc → ReminderSweepResult
  | [] => { docs := [], calls := [], updates := [], caught := none }
  | d :: ds =>
    match d.data.reminders with
    | none => { docs := d :: ds, calls := [], updates := [], caught := some .typeError }
    | some rs =>
      let m := remindMap now d.data rs
      match m.outcome with
      | .error e => { docs := d :: ds, calls := m.calls, updates := [], caught := some e }
      | .ok updatedReminders =>
        let r := reminderSweep now ds
        if m.updateNeeded then
          { docs := { d with data := { d.data with reminders := some updatedReminders } } :: r.docs,
            calls := m.calls ++ r.calls,
            updates := (d.id, updatedReminders) :: r.updates,
            caught := r.caught }
        else { r with docs := d :: r.docs, calls := m.calls ++ r.calls }

/-- The documents after the reminder sweep has run once at each of the given times. -/
def reminderSweeps (nows : List Int) (docs : List ReminderDoc) : List ReminderDoc :=
  nows.foldl (fun ds now => (reminderSweep now ds).docs) docs

/-! ## The availability expiration sweep (`server.js`, lines 216 to 246) -/

/-- An availability document of a doctor, with the field the sweep reads. -/
structure AvailabilityDoc where
  id : String
  endTime : JSVal
  deriving DecidableEq, Repr

/-- A doctor document with its `availabilities` subcollection. -/
structure DoctorDoc where
  id : String
  availabilities : List AvailabilityDoc
  deriving DecidableEq, Repr

/-- The body of the inner loop (lines 228 to 240): whether the slot is deleted. -/
def availabilityExpired (env : Env) (now : Int) (a : AvailabilityDoc) : Bool :=
  if !a.endTime.truthy then false
  else
    let endTime := newDateOf env a.endTime
    let expirationTime := endTime.bind (fun t => timeClip (t + 60000))
    nowAtLeast now expirationTime

/-- The outcome of one availability sweep: the doctors with the slots that are left, and the
deleted slots as pairs of doctor id and slot id. -/
structure AvailabilitySweepResult where
  doctors : List DoctorDoc
  deleted : List (String × String)
  deriving DecidableEq, Repr

/-- The inner loop over the availabilities of the doctor `doctorId`: the slots left and the
ids of the slots deleted. -/
def sweepAvailabilities (env : Env) (now : Int) :
    List AvailabilityDoc → List AvailabilityDoc × List String
  | [] => ([], [])
  | a :: rest =>
    let r := sweepAvailabilities env now rest
    if availabilityExpired env now a then (r.1, a.id :: r.2) else (a :: r.1, r.2)

/-- One run of the availability expiration sweep (lines 216 to 246). -/
def availabilitySweep (env : Env) (now : Int) : List DoctorDoc → AvailabilitySweepResult
  | [] => { doctors := [], deleted := [] }
  | d :: ds =>
    let inner := sweepAvailabilities env now d.availabilities
    let r := availabilitySweep env now ds
    { doctors := { d with availabilities := inner.1 } :: r.doctors,
      deleted := inner.2.map (fun slotId => (d.id, slotId)) ++ r.deleted }

/-! ## The notification endpoints (`server.js`, lines 109 to 213) -/

/-- An element of the array the listing returns. -/
structure ListedNotification where
  id : JSVal
  data : Payload
  deriving DecidableEq, Repr

/-- The object `{ id: doc.id, ...doc.data() }`: an `id` field of the data comes later in the
object literal and replaces the document id. -/
def NotificationDoc.listed (d : NotificationDoc) : ListedNotification :=
  { id := if d.data.id = .undefined then .str d.id else d.data.id, data := d.data }

/-- The body of an HTTP response: the array of `res.json(notifications)`, the object
`{success: true}`, the object `{error: message}`, or the text of `res.send`. -/
inductive Body where
  | notifications (items : List ListedNotification)
  | success
  | error (message : String)
  | text (s : String)
  deriving DecidableEq, Repr

/-- An HTTP response. -/
structure Response where
  status : Nat
  body : Body
  deriving DecidableEq, Repr

/-- The place of a value in the order Firestore sorts by: values of different types are
ordered by type (null, boolean, number, timestamp, string), values of one type by value,
strings by their code points. -/
def fsKey : JSVal → ℕ ×ₗ ℤ ×ₗ List ℕ
  | .undefined => toLex (0, toLex (0, []))
  | .null => toLex (1, toLex (0, []))
  | .bool b => toLex (2, toLex (if b then 1 else 0, []))
  | .num n => toLex (3, toLex (n, []))
  | .timestamp ms => toLex (4, toLex (ms, []))
  | .str s => toLex (5, toLex (0, s.toList.map Char.toNat))

/-- The sort key of a document under `orderBy('createdAt')`: the field value, then the
document id. -/
def docKey (d : NotificationDoc) : (ℕ ×ₗ ℤ ×ₗ List ℕ) ×ₗ List ℕ :=
  toLex (fsKey d.data.createdAt, d.id.toList.map Char.toNat)

/-- The query `.where('userId', '==', userId).where('read', '==', false)` on the
collection. -/
def unreadQuery (userId : JSVal) (store : List NotificationDoc) : List NotificationDoc :=
  store.filter (fun d => d.data.userId = userId ∧ d.data.read = .bool false)

/-- The clause `.orderBy('createdAt', 'desc')`: documents without the field are left out,
the others are sorted from the greatest key down. -/
def orderByCreatedAtDesc (l : List NotificationDoc) : List NotificationDoc :=
  (l.filter (fun d => d.data.createdAt ≠ .undefined)).insertionSort
    (fun a b => docKey b ≤ docKey a)

/-- The handler of `GET /api/notifications/:userId` (lines 109 to 126); `fail` is the
message of the error of the store when the query is rejected. -/
def getNotifications (fail : Option String) (userId : String) (store : List NotificationDoc) :
    Response :=
  match fail with
  | some message => { status := 500, body := .error message }
  | none =>
    { status := 200,
      body := .notifications
        ((orderByCreatedAtDesc (unreadQuery (.str userId) store)).map NotificationDoc.listed) }

/-- The effect of `update({ read: true })` on a document. -/
def NotificationDoc.markRead (d : NotificationDoc) : NotificationDoc :=
  { d with data := { d.data with read := .bool true } }

/-- The handler of `POST /api/notifications/:notificationId/read` (lines 129 to 138);
`fail` is the message of a store error, `missing` the message of the error the store raises
when there is no document with the id. -/
def postMarkRead (fail : Option String) (missing : String) (notificationId : String)
    (store : List NotificationDoc) : Response × List NotificationDoc :=
  match fail with
  | some message => ({ status := 500, body := .error message }, store)
  | none =>
    if store.any (fun d => d.id = notificationId) then
      ({ status := 200, body := .success },
       store.map (fun d => if d.id = notificationId then d.markRead else d))
    else ({ status := 500, body := .error missing }, store)

/-- A call to the store made by the mark-all-read handler. -/
inductive StoreOp where
  | query (userId : JSVal)
  | commit (ids : List String)
  deriving DecidableEq, Repr

/-- What the mark-all-read handler leaves behind. -/
structure MarkAllResult where
  response : Response
  store : List NotificationDoc
  ops : List StoreOp
  deriving DecidableEq, Repr

/-- The handler of `POST /api/notifications/markAllRead` (lines 141 to 163) for the body
field `userId`; `failQuery` and `failCommit` are the messages of the errors of the store
when the query or the batch is rejected. -/
def postMarkAllRead (failQuery failCommit : Option String) (userId : JSVal)
    (store : List NotificationDoc) : MarkAllResult :=
  if !userId.truthy then
    { response := { status := 400, body := .error "userId is required" }, store := store,
      ops := [] }
  else
    match failQuery with
    | some message =>
      { response := { status := 500, body := .error message }, store := store,
        ops := [.query userId] }
    | none =>
      let ids := (unreadQuery userId store).map (fun d => d.id)
      match failCommit with
      | some message =>
        { response := { status := 500, body := .error message }, store := store,
          ops := [.query userId, .commit ids] }
      | none =>
        { response := { status := 200, body := .success },
          store := store.map (fun d => if d.id ∈ ids then d.markRead else d),
          ops := [.query userId, .commit ids] }

/-- The lookup `userSockets.get(v)` for a field value `v`; the registry of the model holds
string keys only. -/
def registryLookup (m : Registry) (v : JSVal) : List String :=
  match v with
  | .str userId => pushTargets m userId
  | _ => []

/-- The emissions of the send handler (lines 172 to 179). -/
def sendEmissions (m : Registry) (notification : Payload) : List Emission :=
  if notification.userId.truthy then
    (registryLookup m notification.userId).map
      (fun socketId => { target := .room socketId, event := "notification",
                         payload := notification })
  else [{ target := .all, event := "notification", payload := notification }]

/-- The handler of `POST /api/send-notification` (lines 166 to 186) for the body
`notification`; the stored record gets the id `newId`. -/
def postSendNotification (fail : Option String) (newId : String) (notification : Payload)
    (s : Server) : Response × Server :=
  match fail with
  | some _ => ({ status := 500, body := .text "Error sending notification" }, s)
  | none =>
    ({ status := 200, body := .text "Notification sent" },
     { s with
       notifications := s.notifications ++ [{ id := newId, data := notification }],
       emitted := s.emitted ++ sendEmissions s.userSockets notification })

/-- The string a value becomes in a template literal. -/
def jsToString : JSVal → String
  | .undefined => "undefined"
  | .null => "null"
  | .bool b => if b then "true" else "false"
  | .num n => toString n
  | .str s => s
  | .timestamp _ => "[object Object]"

/-- The notification built by the lab-status handler (lines 192 to 199). -/
def labStatusNotification (now : Int) (labId status remarks : JSVal) : Payload :=
  { userId := labId,
    title := .undefined,
    message := .str ("Your lab status has been updated to: " ++ jsToString status ++
      (if remarks.truthy then " Remarks: " ++ jsToString remarks else "")),
    type := .str "labStatusUpdate",
    read := .bool false,
    createdAt := .timestamp now }

/-- The handler of `POST /api/lab-status-notification` (lines 189 to 213); the store
rejects a record whose `userId` is `undefined`. -/
def postLabStatus (fail : Option String) (newId : String) (now : Int)
    (labId status remarks : JSVal) (s : Server) : Response × Server :=
  let notification := labStatusNotification now labId status remarks
  if fail.isSome ∨ labId = .undefined then
    ({ status := 500, body := .text "Error sending lab status notification" }, s)
  else
    ({ status := 200, body := .text "Lab status notification sent" },
     { s with
       notifications := s.notifications ++ [{ id := newId, data := notification }],
       emitted := s.emitted ++
         (registryLookup s.userSockets labId).map
           (fun socketId => { target := .room socketId, event := "labStatusUpdate",
                              payload := notification }) })

/-- One step of the notification code: a request to one of the endpoints, or a call of
`sendNotification` as the reminder sweep makes it. -/
inductive ApiOp where
  | list (fail : Option String) (userId : String)
  | markRead (fail : Option String) (missing : String) (notificationId : String)
  | markAllRead (failQuery failCommit : Option String) (userId : JSVal)
  | send (fail : Option String) (newId : String) (notification : Payload)
  | labStatus (fail : Option String) (newId : String) (now : Int) (labId status remarks : JSVal)
  | notify (addOk pushOk : Bool) (newId : String) (now : Int) (userId title message : String)

/-- The state after one step. -/
def ApiOp.run (op : ApiOp) (s : Server) : Server :=
  match op with
  | .list _ _ => s
  | .markRead fail missing notificationId =>
    { s with notifications := (postMarkRead fail missing notificationId s.notifications).2 }
  | .markAllRead failQuery failCommit userId =>
    { s with notifications := (postMarkAllRead failQuery failCommit userId s.notifications).store }
  | .send fail newId notification => (postSendNotification fail newId notification s).2
  | .labStatus fail newId now labId status remarks =>
    (postLabStatus fail newId now labId status remarks s).2
  | .notify addOk pushOk newId now userId title message =>
    sendNotification addOk pushOk newId now userId title message s

/-- The state after a sequence of steps. -/
def runOps (ops : List ApiOp) (s : Server) : Server :=
  ops.foldl (fun st op => op.run st) s

/-! ## The reminder sweep together with its dispatches -/

/-- The calls of `sendNotification` made by one sweep, carried out one after the other;
`outcome k` tells whether the store accepts the record of call `k` and whether its emission
goes through, `newId k` is the id the store gives the record. -/
def dispatchCalls (now : Int) (outcome : Nat → Bool × Bool) (newId : Nat → String) :
    Nat → List NotifyCall → Server → Server
  | _, [], s => s
  | k, c :: cs, s =>
    dispatchCalls now outcome newId (k + 1) cs
      (sendNotification (outcome k).1 (outcome k).2 (newId k) now c.userId c.title c.message s)

/-- One tick of the reminder timer: the sweep, and the state of the notification code after
the calls the sweep has made.  Nothing comes back from a call into the sweep. -/
def reminderTick (outcome : Nat → Bool × Bool) (newId : Nat → String) (now : Int)
    (docs : List ReminderDoc) (s : Server) : ReminderSweepResult × Server :=
  let r := reminderSweep now docs
  (r, dispatchCalls now outcome newId 0 r.calls s)

/-! ## The client helpers (`notifications.js`) -/

/-- The value of a parameter with a default: the default replaces `undefined` only. -/
def defaultParam (v dflt : JSVal) : JSVal :=
  match v with
  | .undefined => dflt
  | w => w

/-- The object `notification` built by `sendLabStatusNotification(labId, status, remarks = '')`
(`notifications.js`, lines 111 to 120); `isoNow` is the text `new Date().toISOString()`. -/
def clientLabStatusNotification (isoNow : String) (labId status remarks : JSVal) : Payload :=
  let remarks := defaultParam remarks (.str "")
  { userId := labId,
    title := .undefined,
    message := .str ("Your lab status has been updated to: " ++ jsToString status ++
      (if remarks.truthy then " Remarks: " ++ jsToString remarks else "")),
    type := .str "labStatusUpdate",
    read := .bool false,
    createdAt := .str isoNow }

/-- The helper `sendLabStatusNotification` (`notifications.js`, lines 111 to 129): the
documents of `notifications` afterwards and the events emitted on the module's socket, when
there is one.  A rejected `addDoc` (a store failure, or `userId` being `undefined`) is caught
and logged. -/
def sendLabStatusNotification (fail : Bool) (socket : Bool) (newId isoNow : String)
    (labId status remarks : JSVal) (store : List NotificationDoc) :
    List NotificationDoc × List (String × Payload) :=
  let notification := clientLabStatusNotification isoNow labId status remarks
  if fail ∨ labId = .undefined then (store, [])
  else (store ++ [{ id := newId, data := notification }],
        if socket then [("labStatusUpdate", notification)] else [])

/-- What the model takes from the browser: the conversion of a string to a number, and the
primitive string a Firestore timestamp object converts to. -/
structure ClientEnv where
  stringToNumber : List Char → JSNum
  timestampText : Int → List Char

/-- The abstract operation `ToNumber`, as the subtraction `appointmentTime - n` applies it. -/
def jsToNumber (cenv : ClientEnv) : JSVal → JSNum
  | .undefined => none
  | .null => some 0
  | .bool b => some (if b then 1 else 0)
  | .num n => some n
  | .str s => cenv.stringToNumber s.toList
  | .timestamp ms => cenv.stringToNumber (cenv.timestampText ms)

/-- The timestamp the store keeps for a `Date` field of a written document, `none` when
there is none and the write is not made: a Firestore `Timestamp` lies in the years 1 to
9999, and an invalid date cannot be written. -/
def toFirestoreTimestamp (d : JSNum) : Option Int :=
  match d with
  | some ms => if -62135596800000 ≤ ms ∧ ms < 253402300800000 then some ms else none
  | none => none

/-- The fields of the argument `appointmentData` that `scheduleAppointmentReminder` reads,
`undefined` standing for an absent one. -/
structure ReminderRequest where
  appointmentId : JSVal
  doctorId : JSVal
  patientId : JSVal
  appointmentTime : JSVal
  doctorName : JSVal
  patientName : JSVal
  type : JSVal
  deriving DecidableEq, Repr

/-- The fields of the document `scheduleAppointmentReminder` writes. -/
structure ScheduledReminder where
  appointmentId : JSVal
  doctorId : JSVal
  patientId : JSVal
  doctorName : JSVal
  patientName : JSVal
  appointmentTime : JSVal
  type : JSVal
  reminders : List ReminderEntry
  deriving DecidableEq, Repr

/-- A document of `appointment_reminders` as the client writes it. -/
structure ScheduledReminderDoc where
  id : String
  data : ScheduledReminder
  deriving DecidableEq, Repr

/-- The date `new Date(appointmentTime - offset)`. -/
def reminderTime (cenv : ClientEnv) (appointmentTime : JSVal) (offset : Int) : JSNum :=
  (jsToNumber cenv appointmentTime).bind (fun t => timeClip (t - offset))

/-- The helper `scheduleAppointmentReminder` (`notifications.js`, lines 39 to 71): the value
returned and the documents of `appointment_reminders` afterwards.  `addDoc` gives the new
document the fresh id `newId`; it is rejected when the store fails (`fail`), when a field
is `undefined`, or when a trigger time has no timestamp, and the rejection is caught. -/
def scheduleAppointmentReminder (cenv : ClientEnv) (fail : Bool) (newId : String)
    (appointmentData : ReminderRequest) (store : List ScheduledReminderDoc) :
    Bool × List ScheduledReminderDoc :=
  match toFirestoreTimestamp
          (reminderTime cenv appointmentData.appointmentTime (24 * 60 * 60 * 1000)),
        toFirestoreTimestamp
          (reminderTime cenv appointmentData.appointmentTime (60 * 60 * 1000)) with
  | some first, some second =>
    if fail ∨ JSVal.undefined ∈ [appointmentData.appointmentId, appointmentData.doctorId,
        appointmentData.patientId, appointmentData.doctorName, appointmentData.patientName,
        appointmentData.appointmentTime, appointmentData.type] then (false, store)
    else
      (true, store ++ [{
        id := newId,
        data := {
          appointmentId := appointmentData.appointmentId,
          doctorId := appointmentData.doctorId,
          patientId := appointmentData.patientId,
          doctorName := appointmentData.doctorName,
          patientName := appointmentData.patientName,
          appointmentTime := appointmentData.appointmentTime,
          type := appointmentData.type,
          reminders := [
            { time := .timestamp first, sent := .bool false,
              message :=
                "You have a " ++ jsToString appointmentData.type ++ " appointment tomorrow" },
            { time := .timestamp second, sent := .bool false,
              message :=
                "You have a " ++ jsToString appointmentData.type ++ " appointment in 1 hour" }
          ] } }])
  | _, _ => (false, store)

/-- One call of `scheduleAppointmentReminder`: its argument, the id the store would give the
document, and whether the store fails. -/
structure ScheduleCall where
  fail : Bool
  newId : String
  appointmentData : ReminderRequest
  deriving DecidableEq, Repr

/-- The documents of `appointment_reminders` after a sequence of calls. -/
def scheduleAll (cenv : ClientEnv) (calls : List ScheduleCall)
    (store : List ScheduledReminderDoc) : List ScheduledReminderDoc :=
  calls.foldl
    (fun st c => (scheduleAppointmentReminder cenv c.fail c.newId c.appointmentData st).2) store

/-! ## Auxiliary definitions used to state the properties -/

/-- The decimal digits. -/
def decimalDigits : List Char := "0123456789".toList

/-- The letters occurring in the words "am", "pm" and "portion". -/
def wordLetters : List Char := "amportin".toList

/-- The decimal numeral of a number. -/
def decimal (n : Nat) : List Char := Nat.toDigits 10 n

/-- The two-digit numeral of a number below 100. -/
def twoDigits (n : Nat) : List Char := [Nat.digitChar (n / 10), Nat.digitChar (n % 10)]

/-- The slot-portion text "S - h:mm MER portion". -/
def slotText (S : List Char) (h m : Nat) (mer marker : List Char) : List Char :=
  S ++ " - ".toList ++ (decimal h ++ ':' :: (twoDigits m ++ ' ' :: (mer ++ ' ' :: marker)))

/-- Whether an entry is due at `now`: its `sent` flag is falsy and its trigger time, a
timestamp, is at most `now`. -/
def isDue (now : Int) (r : ReminderEntry) : Bool :=
  !r.sent.truthy &&
    (match r.time with
     | .timestamp ms => decide (ms ≤ now)
     | _ => false)

/-- The entry a sweep at `now` returns for a well-formed entry. -/
def markSent (now : Int) (r : ReminderEntry) : ReminderEntry :=
  if isDue now r then { r with sent := .bool true } else r

/-- The entry after sweeps at the times `ts`. -/
def markedAfter (ts : List Int) (r : ReminderEntry) : ReminderEntry :=
  if ts.any (fun t => isDue t r) then { r with sent := .bool true } else r

/-- Whether a value is a Firestore timestamp. -/
def JSVal.isTimestamp : JSVal → Bool
  | .timestamp _ => true
  | _ => false

/-- Every entry of the list has a timestamp as its trigger time. -/
def WellFormed (rs : List ReminderEntry) : Prop :=
  ∀ r ∈ rs, r.time.isTimestamp = true

instance instDecidableWellFormed (rs : List ReminderEntry) : Decidable (WellFormed rs) := by
  unfold WellFormed
  infer_instance

/-- The document with its entry list replaced. -/
def ReminderDoc.withReminders (d : ReminderDoc) (rs : List ReminderEntry) : ReminderDoc :=
  { d with data := { d.data with reminders := some rs } }

/-- The slots of a doctor that one sweep at `now` leaves. -/
def DoctorDoc.afterSweep (env : Env) (now : Int) (d : DoctorDoc) : DoctorDoc :=
  { d with availabilities := d.availabilities.filter (fun a => !availabilityExpired env now a) }

/-- Whether the mark-all-read query for `userId` selects the document. -/
def isUnreadOf (userId : JSVal) (d : NotificationDoc) : Prop :=
  d.data.userId = userId ∧ d.data.read = .bool false

instance instDecidableIsUnreadOf (userId : JSVal) (d : NotificationDoc) :
    Decidable (isUnreadOf userId d) := by
  unfold isUnreadOf
  infer_instance

/-- The `reminders` field of the document is an array whose entries all carry a
timestamp. -/
def ReminderDoc.WellFormed (d : ReminderDoc) : Prop :=
  match d.data.reminders with
  | some rs => HealthHub.WellFormed rs
  | none => False

instance instDecidableDocWellFormed (d : ReminderDoc) : Decidable d.WellFormed :=
  match h : d.data.reminders with
  | some rs =>
    if hw : HealthHub.WellFormed rs then isTrue (by unfold ReminderDoc.WellFormed; rw [h]; exact hw)
    else isFalse (by unfold ReminderDoc.WellFormed; rw [h]; exact hw)
  | none => isFalse (by unfold ReminderDoc.WellFormed; rw [h]; exact id)

/-- The update one sweep at `now` is expected to issue for a document: the whole new entry
list when some entry is due, nothing otherwise. -/
def expectedUpdate (now : Int) (d : ReminderDoc) : Option (String × List ReminderEntry) :=
  match d.data.reminders with
  | some rs => if rs.any (isDue now) then some (d.id, rs.map (markSent now)) else none
  | none => none

/-- The cleaned end time of a slot-portion text: the second piece around " - " with the
first "portion" removed, trimmed (the value of `endTimeString`). -/
def endTimeText (slot : List Char) : List Char :=
  jsTrim (removeFirstCI "portion".toList ((jsSplit " - " slot).getD 1 []))

/-- Whether a call is accepted, that is, returns `true`. -/
def ScheduleCall.accepted (cenv : ClientEnv) (c : ScheduleCall) : Bool :=
  (scheduleAppointmentReminder cenv c.fail c.newId c.appointmentData []).1

/-- The number of documents of the store that carry the appointment id `v`. -/
def documentsOf (v : JSVal) (store : List ScheduledReminderDoc) : Nat :=
  store.countP (fun d => decide (d.data.appointmentId = v))

/-- The local calendar year of a time value. -/
def localYear (env : Env) (t : Int) : Int :=
  (civilFromDays ((t + env.tza) / msPerDay)).1

/-- The time value of the local midnight that starts the local day of a time value. -/
def localMidnight (env : Env) (t : Int) : Int :=
  (t + env.tza) / msPerDay * msPerDay - env.tza

/-! ## Data of the examples -/

/-- The environment of the examples: a server five hours east of UTC. -/
def envPKT : Env :=
  { tza := 18000000, dateParse := fun _ => none, timestampText := fun _ => [] }

/-- The appointment of the scenario: local date 2024-06-01 (its midnight as a timestamp) and
slot "6:12 PM - 6:42 PM portion". -/
def scenarioAppointment (status : String) : AppointmentDoc :=
  { id := "appt1",
    data := { date := .timestamp 1717182000000, slotPortion := .str "6:12 PM - 6:42 PM portion",
              status := .str status, updatedAt := .undefined } }

/-- An appointment whose `slotPortion` is a number, not a string. -/
def brokenAppointment : AppointmentDoc :=
  { id := "appt0",
    data := { date := .timestamp 1717182000000, slotPortion := .num 5,
              status := .str "confirmed", updatedAt := .undefined } }

/-- The reminder document of the scenario: appointment at 1717250400000, entries 24 hours
(already sent) and 1 hour (not yet sent) before it. -/
def scenarioReminder : ReminderData :=
  { doctorId := "doc1", patientId := "pat1", doctorName := "Ahmed", patientName := "Sara",
    reminders := some
      [ { time := .timestamp 1717164000000, sent := .bool true,
          message := "You have a video appointment tomorrow" },
        { time := .timestamp 1717246800000, sent := .bool false,
          message := "You have a video appointment in 1 hour" } ] }

/-- A reminder document without a `reminders` array. -/
def brokenReminder : ReminderDoc :=
  { id := "rem0",
    data := { doctorId := "doc0", patientId := "pat0", doctorName := "Bilal",
              patientName := "Omar", reminders := none } }

/-- A reminder document whose first entry is due and unsent and whose second entry has
`null` as its `time`. -/
def dueThenBrokenReminder : ReminderDoc :=
  { id := "rem2",
    data := { doctorId := "doc2", patientId := "pat2", doctorName := "Bilal",
              patientName := "Omar",
              reminders := some
                [ { time := .timestamp 1717246800000, sent := .bool false, message := "m" },
                  { time := .null, sent := .bool false, message := "m" } ] } }

/-- A reminder document with one entry whose `time` is `null`. -/
def brokenEntryReminder : ReminderDoc :=
  { id := "rem0",
    data := { doctorId := "doc0", patientId := "pat0", doctorName := "Bilal",
              patientName := "Omar",
              reminders := some [{ time := .null, sent := .bool false, message := "m" }] } }

/-- An environment whose `Date.parse` reads the one ISO string of the example. -/
def envISO : Env :=
  { tza := 18000000,
    dateParse := fun s => if s = "2024-06-01T13:42:00.000Z".toList then some 1717249320000
                          else none,
    timestampText := fun _ => [] }

/-- The slot of the example: its `endTime` is the ISO string of 1717249320000. -/
def scenarioSlot : AvailabilityDoc :=
  { id := "slot1", endTime := .str "2024-06-01T13:42:00.000Z" }

/-- An unread notification of a user, as `sendNotification` stores it. -/
def unreadDoc (id userId : String) (createdAt : Int) : NotificationDoc :=
  { id := id,
    data := { userId := .str userId, title := .str "t", message := .str "m",
              type := .undefined, read := .bool false, createdAt := .timestamp createdAt } }

/-- A store with five unread notifications of "u1" and three of "u2". -/
def fiveAndThree : List NotificationDoc :=
  [unreadDoc "a1" "u1" 10, unreadDoc "b1" "u2" 11, unreadDoc "a2" "u1" 12,
   unreadDoc "a3" "u1" 13, unreadDoc "b2" "u2" 14, unreadDoc "a4" "u1" 15,
   unreadDoc "b3" "u2" 16, unreadDoc "a5" "u1" 17]

/-- A notification of "u1" stored without a `read` field and without a `createdAt` field. -/
def bareDoc : NotificationDoc :=
  { id := "n1",
    data := { userId := .str "u1", title := .str "t", message := .str "m",
              type := .undefined, read := .undefined, createdAt := .undefined } }

/-- An unread notification of "u1", stored under the document id "n3", whose data has an
`id` field of its own. -/
def ownIdDoc : NotificationDoc :=
  { id := "n3",
    data := { userId := .str "u1", title := .str "t", message := .str "m",
              type := .undefined, read := .bool false, createdAt := .num 5, id := .str "x" } }

/-- An unread notification of "u1" stored without a `createdAt` field. -/
def undatedDoc : NotificationDoc :=
  { id := "n2",
    data := { userId := .str "u1", title := .str "t", message := .str "m",
              type := .undefined, read := .bool false, createdAt := .undefined } }

/-- A notification of "u1" that is already read. -/
def readDoc : NotificationDoc :=
  { id := "r1",
    data := { userId := .str "u1", title := .str "t", message := .str "m",
              type := .undefined, read := .bool true, createdAt := .timestamp 5 } }

/-- A posted payload without a recipient. -/
def broadcastPayload : Payload :=
  { userId := .undefined, title := .str "Notice", message := .str "Maintenance tonight",
    type := .str "statusUpdate", read := .bool false, createdAt := .num 1717249320000 }

/-- A posted payload for "u1" that does not specify a `read` flag. -/
def payloadWithoutRead : Payload :=
  { userId := .str "u1", title := .str "Notice", message := .str "Your account is approved",
    type := .str "statusUpdate", read := .undefined, createdAt := .num 1717249320000 }

/-- A posted payload for "u1" with `read = false` and a `createdAt` field. -/
def unreadPayload : Payload :=
  { userId := .str "u1", title := .str "Notice", message := .str "Your account is approved",
    type := .str "statusUpdate", read := .bool false, createdAt := .num 1717249320000 }

/-- A server on which "u1" is registered with the socket "c1". -/
def serverWithU1 : Server :=
  { userSockets := [("u1", "c1")], notifications := [readDoc], emitted := [] }

/-- An appointment whose slot-portion has no " - ". -/
def noSeparatorAppointment : AppointmentDoc :=
  { id := "appt2",
    data := { date := .timestamp 1717182000000, slotPortion := .str "6:42 PM portion",
              status := .str "confirmed", updatedAt := .undefined } }

/-- An appointment whose end time has no meridiem token. -/
def noMeridiemAppointment : AppointmentDoc :=
  { id := "appt3",
    data := { date := .timestamp 1717182000000, slotPortion := .str "6:12 PM - 6:42 portion",
              status := .str "confirmed", updatedAt := .undefined } }

/-- An appointment whose end time carries the token "XM" in place of a meridiem. -/
def unknownMeridiemAppointment : AppointmentDoc :=
  { id := "appt4",
    data := { date := .timestamp 1717182000000, slotPortion := .str "6:12 PM - 6:42 XM portion",
              status := .str "confirmed", updatedAt := .undefined } }

/-- A browser whose conversions are not used by the examples. -/
def plainClient : ClientEnv :=
  { stringToNumber := fun _ => none, timestampText := fun _ => [] }

/-- A complete request for the appointment "A1" at 2024-06-01 18:00 local time. -/
def scenarioRequest : ReminderRequest :=
  { appointmentId := .str "A1",
    doctorId := .str "d1",
    patientId := .str "p1",
    appointmentTime := .num 1717246800000,
    doctorName := .str "Dr. Khan",
    patientName := .str "Ali",
    type := .str "video" }

/-- An appointment on local date 2024-06-01 whose slot ends after midnight. -/
def nightAppointment : AppointmentDoc :=
  { id := "appt5",
    data := { date := .timestamp 1717182000000,
              slotPortion := .str "11:45 PM - 12:15 AM portion",
              status := .str "confirmed", updatedAt := .undefined } }

/-- An appointment on local date 2024-06-01 whose end hour is written "13" with "PM". -/
def lateHourAppointment : AppointmentDoc :=
  { id := "appt6",
    data := { date := .timestamp 1717182000000,
              slotPortion := .str "12:30 PM - 13:30 PM portion",
              status := .str "confirmed", updatedAt := .undefined } }

/-- An appointment on local date 2024-06-01 whose end minute is written "75". -/
def lateMinuteAppointment : AppointmentDoc :=
  { id := "appt8",
    data := { date := .timestamp 1717182000000,
              slotPortion := .str "10:30 PM - 11:75 PM portion",
              status := .str "confirmed", updatedAt := .undefined } }

/-- An appointment on local date 0050-06-01. -/
def earlyYearAppointment : AppointmentDoc :=
  { id := "appt7",
    data := { date := .timestamp (-60576267600000),
              slotPortion := .str "6:12 PM - 6:42 PM portion",
              status := .str "confirmed", updatedAt := .undefined } }

/-! ## Properties of the appointment expiration sweep -/

theorem timeClip_eq_some {t x : Int} (h : timeClip t = some x) :
    x = t ∧ t.natAbs ≤ 8640000000000000 := by
  unfold timeClip at h
  split at h
  · exact ⟨(Option.some.inj h).symm, by assumption⟩
  · exact absurd h (by simp)

theorem newDateLocal_valid {env : Env} {y mo d h mi : JSNum} {E : Int}
    (hE : newDateLocal env y mo d h mi = some E) : E.natAbs ≤ 8640000000000000 := by
  unfold newDateLocal at hE
  split at hE
  · obtain ⟨h1, h2⟩ := timeClip_eq_some hE
    rw [h1]; exact h2
  · exact absurd hE (by simp)

theorem appointmentEnd_valid {env : Env} {a : AppointmentData} {E : Int}
    (hE : appointmentEnd env a = .ok (some (some E))) : E.natAbs ≤ 8640000000000000 := by
  unfold appointmentEnd at hE
  split at hE
  · exact absurd hE (by simp)
  · split at hE
    · split at hE
      · exact absurd hE (by simp)
      · simp only [Except.ok.injEq, Option.some.injEq] at hE
        exact newDateLocal_valid hE
    · exact absurd hE (by simp)

theorem nowAtLeast_grace {now E : Int} (hnow : timeClip now = some now)
    (hE : E.natAbs ≤ 8640000000000000) :
    nowAtLeast now ((some E : JSNum).bind (fun t => timeClip (t + 60000))) = true ↔
      E + 60000 ≤ now := by
  have hn := (timeClip_eq_some hnow).2
  simp only [Option.some_bind]
  unfold timeClip
  split
  · simp [nowAtLeast]
  · simp only [nowAtLeast]
    constructor
    · intro h; exact absurd h (by simp)
    · intro h; omega

theorem expireStep_of_end {env : Env} {now E : Int} {a : AppointmentData}
    (hnow : timeClip now = some now) (hE : appointmentEnd env a = .ok (some (some E)))
    (hs : a.status ≠ .str "expired") :
    expireStep env now a =
      if E + 60000 ≤ now then .ok (some { status := "expired", updatedAt := now })
      else .ok none := by
  have hv := appointmentEnd_valid hE
  have hg := nowAtLeast_grace hnow hv
  unfold expireStep
  rw [hE]
  simp only
  by_cases h : E + 60000 ≤ now
  · rw [if_pos ⟨hg.2 h, hs⟩, if_pos h]
  · rw [if_neg (fun hc => h (hg.1 hc.1)), if_neg h]

theorem expireStep_expired {env : Env} {now : Int} {a : AppointmentData}
    (hs : a.status = .str "expired") (u : AppointmentUpdate) :
    expireStep env now a ≠ .ok (some u) := by
  unfold expireStep
  split
  · simp
  · simp
  · rw [if_neg (fun hc => hc.2 hs)]
    simp

theorem expireStep_update {env : Env} {now : Int} {a : AppointmentData} {u : AppointmentUpdate}
    (h : expireStep env now a = .ok (some u)) :
    u = { status := "expired", updatedAt := now } ∧ a.status ≠ .str "expired" := by
  unfold expireStep at h
  split at h
  · simp at h
  · simp at h
  · simp only at h
    split at h
    · rename_i hc
      simp only [Except.ok.injEq, Option.some.injEq] at h
      exact ⟨h.symm, hc.2⟩
    · simp at h

/-- The document found at a position after one sweep is the stored one, or the stored one
with the update its loop body issued. -/
theorem appointmentSweep_get? (env : Env) (now : Int) :
    ∀ (docs : List AppointmentDoc) (i : Nat) (d : AppointmentDoc), docs.get? i = some d →
      (appointmentSweep env now docs).docs.get? i = some d ∨
      ∃ u, expireStep env now d.data = .ok (some u) ∧
        (appointmentSweep env now docs).docs.get? i = some (d.applyUpdate u)
  | [], i, d, h => by simp at h
  | x :: xs, i, d, h => by
    unfold appointmentSweep
    split
    · exact Or.inl h
    · cases i with
      | zero => exact Or.inl h
      | succ j =>
        simp only [List.get?_cons_succ] at h ⊢
        exact appointmentSweep_get? env now xs j d h
    · rename_i u hu
      cases i with
      | zero =>
        simp only [List.get?_cons_zero, Option.some.injEq] at h
        subst h
        exact Or.inr ⟨u, hu, rfl⟩
      | succ j =>
        simp only [List.get?_cons_succ] at h ⊢
        exact appointmentSweep_get? env now xs j d h

theorem appointmentSweep_single (env : Env) (now : Int) (d : AppointmentDoc) :
    appointmentSweep env now [d] =
      match expireStep env now d.data with
      | .error e => { docs := [d], writes := [], caught := some e }
      | .ok none => { docs := [d], writes := [], caught := none }
      | .ok (some u) => { docs := [d.applyUpdate u], writes := [(d.id, u)], caught := none } := by
  unfold appointmentSweep
  split <;> simp [appointmentSweep]

theorem appointmentSweep_cons (env : Env) (now : Int) (d : AppointmentDoc)
    (ds : List AppointmentDoc) :
    appointmentSweep env now (d :: ds) =
      match expireStep env now d.data with
      | .error e => { docs := d :: ds, writes := [], caught := some e }
      | .ok none =>
        { docs := d :: (appointmentSweep env now ds).docs,
          writes := (appointmentSweep env now ds).writes,
          caught := (appointmentSweep env now ds).caught }
      | .ok (some u) =>
        { docs := d.applyUpdate u :: (appointmentSweep env now ds).docs,
          writes := (d.id, u) :: (appointmentSweep env now ds).writes,
          caught := (appointmentSweep env now ds).caught } := by
  rw [appointmentSweep]

theorem appointmentSweep_append (env : Env) (now : Int) (post : List AppointmentDoc) :
    ∀ (pre : List AppointmentDoc), (∀ x ∈ pre, ∀ e, expireStep env now x.data ≠ .error e) →
      (appointmentSweep env now (pre ++ post)).docs =
          pre.map (AppointmentDoc.afterStep env now) ++ (appointmentSweep env now post).docs ∧
      (∀ w, w ∈ (appointmentSweep env now post).writes →
          w ∈ (appointmentSweep env now (pre ++ post)).writes)
  | [], _ => by simp
  | x :: xs, hpre => by
    have ih := appointmentSweep_append env now post xs
      (fun y hy => hpre y (List.mem_cons_of_mem _ hy))
    have hx := hpre x (List.mem_cons_self _ _)
    simp only [List.cons_append, List.map_cons]
    rw [appointmentSweep_cons]
    cases he : expireStep env now x.data with
    | error e => exact absurd he (hx e)
    | ok o =>
      cases o with
      | none =>
        simp only [AppointmentDoc.afterStep, he]
        exact ⟨by rw [ih.1], ih.2⟩
      | some u =>
        simp only [AppointmentDoc.afterStep, he]
        exact ⟨by rw [ih.1], fun w hw => List.mem_cons_of_mem _ (ih.2 w hw)⟩

/-- C1: in one run of the appointment expiration sweep, an appointment whose date and
slot-portion parse to the end-datetime `E` and whose status is not "expired" is written with
status "expired" and the current time as `updatedAt` exactly when `now >= E + 60000`;
before that nothing is written for it.  (The records in front of it must not throw.) -/
theorem appointment_expired_iff_grace_elapsed (env : Env) (now E : Int)
    (pre post : List AppointmentDoc) (d : AppointmentDoc)
    (hnow : timeClip now = some now)
    (hpre : ∀ x ∈ pre, ∀ e, expireStep env now x.data ≠ .error e)
    (hE : appointmentEnd env d.data = .ok (some (some E)))
    (hs : d.data.status ≠ .str "expired") :
    (expireStep env now d.data = .ok (some { status := "expired", updatedAt := now }) ↔
        E + 60000 ≤ now) ∧
    (E + 60000 ≤ now →
      (appointmentSweep env now (pre ++ d :: post)).docs.get? pre.length =
          some { d with data := { d.data with status := .str "expired",
                                              updatedAt := .timestamp now } } ∧
      (d.id, { status := "expired", updatedAt := now }) ∈
          (appointmentSweep env now (pre ++ d :: post)).writes) ∧
    (¬ E + 60000 ≤ now →
      expireStep env now d.data = .ok none ∧
      (appointmentSweep env now (pre ++ d :: post)).docs.get? pre.length = some d ∧
      appointmentSweep env now [d] = { docs := [d], writes := [], caught := none }) := by
  have hstep := expireStep_of_end hnow hE hs
  have happ := appointmentSweep_append env now (d :: post) pre hpre
  have hget : (appointmentSweep env now (pre ++ d :: post)).docs.get? pre.length =
      some (d.afterStep env now) := by
    rw [happ.1, List.get?_eq_getElem?, List.getElem?_append_right (by simp)]
    simp only [List.length_map, Nat.sub_self]
    rw [appointmentSweep_cons]
    unfold AppointmentDoc.afterStep
    split <;> rename_i h <;> simp [h]
  refine ⟨?_, ?_, ?_⟩
  · rw [hstep]
    by_cases h : E + 60000 ≤ now
    · simp [h]
    · simp [h]
  · intro h
    rw [if_pos h] at hstep
    refine ⟨?_, ?_⟩
    · rw [hget]
      simp [AppointmentDoc.afterStep, hstep, AppointmentDoc.applyUpdate]
    · apply happ.2
      rw [appointmentSweep_cons]
      simp [hstep]
  · intro h
    rw [if_neg h] at hstep
    refine ⟨hstep, ?_, ?_⟩
    · rw [hget]
      simp [AppointmentDoc.afterStep, hstep]
    · rw [appointmentSweep_single, hstep]

theorem appointment_expired_iff_grace_elapsed_witness :
    appointmentEnd envPKT (scenarioAppointment "confirmed").data = .ok (some (some 1717249320000)) ∧
    (appointmentSweep envPKT 1717249381000 [scenarioAppointment "confirmed"]).docs.get? 0 =
      some { id := "appt1",
             data := { date := .timestamp 1717182000000,
                       slotPortion := .str "6:12 PM - 6:42 PM portion",
                       status := .str "expired", updatedAt := .timestamp 1717249381000 } } ∧
    appointmentSweep envPKT 1717249350000 [scenarioAppointment "confirmed"] =
      { docs := [scenarioAppointment "confirmed"], writes := [], caught := none } :=
  ⟨by decide,
   ((appointment_expired_iff_grace_elapsed envPKT 1717249381000 1717249320000 [] []
      (scenarioAppointment "confirmed") (by decide) (by simp) (by decide) (by decide)).2.1
      (by decide)).1,
   ((appointment_expired_iff_grace_elapsed envPKT 1717249350000 1717249320000 [] []
      (scenarioAppointment "confirmed") (by decide) (by simp) (by decide) (by decide)).2.2
      (by decide)).2.2⟩

/-- C2 (as stated) fails: a "completed" appointment whose end-datetime plus the grace period
has passed is moved to "expired" by the sweep. -/
theorem completed_appointment_is_expired :
    appointmentSweep envPKT 1717249381000 [scenarioAppointment "completed"] =
      { docs := [{ id := "appt1",
                   data := { date := .timestamp 1717182000000,
                             slotPortion := .str "6:12 PM - 6:42 PM portion",
                             status := .str "expired",
                             updatedAt := .timestamp 1717249381000 } }],
        writes := [("appt1", { status := "expired", updatedAt := 1717249381000 })],
        caught := none } := by
  decide

/-- C2 (amended): a record whose status is "completed", "rejected" or "pending" is left
unchanged by one run of the sweep as long as `now < E + 60000`, where `E` is its
end-datetime; from `E + 60000` on it is moved to "expired" like a "confirmed" record.  The
status guard only keeps back records that are already "expired": whenever the sweep issues
an update, the status before was not "expired". -/
theorem other_status_expires_after_grace (env : Env) (now E : Int) (d : AppointmentDoc)
    (hnow : timeClip now = some now)
    (hE : appointmentEnd env d.data = .ok (some (some E)))
    (hs : d.data.status = .str "completed" ∨ d.data.status = .str "rejected" ∨
      d.data.status = .str "pending") :
    (now < E + 60000 →
      appointmentSweep env now [d] = { docs := [d], writes := [], caught := none }) ∧
    (E + 60000 ≤ now →
      appointmentSweep env now [d] =
        { docs := [{ d with data := { d.data with status := .str "expired",
                                                  updatedAt := .timestamp now } }],
          writes := [(d.id, { status := "expired", updatedAt := now })],
          caught := none }) ∧
    (∀ (a : AppointmentData) (u : AppointmentUpdate), expireStep env now a = .ok (some u) →
      a.status ≠ .str "expired") := by
  have hne : d.data.status ≠ .str "expired" := by
    rcases hs with h | h | h <;> rw [h] <;> decide
  have hstep := expireStep_of_end hnow hE hne
  refine ⟨?_, ?_, ?_⟩
  · intro h
    rw [if_neg (by omega)] at hstep
    rw [appointmentSweep_single, hstep]
  · intro h
    rw [if_pos h] at hstep
    rw [appointmentSweep_single, hstep]
    rfl
  · intro a u hu
    exact (expireStep_update hu).2

theorem other_status_expires_after_grace_witness :
    appointmentSweep envPKT 1717249350000 [scenarioAppointment "pending"] =
      { docs := [scenarioAppointment "pending"], writes := [], caught := none } :=
  (other_status_expires_after_grace envPKT 1717249350000 1717249320000
    (scenarioAppointment "pending") (by decide) (by decide)
    (Or.inr (Or.inr (by decide)))).1 (by decide)

theorem appointmentSweeps_get?_expired (env : Env) (nows : List Int) :
    ∀ (docs : List AppointmentDoc) (i : Nat) (d : AppointmentDoc), docs.get? i = some d →
      d.data.status = .str "expired" → (appointmentSweeps env nows docs).get? i = some d := by
  induction nows with
  | nil => intro docs i d h _; exact h
  | cons t ts ih =>
    intro docs i d h hs
    unfold appointmentSweeps
    rw [List.foldl_cons]
    apply ih _ i d _ hs
    rcases appointmentSweep_get? env t docs i d h with h1 | ⟨u, hu, _⟩
    · exact h1
    · exact absurd hu (expireStep_expired hs u)

/-- C3: for an appointment whose status is already "expired", the loop body issues no
update at any `now`, and after the sweep has run any number of times (at any times, over any
snapshot holding the record) the record is the same as before, status and `updatedAt`
included. -/
theorem expired_appointment_untouched (env : Env) (nows : List Int)
    (docs : List AppointmentDoc) (i : Nat) (d : AppointmentDoc)
    (hd : docs.get? i = some d) (hs : d.data.status = .str "expired") :
    (∀ now u, expireStep env now d.data ≠ .ok (some u)) ∧
    (∀ now, (appointmentSweep env now [d]).writes = []) ∧
    (appointmentSweeps env nows docs).get? i = some d := by
  refine ⟨fun now u => expireStep_expired hs u, ?_, appointmentSweeps_get?_expired env nows docs i d hd hs⟩
  intro now
  rw [appointmentSweep_single]
  split
  · rfl
  · rfl
  · rename_i u1 hu
    exact absurd hu (expireStep_expired hs u1)

theorem expired_appointment_untouched_witness :
    (appointmentSweeps envPKT [1717249381000, 1717249441000, 1717249501000]
      [scenarioAppointment "confirmed", scenarioAppointment "expired"]).get? 1 =
        some (scenarioAppointment "expired") :=
  (expired_appointment_untouched envPKT [1717249381000, 1717249441000, 1717249501000]
    [scenarioAppointment "confirmed", scenarioAppointment "expired"] 1
    (scenarioAppointment "expired") (by decide) (by decide)).2.2

/-! ## Parsing the end time of a slot-portion -/

theorem digit_facts {c : Char} (h : c ∈ decimalDigits) :
    c.isDigit = true ∧ c ≠ ' ' ∧ c ≠ '-' ∧ c ≠ '+' ∧ c ≠ ':' ∧ isJSWhiteSpace c = false ∧
      c.toLower ≠ 'p' := by
  simp only [decimalDigits, String.toList, List.mem_cons, List.mem_singleton] at h
  rcases h with h | h | h | h | h | h | h | h | h | h | h
  all_goals first | (subst h; decide) | simp at h

theorem jsSplitGo_skip (sep : List Char) :
    ∀ (l rest cur : List Char), jsSplitGo sep l.length (l ++ rest) cur = jsSplitGo sep 0 rest cur
  | [], rest, cur => by simp
  | c :: l, rest, cur => by
    simp only [List.length_cons, List.cons_append]
    cases rest with
    | nil => rw [jsSplitGo]; exact jsSplitGo_skip sep l [] cur
    | cons r rs => rw [jsSplitGo]; exact jsSplitGo_skip sep l (r :: rs) cur

/-- Splitting at a one-character separator that does not occur finds no piece boundary. -/
theorem jsSplitGo_single_none (x : Char) :
    ∀ (l cur : List Char), x ∉ l → jsSplitGo [x] 0 l cur = [cur.reverse ++ l]
  | [], cur, _ => by simp [jsSplitGo]
  | c :: l, cur, h => by
    have hc : x ≠ c := fun e => h (by simp [e])
    have hl : x ∉ l := fun e => h (List.mem_cons_of_mem _ e)
    have hp : [x].isPrefixOf (c :: l) = false := by
      simp [List.isPrefixOf_cons₂, hc]
    rw [jsSplitGo, hp]
    simp only [Bool.false_eq_true, if_false]
    rw [jsSplitGo_single_none x l (c :: cur) hl]
    simp

/-- Splitting at a one-character separator: the first piece ends at its first occurrence. -/
theorem jsSplitGo_single_first (x : Char) (rest : List Char) :
    ∀ (l cur : List Char), x ∉ l →
      jsSplitGo [x] 0 (l ++ x :: rest) cur = (cur.reverse ++ l) :: jsSplitGo [x] 0 rest []
  | [], cur, _ => by
    simp [jsSplitGo]
  | c :: l, cur, h => by
    have hc : x ≠ c := fun e => h (by simp [e])
    have hl : x ∉ l := fun e => h (List.mem_cons_of_mem _ e)
    have hp : [x].isPrefixOf (c :: (l ++ x :: rest)) = false := by
      simp [List.isPrefixOf_cons₂, hc]
    simp only [List.cons_append]
    rw [jsSplitGo, hp]
    simp only [Bool.false_eq_true, if_false]
    rw [jsSplitGo_single_first x rest l (c :: cur) hl]
    simp

/-- The separator " - " finds no piece boundary in a text without a hyphen. -/
theorem jsSplitGo_dash_none :
    ∀ (l cur : List Char), '-' ∉ l → jsSplitGo " - ".toList 0 l cur = [cur.reverse ++ l]
  | [], cur, _ => by simp [jsSplitGo]
  | [c], cur, _ => by
    simp [jsSplitGo, String.toList]
  | c :: b :: l, cur, h => by
    have hb : '-' ≠ b := fun e => h (by rw [e]; simp)
    have hl : '-' ∉ b :: l := fun e => h (List.mem_cons_of_mem _ e)
    rw [jsSplitGo]
    have hp : (" - ".toList).isPrefixOf (c :: b :: l) = false := by
      simp [String.toList, List.isPrefixOf_cons₂, hb]
    rw [hp]
    simp only [Bool.false_eq_true, if_false]
    rw [jsSplitGo_dash_none (b :: l) (c :: cur) hl]
    simp

theorem dash_prefix_false (S rest : List Char) (c : Char)
    (hS : ¬ " - ".toList <:+: (c :: S) ++ " -".toList) :
    (" - ".toList).isPrefixOf (c :: S ++ " - ".toList ++ rest) = false := by
  by_contra hc
  apply hS
  simp only [Bool.not_eq_false] at hc
  match S, hc with
  | [], hc => simp [String.toList] at hc
  | [b], hc =>
    simp [String.toList] at hc
    obtain ⟨h1, h2⟩ := hc
    subst h1; subst h2
    exact ⟨[], ['-'], rfl⟩
  | b :: b1 :: S2, hc =>
    simp [String.toList] at hc
    obtain ⟨h1, h2, h3⟩ := hc
    subst h1; subst h2; subst h3
    exact ⟨[], S2 ++ " -".toList, by simp [String.toList]⟩

/-- Splitting at " - ": when no occurrence of the separator starts inside `S`, the first
piece of `S ++ " - " ++ rest` is `S`. -/
theorem jsSplitGo_dash_first (rest : List Char) :
    ∀ (S cur : List Char), ¬ " - ".toList <:+: S ++ " -".toList →
      jsSplitGo " - ".toList 0 (S ++ " - ".toList ++ rest) cur =
        (cur.reverse ++ S) :: jsSplitGo " - ".toList 0 rest []
  | [], cur, _ => by
    simp [jsSplitGo, String.toList]
  | c :: S, cur, h => by
    have hp := dash_prefix_false S rest c h
    have hS : ¬ " - ".toList <:+: S ++ " -".toList := by
      intro hi
      apply h
      exact List.IsInfix.trans hi ⟨[c], [], by simp⟩
    have e : c :: S ++ " - ".toList ++ rest = c :: (S ++ " - ".toList ++ rest) := by simp
    rw [e] at hp ⊢
    rw [jsSplitGo, hp]
    simp only [Bool.false_eq_true, if_false]
    rw [jsSplitGo_dash_first rest S (c :: cur) hS]
    simp

theorem toLower_inv {c p : Char} (h : c.toLower = p) :
    c = p ∨ c = p.toUpper := by
  unfold Char.toLower at h
  simp only at h
  split at h
  · rename_i hr
    right
    have hc : c = Char.ofNat c.toNat := (Char.ofNat_toNat c).symm
    obtain ⟨h1, h2⟩ := hr
    generalize c.toNat = n at h h1 h2 hc
    subst hc
    subst h
    interval_cases n <;> rfl
  · exact Or.inl h

theorem letter_facts {c p : Char} (hp : p ∈ wordLetters) (h : c.toLower = p) :
    c ≠ ' ' ∧ c ≠ '-' ∧ c ≠ ':' ∧ isJSWhiteSpace c = false := by
  have hcases := toLower_inv h
  simp only [wordLetters, String.toList, List.mem_cons, List.mem_singleton] at hp
  rcases hp with hp | hp | hp | hp | hp | hp | hp | hp | hp
  all_goals first
    | (subst hp; rcases hcases with hc | hc <;> (subst hc; decide))
    | simp at hp

theorem removeFirstCI_skip (tail : List Char) :
    ∀ (pre : List Char), (∀ c ∈ pre, c.toLower ≠ 'p') →
      removeFirstCI "portion".toList (pre ++ tail) =
        pre ++ removeFirstCI "portion".toList tail
  | [], _ => by simp
  | c :: pre, h => by
    have hc : c.toLower ≠ 'p' := h c (List.mem_cons_self _ _)
    have hp : startsWithCI "portion".toList (c :: (pre ++ tail)) = false := by
      simp [startsWithCI, String.toList, List.isPrefixOf_cons₂, Ne.symm hc]
    simp only [List.cons_append]
    rw [removeFirstCI, hp]
    simp only [Bool.false_eq_true, if_false]
    rw [removeFirstCI_skip tail pre (fun x hx => h x (List.mem_cons_of_mem _ hx))]

/-- A marker that is "portion" in some letter case is removed whole. -/
theorem removeFirstCI_marker {marker : List Char}
    (hmk : jsToLowerCase marker = "portion".toList) :
    removeFirstCI "portion".toList marker = [] := by
  have hlen : marker.length = 7 := by
    have := congrArg List.length hmk
    simpa [jsToLowerCase, String.toList] using this
  match marker, hlen, hmk with
  | [k1, k2, k3, k4, k5, k6, k7], _, hmk =>
    have hp : startsWithCI "portion".toList [k1, k2, k3, k4, k5, k6, k7] = true := by
      unfold startsWithCI
      unfold jsToLowerCase at hmk
      rw [hmk]
      decide
    rw [removeFirstCI, hp]
    simp [String.toList]

theorem marker_no_dash {marker : List Char}
    (hmk : jsToLowerCase marker = "portion".toList) : '-' ∉ marker := by
  intro hmem
  have h1 : ('-' : Char).toLower ∈ jsToLowerCase marker := List.mem_map_of_mem _ hmem
  rw [hmk] at h1
  revert h1
  decide

theorem jsTrim_token (a z : Char) (t : List Char) (ha : isJSWhiteSpace a = false)
    (hz : isJSWhiteSpace z = false) : jsTrim (a :: t ++ [z, ' ']) = a :: t ++ [z] := by
  unfold jsTrim
  have h1 : (a :: t ++ [z, ' ']).dropWhile isJSWhiteSpace = a :: t ++ [z, ' '] := by
    simp [List.dropWhile, ha]
  rw [h1]
  have h2 : (a :: t ++ [z, ' ']).reverse = ' ' :: z :: (a :: t).reverse := by simp
  rw [h2]
  have h3 : isJSWhiteSpace ' ' = true := by decide
  simp [List.dropWhile, h3, hz]

theorem parseInt10_digits {ds : List Char} (hne : ds ≠ []) (hd : ∀ c ∈ ds, c ∈ decimalDigits) :
    parseInt10 ds = some (digitsValue ds : Int) := by
  match ds, hne, hd with
  | c :: t, _, hd =>
    have hc := digit_facts (hd c (List.mem_cons_self _ _))
    have hdrop : (c :: t).dropWhile isJSWhiteSpace = c :: t := by
      simp [List.dropWhile, hc.2.2.2.2.2.1]
    have htake : (c :: t).takeWhile Char.isDigit = c :: t := by
      rw [List.takeWhile_eq_self_iff]
      intro x hx
      exact (digit_facts (hd x hx)).1
    have hpd : parseDigits (c :: t) = some (digitsValue (c :: t)) := by
      unfold parseDigits
      simp only [htake]
      simp
    unfold parseInt10
    rw [hdrop]
    split
    · rename_i rest heq
      exact absurd (List.cons.inj heq).1 hc.2.2.1
    · rename_i rest heq
      exact absurd (List.cons.inj heq).1 hc.2.2.2.1
    · rw [hpd]
      rfl

theorem parseSlotEnd_tokens (S hs ms marker : List Char) (c1 c2 : Char)
    (hS : ¬ " - ".toList <:+: S ++ " -".toList)
    (hhs : hs ≠ []) (hhd : ∀ c ∈ hs, c ∈ decimalDigits)
    (hms : ms ≠ []) (hmd : ∀ c ∈ ms, c ∈ decimalDigits)
    (hc1 : c1.toLower = 'a' ∨ c1.toLower = 'p') (hc2 : c2.toLower = 'm')
    (hmk : jsToLowerCase marker = "portion".toList) :
    parseSlotEnd (S ++ " - ".toList ++ (hs ++ ':' :: (ms ++ ' ' :: ([c1, c2] ++ ' ' :: marker)))) =
      some (adjustHour [c1, c2] (some (digitsValue hs : Int)), some (digitsValue ms : Int)) := by
  have f1 : c1 ≠ ' ' ∧ c1 ≠ '-' ∧ c1 ≠ ':' ∧ isJSWhiteSpace c1 = false := by
    rcases hc1 with h | h
    · exact letter_facts (by decide) h
    · exact letter_facts (by decide) h
  have f2 : c2 ≠ ' ' ∧ c2 ≠ '-' ∧ c2 ≠ ':' ∧ isJSWhiteSpace c2 = false :=
    letter_facts (by decide) hc2
  -- the pieces around " - "
  have hnd : '-' ∉ hs ++ ':' :: (ms ++ ' ' :: ([c1, c2] ++ ' ' :: marker)) := by
    simp only [List.mem_append, List.mem_cons, List.mem_singleton, not_or]
    refine ⟨fun h => (digit_facts (hhd _ h)).2.2.1 rfl, by decide,
      fun h => (digit_facts (hmd _ h)).2.2.1 rfl, by decide, ?_⟩
    exact ⟨⟨Ne.symm f1.2.1, Ne.symm f2.2.1, List.not_mem_nil _⟩, by decide,
      marker_no_dash hmk⟩
  have hparts : jsSplit " - "
      (S ++ " - ".toList ++ (hs ++ ':' :: (ms ++ ' ' :: ([c1, c2] ++ ' ' :: marker)))) =
      [S, hs ++ ':' :: (ms ++ ' ' :: ([c1, c2] ++ ' ' :: marker))] := by
    unfold jsSplit
    rw [jsSplitGo_dash_first _ S [] hS, jsSplitGo_dash_none _ [] hnd]
    simp
  -- removing the marker and trimming
  have hrem : removeFirstCI "portion".toList
      (hs ++ ':' :: (ms ++ ' ' :: ([c1, c2] ++ ' ' :: marker))) =
      hs ++ ':' :: (ms ++ [' ', c1, c2, ' ']) := by
    have e1 : hs ++ ':' :: (ms ++ ' ' :: ([c1, c2] ++ ' ' :: marker)) =
        (hs ++ ':' :: (ms ++ [' '])) ++ (c1 :: ([c2, ' '] ++ marker)) := by simp
    rw [e1, removeFirstCI_skip]
    · have hp : startsWithCI "portion".toList (c1 :: ([c2, ' '] ++ marker)) = false := by
        simp [startsWithCI, String.toList, List.isPrefixOf_cons₂, hc2]
      rw [removeFirstCI, hp]
      simp only [Bool.false_eq_true, if_false]
      rw [removeFirstCI_skip, removeFirstCI_marker hmk]
      · simp
      · intro c hc
        simp only [List.mem_cons, List.mem_singleton, List.not_mem_nil, or_false] at hc
        rcases hc with h | h
        · rw [h, hc2]; decide
        · rw [h]; decide
    · intro c hc
      simp only [List.mem_append, List.mem_cons, List.mem_singleton, List.not_mem_nil,
        or_false] at hc
      rcases hc with h | h | h | h
      · exact (digit_facts (hhd _ h)).2.2.2.2.2.2
      · rw [h]; decide
      · exact (digit_facts (hmd _ h)).2.2.2.2.2.2
      · rw [h]; decide
  have htrim : jsTrim (hs ++ ':' :: (ms ++ [' ', c1, c2, ' '])) =
      (hs ++ ':' :: ms) ++ ' ' :: [c1, c2] := by
    match hs, hhs, hhd with
    | a :: t, _, hhd =>
      have ha := (digit_facts (hhd a (List.mem_cons_self _ _))).2.2.2.2.2.1
      have e : a :: t ++ ':' :: (ms ++ [' ', c1, c2, ' ']) =
          a :: (t ++ ':' :: (ms ++ [' ', c1])) ++ [c2, ' '] := by simp
      rw [e, jsTrim_token a c2 _ ha f2.2.2.2]
      simp
  -- the time and the meridiem
  have hnsp : ' ' ∉ hs ++ ':' :: ms := by
    simp only [List.mem_append, List.mem_cons, not_or]
    exact ⟨fun h => (digit_facts (hhd _ h)).2.1 rfl, by decide,
      fun h => (digit_facts (hmd _ h)).2.1 rfl⟩
  have hnsp2 : ' ' ∉ [c1, c2] := by
    simp only [List.mem_cons, List.mem_singleton, List.not_mem_nil, or_false, not_or]
    exact ⟨Ne.symm f1.1, Ne.symm f2.1⟩
  have hpieces : jsSplit " " ((hs ++ ':' :: ms) ++ ' ' :: [c1, c2]) =
      [hs ++ ':' :: ms, [c1, c2]] := by
    unfold jsSplit
    have e : " ".toList = [' '] := rfl
    rw [e, jsSplitGo_single_first ' ' _ _ [] hnsp, jsSplitGo_single_none ' ' _ [] hnsp2]
    simp
  have hncol : ':' ∉ hs := fun h => (digit_facts (hhd _ h)).2.2.2.2.1 rfl
  have hncol2 : ':' ∉ ms := fun h => (digit_facts (hmd _ h)).2.2.2.2.1 rfl
  have hhm : jsSplit ":" (hs ++ ':' :: ms) = [hs, ms] := by
    unfold jsSplit
    have e : ":".toList = [':'] := rfl
    rw [e, jsSplitGo_single_first ':' _ _ [] hncol, jsSplitGo_single_none ':' _ [] hncol2]
    simp
  have hne1 : (hs ++ ':' :: ms).isEmpty = false := by
    cases hs <;> simp
  unfold parseSlotEnd
  simp only [hparts, List.length_cons, List.length_nil, List.getD_cons_succ, List.getD_cons_zero,
    hrem, htrim, hpieces, List.get?_cons_zero, List.get?_cons_succ, falsyPiece, hne1,
    List.isEmpty_cons, Option.getD_some, hhm, parseIntOpt, parseInt10_digits hhs hhd,
    parseInt10_digits hms hmd]
  simp

theorem decimal_facts {h : Nat} (h1 : 1 ≤ h) (h2 : h ≤ 12) :
    decimal h ≠ [] ∧ (∀ c ∈ decimal h, c ∈ decimalDigits) ∧ digitsValue (decimal h) = h := by
  interval_cases h <;> decide

theorem twoDigits_facts {m : Nat} (hm : m < 60) :
    twoDigits m ≠ [] ∧ (∀ c ∈ twoDigits m, c ∈ decimalDigits) ∧ digitsValue (twoDigits m) = m := by
  interval_cases m <;> decide

/-- C4 (as stated) fails: the start text "6:12 PM -" contains no " - ", yet in
"6:12 PM - - 6:42 PM portion" the first separator starts inside it, and the hour and the
minute are parsed as `NaN`. -/
theorem start_text_ending_in_dash :
    ¬ " - ".toList <:+: "6:12 PM -".toList ∧
    slotText "6:12 PM -".toList 6 42 "PM".toList "portion".toList =
      "6:12 PM - - 6:42 PM portion".toList ∧
    parseSlotEnd (slotText "6:12 PM -".toList 6 42 "PM".toList "portion".toList) =
      some (none, none) := by
  decide

/-- C4 (amended): when no " - " starts inside the start text `S` (it neither contains " - "
nor ends in " -"), the slot-portion "S - h:mm MER portion" with `h` from 1 to 12, `mm` below
60, the meridiem and the marker in any letter case, is parsed to the hour
`h mod 12 + (12 if PM else 0)` and the minute `mm`, and the end-datetime is built from the
year, month and day of the appointment date with that hour and minute. -/
theorem slot_end_time_parsed (env : Env) (a : AppointmentData) (S mer marker : List Char)
    (h m : Nat) (pm : Bool)
    (hS : ¬ " - ".toList <:+: S ++ " -".toList)
    (hh1 : 1 ≤ h) (hh2 : h ≤ 12) (hm : m < 60)
    (hmer : jsToLowerCase mer = (if pm then "pm" else "am").toList)
    (hmk : jsToLowerCase marker = "portion".toList)
    (hdate : a.date.truthy = true)
    (hslot : a.slotPortion = .str (String.mk (slotText S h m mer marker))) :
    parseSlotEnd (slotText S h m mer marker) =
      some (some ((h % 12 + if pm then 12 else 0 : Nat) : Int), some (m : Int)) ∧
    appointmentEnd env a =
      .ok (some (newDateLocal env (getFullYear env (appointmentDateOf env a.date))
        (getMonth env (appointmentDateOf env a.date))
        (getDate env (appointmentDateOf env a.date))
        (some ((h % 12 + if pm then 12 else 0 : Nat) : Int)) (some (m : Int)))) := by
  obtain ⟨hd1, hd2, hd3⟩ := decimal_facts hh1 hh2
  obtain ⟨hm1, hm2, hm3⟩ := twoDigits_facts hm
  have hlen : mer.length = 2 := by
    have := congrArg List.length hmer
    cases pm <;> simpa [jsToLowerCase, String.toList] using this
  have hparse : parseSlotEnd (slotText S h m mer marker) =
      some (some ((h % 12 + if pm then 12 else 0 : Nat) : Int), some (m : Int)) := by
    match mer, hlen, hmer with
    | [c1, c2], _, hmer =>
      have hc : (c1.toLower = 'a' ∨ c1.toLower = 'p') ∧ c2.toLower = 'm' := by
        cases pm <;> simp [jsToLowerCase, String.toList] at hmer <;> simp [hmer]
      unfold slotText
      rw [parseSlotEnd_tokens S (decimal h) (twoDigits m) marker c1 c2 hS hd1 hd2 hm1 hm2
        hc.1 hc.2 hmk, hd3, hm3]
      have hadj : adjustHour [c1, c2] (some (h : Int)) =
          some ((h % 12 + if pm then 12 else 0 : Nat) : Int) := by
        unfold adjustHour
        rw [hmer]
        cases pm <;> interval_cases h <;> decide
      rw [hadj]
  refine ⟨hparse, ?_⟩
  unfold appointmentEnd
  have htr : a.slotPortion.truthy = true := by
    rw [hslot]
    simp [JSVal.truthy, slotText, String.toList]
  simp only [hdate, htr, Bool.not_true, Bool.or_self, Bool.false_eq_true, if_false]
  rw [hslot]
  simp only [String.toList]
  rw [hparse]

theorem slot_end_time_parsed_witness :
    parseSlotEnd "6:12 PM - 12:05 aM PORTION".toList = some (some 0, some 5) :=
  (slot_end_time_parsed envPKT
    { date := .timestamp 1717182000000, slotPortion := .str "6:12 PM - 12:05 aM PORTION",
      status := .str "confirmed", updatedAt := .undefined }
    "6:12 PM".toList "aM".toList "PORTION".toList 12 5 false
    (by decide) (by decide) (by decide) (by decide) (by decide) (by decide) (by decide)
    (by decide)).1

/-! ## Properties of the reminder sweep -/

theorem WellFormed.time {rs : List ReminderEntry} (h : WellFormed rs) {r : ReminderEntry}
    (hr : r ∈ rs) : ∃ ms, r.time = .timestamp ms := by
  have := h r hr
  cases ht : r.time <;> simp [ht, JSVal.isTimestamp] at this ⊢

theorem remindEntry_ok (now : Int) (rem : ReminderData) (r : ReminderEntry) (ms : Int)
    (h : r.time = .timestamp ms) :
    remindEntry now rem r =
      .ok { entry := markSent now r,
            calls := if isDue now r then reminderCalls rem r else [],
            updateNeeded := isDue now r } := by
  unfold remindEntry markSent isDue toDateOf
  rw [h]
  simp only [dateAtMost]
  split <;> rename_i hc <;> simp [hc]

theorem remindMap_ok (now : Int) (rem : ReminderData) :
    ∀ (rs : List ReminderEntry), WellFormed rs →
      remindMap now rem rs =
        { calls := rs.flatMap (fun r => if isDue now r then reminderCalls rem r else []),
          updateNeeded := rs.any (isDue now),
          outcome := .ok (rs.map (markSent now)) }
  | [], _ => by simp [remindMap]
  | r :: rs, h => by
    obtain ⟨ms, hms⟩ := WellFormed.time h (List.mem_cons_self _ _)
    have ih := remindMap_ok now rem rs (fun x hx => h x (List.mem_cons_of_mem _ hx))
    rw [remindMap, remindEntry_ok now rem r ms hms]
    simp only [ih]
    simp [Except.map]

/-- C5: for a reminder document whose entries all carry a timestamp, `reminders.map`
returns, for every `now`, a list of the same length and order in which entry `i` is the old
entry with `sent` set to `true` when the old `sent` is false and the trigger time is at most
`now` (the bound is inclusive), and is the old entry unchanged when `sent` is already true or
the trigger time is later than `now`. -/
theorem reminder_entries_marked (now : Int) (rem : ReminderData) (rs : List ReminderEntry)
    (hwf : WellFormed rs) :
    ∃ rs1, (remindMap now rem rs).outcome = .ok rs1 ∧ rs1.length = rs.length ∧
      ∀ (i : Nat) (r : ReminderEntry), rs.get? i = some r →
        ∃ ms, r.time = .timestamp ms ∧
          (r.sent = .bool false → ms ≤ now → rs1.get? i = some { r with sent := .bool true }) ∧
          (r.sent = .bool false → ms = now → rs1.get? i = some { r with sent := .bool true }) ∧
          (r.sent = .bool true ∨ now < ms → rs1.get? i = some r) := by
  refine ⟨rs.map (markSent now), ?_, by simp, ?_⟩
  · rw [remindMap_ok now rem rs hwf]
  · intro i r hi
    obtain ⟨ms, hms⟩ := hwf.time (List.get?_mem hi)
    have hget : (rs.map (markSent now)).get? i = some (markSent now r) := by
      rw [List.get?_eq_getElem?] at hi ⊢
      rw [List.getElem?_map, hi]
      rfl
    have hdue : ∀ (hs : r.sent = .bool false), ms ≤ now →
        (rs.map (markSent now)).get? i = some { r with sent := .bool true } := by
      intro hs hle
      rw [hget]
      simp [markSent, isDue, hs, hms, JSVal.truthy, hle]
    refine ⟨ms, hms, hdue, fun hs he => hdue hs (le_of_eq he), ?_⟩
    intro h
    rw [hget]
    rcases h with h | h
    · simp [markSent, isDue, h, JSVal.truthy]
    · have : ¬ ms ≤ now := by omega
      simp [markSent, isDue, hms, this]

theorem reminder_entries_marked_witness :
    ∃ rs1, (remindMap 1717246800000 scenarioReminder
        [ { time := .timestamp 1717164000000, sent := .bool true,
            message := "You have a video appointment tomorrow" },
          { time := .timestamp 1717246800000, sent := .bool false,
            message := "You have a video appointment in 1 hour" } ]).outcome = .ok rs1 ∧
      rs1.length = 2 :=
  (reminder_entries_marked 1717246800000 scenarioReminder
    [ { time := .timestamp 1717164000000, sent := .bool true,
        message := "You have a video appointment tomorrow" },
      { time := .timestamp 1717246800000, sent := .bool false,
        message := "You have a video appointment in 1 hour" } ]
    (by decide)).imp (fun _ h => ⟨h.1, h.2.1⟩)

/-- C6: for a reminder document whose entries all carry a timestamp, one sweep calls
`sendNotification` exactly twice for each entry that is unsent and whose trigger time is at
most `now`, once for the doctor and once for the patient of the document, in the order of
the entries, and makes no other call: `2 * k` calls for `k` due entries. -/
theorem reminder_calls_two_per_due_entry (now : Int) (rem : ReminderData)
    (rs : List ReminderEntry) (hwf : WellFormed rs) :
    (remindMap now rem rs).calls =
      rs.flatMap (fun r =>
        if isDue now r then
          [ { userId := rem.doctorId, title := "Appointment Reminder",
              message := r.message ++ " with " ++ rem.patientName },
            { userId := rem.patientId, title := "Appointment Reminder",
              message := r.message ++ " with Dr. " ++ rem.doctorName } ]
        else []) ∧
    (remindMap now rem rs).calls.length = 2 * rs.countP (isDue now) ∧
    (∀ (r : ReminderEntry) (ms : Int), r.time = .timestamp ms →
      (isDue now r = true ↔ r.sent.truthy = false ∧ ms ≤ now)) := by
  rw [remindMap_ok now rem rs hwf]
  refine ⟨rfl, ?_, ?_⟩
  · simp only
    clear hwf
    induction rs with
    | nil => simp
    | cons r rs ih =>
      simp only [List.flatMap_cons, List.length_append, ih, List.countP_cons]
      by_cases h : isDue now r = true
      · simp [h, reminderCalls]; omega
      · simp [h]
  · intro r ms hms
    simp [isDue, hms]

theorem reminder_calls_two_per_due_entry_witness :
    (remindMap 1717246800000 scenarioReminder
        [ { time := .timestamp 1717164000000, sent := .bool true,
            message := "You have a video appointment tomorrow" },
          { time := .timestamp 1717246800000, sent := .bool false,
            message := "You have a video appointment in 1 hour" } ]).calls =
      [ { userId := "doc1", title := "Appointment Reminder",
          message := "You have a video appointment in 1 hour with Sara" },
        { userId := "pat1", title := "Appointment Reminder",
          message := "You have a video appointment in 1 hour with Dr. Ahmed" } ] :=
  (reminder_calls_two_per_due_entry 1717246800000 scenarioReminder
    [ { time := .timestamp 1717164000000, sent := .bool true,
        message := "You have a video appointment tomorrow" },
      { time := .timestamp 1717246800000, sent := .bool false,
        message := "You have a video appointment in 1 hour" } ]
    (by decide)).1.trans (by decide)

theorem markSent_wellFormed (now : Int) (rs : List ReminderEntry) (h : WellFormed rs) :
    WellFormed (rs.map (markSent now)) := by
  intro r hr
  obtain ⟨x, hx, rfl⟩ := List.mem_map.1 hr
  have hx2 := h x hx
  unfold markSent
  split <;> simpa using hx2

theorem map_markSent_of_none_due (now : Int) :
    ∀ (rs : List ReminderEntry), rs.any (isDue now) = false → rs.map (markSent now) = rs
  | [], _ => rfl
  | r :: rs, h => by
    simp only [List.any_cons, Bool.or_eq_false_iff] at h
    rw [List.map_cons, map_markSent_of_none_due now rs h.2]
    simp [markSent, h.1]

/-- One sweep over a snapshot holding a single well-formed document. -/
theorem reminderSweep_single (now : Int) (d : ReminderDoc) (rs : List ReminderEntry)
    (hrs : d.data.reminders = some rs) (hwf : WellFormed rs) :
    (reminderSweep now [d]).docs = [d.withReminders (rs.map (markSent now))] ∧
    (reminderSweep now [d]).calls =
      rs.flatMap (fun r => if isDue now r then reminderCalls d.data r else []) ∧
    (reminderSweep now [d]).updates =
      (if rs.any (isDue now) then [(d.id, rs.map (markSent now))] else []) ∧
    (reminderSweep now [d]).caught = none := by
  rw [reminderSweep]
  simp only [hrs, remindMap_ok now d.data rs hwf, reminderSweep]
  by_cases h : rs.any (isDue now) = true
  · simp [h, ReminderDoc.withReminders]
  · simp only [h, Bool.false_eq_true, if_false, List.append_nil, and_self, and_true]
    simp only [Bool.not_eq_true] at h
    rw [map_markSent_of_none_due now rs h]
    simp only [ReminderDoc.withReminders, ← hrs]

theorem isDue_marked (t now : Int) (r : ReminderEntry) (h : isDue now r = true) :
    isDue t (markSent now r) = false := by
  have e : markSent now r = { r with sent := .bool true } := by
    unfold markSent
    rw [if_pos h]
  rw [e]
  simp [isDue, JSVal.truthy]

theorem markedAfter_markSent (t : Int) (ts : List Int) (r : ReminderEntry) :
    markedAfter ts (markSent t r) = markedAfter (t :: ts) r := by
  by_cases h : isDue t r = true
  · have h1 : ∀ x, isDue x (markSent t r) = false := fun x => isDue_marked x t r h
    simp [markedAfter, h1, h]
    simp [markSent, h]
  · simp [markedAfter, markSent, h]

theorem reminderSweeps_single (d : ReminderDoc) :
    ∀ (ts : List Int) (rs : List ReminderEntry), d.data.reminders = some rs → WellFormed rs →
      reminderSweeps ts [d] = [d.withReminders (rs.map (markedAfter ts))]
  | [], rs, hrs, _ => by
    have hid : markedAfter [] = id := by
      funext r
      simp [markedAfter]
    rw [hid, List.map_id]
    simp only [reminderSweeps, List.foldl_nil, ReminderDoc.withReminders, ← hrs]
  | t :: ts, rs, hrs, hwf => by
    have h1 := (reminderSweep_single t d rs hrs hwf).1
    unfold reminderSweeps
    rw [List.foldl_cons, h1]
    have ih2 := reminderSweeps_single (d.withReminders (rs.map (markSent t))) ts
      (rs.map (markSent t)) rfl (markSent_wellFormed t rs hwf)
    unfold reminderSweeps at ih2
    rw [ih2]
    simp [ReminderDoc.withReminders, markedAfter_markSent]
termination_by ts => ts.length

theorem markedAfter_wellFormed (ts : List Int) (rs : List ReminderEntry) (h : WellFormed rs) :
    WellFormed (rs.map (markedAfter ts)) := by
  intro r hr
  obtain ⟨x, hx, rfl⟩ := List.mem_map.1 hr
  have hx2 := h x hx
  unfold markedAfter
  split <;> simpa using hx2

theorem isDue_markedAfter (t : Int) (ts : List Int) (r : ReminderEntry) :
    isDue t (markedAfter ts r) = (isDue t r && ts.all (fun x => !isDue x r)) := by
  by_cases h : ts.any (fun x => isDue x r) = true
  · have e : markedAfter ts r = { r with sent := .bool true } := by
      unfold markedAfter
      rw [if_pos h]
    have h2 : ts.all (fun x => !isDue x r) = false := by
      simp only [List.any_eq_true] at h
      obtain ⟨x, hx, hd⟩ := h
      rw [List.all_eq_false]
      exact ⟨x, hx, by simp [hd]⟩
    rw [e, h2]
    simp [isDue, JSVal.truthy]
  · have e : markedAfter ts r = r := by
      unfold markedAfter
      rw [if_neg h]
    have h2 : ts.all (fun x => !isDue x r) = true := by
      simp only [List.any_eq_true, not_exists, not_and, Bool.not_eq_true] at h
      rw [List.all_eq_true]
      intro x hx
      simp [h x hx]
    rw [e, h2]
    simp

theorem reminderCalls_markedAfter (d : ReminderDoc) (rs : List ReminderEntry) (ts : List Int)
    (r : ReminderEntry) :
    reminderCalls (d.withReminders rs).data (markedAfter ts r) = reminderCalls d.data r := by
  unfold markedAfter
  split <;> rfl

/-- C7: for a reminder document whose entries all carry a timestamp and any sequence `ts` of
sweep times (each write-back applied before the next sweep), the sweep at `t` that follows
dispatches for an entry exactly when the entry is unsent, `t` has reached its trigger time
and no earlier sweep time had: only the first sweep at or after the trigger time dispatches
for it, every later sweep sends nothing for it, and a `sent` flag that is set stays set. -/
theorem reminder_dispatched_at_most_once (d : ReminderDoc) (rs : List ReminderEntry)
    (hrs : d.data.reminders = some rs) (hwf : WellFormed rs) (ts : List Int) (t : Int) :
    reminderSweeps ts [d] = [d.withReminders (rs.map (markedAfter ts))] ∧
    (reminderSweep t (reminderSweeps ts [d])).calls =
      rs.flatMap (fun r =>
        if isDue t r && ts.all (fun x => !isDue x r) then reminderCalls d.data r else []) ∧
    (∀ (r : ReminderEntry) (ms : Int), r.time = .timestamp ms →
      ((isDue t r && ts.all (fun x => !isDue x r)) = true ↔
        r.sent.truthy = false ∧ ms ≤ t ∧ ∀ x ∈ ts, x < ms)) ∧
    (∀ (r : ReminderEntry) (ts2 : List Int) (t2 : Int),
      (isDue t r && ts.all (fun x => !isDue x r)) = true →
      (isDue t2 r && (ts ++ t :: ts2).all (fun x => !isDue x r)) = false) ∧
    (∀ (r : ReminderEntry) (ts2 : List Int), (markedAfter ts r).sent.truthy = true →
      (markedAfter (ts ++ ts2) r).sent.truthy = true) := by
  have hstate := reminderSweeps_single d ts rs hrs hwf
  refine ⟨hstate, ?_, ?_, ?_, ?_⟩
  · rw [hstate, (reminderSweep_single t (d.withReminders (rs.map (markedAfter ts)))
      (rs.map (markedAfter ts)) rfl (markedAfter_wellFormed ts rs hwf)).2.1]
    rw [List.flatMap_map]
    congr 1
    funext r
    rw [isDue_markedAfter, reminderCalls_markedAfter]
  · intro r ms hms
    have hd : ∀ x, isDue x r = true ↔ r.sent.truthy = false ∧ ms ≤ x := by
      intro x
      simp [isDue, hms]
    simp only [Bool.and_eq_true, List.all_eq_true, Bool.not_eq_true', hd]
    constructor
    · rintro ⟨⟨h1, h2⟩, h3⟩
      refine ⟨h1, h2, fun x hx => ?_⟩
      have := h3 x hx
      by_contra hc
      have hx2 : isDue x r = true := (hd x).2 ⟨h1, by omega⟩
      rw [hx2] at this
      exact absurd this (by simp)
    · rintro ⟨h1, h2, h3⟩
      refine ⟨⟨h1, h2⟩, fun x hx => ?_⟩
      have := h3 x hx
      cases hc : isDue x r
      · rfl
      · have := ((hd x).1 hc).2
        omega
  · intro r ts2 t2 h
    simp only [Bool.and_eq_true] at h
    have h2 : (ts ++ t :: ts2).all (fun x => !isDue x r) = false := by
      rw [List.all_eq_false]
      exact ⟨t, by simp, by simp [h.1]⟩
    rw [h2]
    simp
  · intro r ts2 h
    unfold markedAfter at h ⊢
    by_cases h1 : ts.any (fun x => isDue x r) = true
    · have h2 : (ts ++ ts2).any (fun x => isDue x r) = true := by
        rw [List.any_append, h1]
        rfl
      rw [if_pos h2]
      rfl
    · rw [if_neg h1] at h
      split
      · rfl
      · exact h

theorem reminder_dispatched_at_most_once_witness :
    (reminderSweep 1717246860000
      (reminderSweeps [1717246740000, 1717246800000]
        [{ id := "rem1", data := scenarioReminder }])).calls = [] :=
  (reminder_dispatched_at_most_once { id := "rem1", data := scenarioReminder }
    [ { time := .timestamp 1717164000000, sent := .bool true,
        message := "You have a video appointment tomorrow" },
      { time := .timestamp 1717246800000, sent := .bool false,
        message := "You have a video appointment in 1 hour" } ]
    rfl
    (by decide)
    [1717246740000, 1717246800000] 1717246860000).2.1.trans (by decide)

/-! ## A malformed record ends the pass -/

/-- C8: the code at the failing inputs.  A record that throws ends the pass: the due,
well-formed record behind it is transitioned when it is swept alone, and is left as it was
(no update, no call) when the malformed record stands before it.  When the throw comes from
a later entry of a document, the calls already made for its due entries are not followed by
the write-back, and the next sweep makes them again. -/
theorem sweep_stops_at_malformed_record :
    (appointmentSweep envPKT 1717249381000 [scenarioAppointment "confirmed"]).writes =
        [("appt1", { status := "expired", updatedAt := 1717249381000 })] ∧
    appointmentSweep envPKT 1717249381000 [brokenAppointment, scenarioAppointment "confirmed"] =
      { docs := [brokenAppointment, scenarioAppointment "confirmed"], writes := [],
        caught := some .typeError } ∧
    (reminderSweep 1717246800000 [{ id := "rem1", data := scenarioReminder }]).calls.length = 2 ∧
    (reminderSweep 1717246800000 [{ id := "rem1", data := scenarioReminder }]).updates.length
        = 1 ∧
    reminderSweep 1717246800000 [brokenReminder, { id := "rem1", data := scenarioReminder }] =
      { docs := [brokenReminder, { id := "rem1", data := scenarioReminder }], calls := [],
        updates := [], caught := some .typeError } ∧
    reminderSweep 1717246800000
        [brokenEntryReminder, { id := "rem1", data := scenarioReminder }] =
      { docs := [brokenEntryReminder, { id := "rem1", data := scenarioReminder }], calls := [],
        updates := [], caught := some .typeError } ∧
    reminderSweep 1717246800000 [dueThenBrokenReminder] =
      { docs := [dueThenBrokenReminder],
        calls := [ { userId := "doc2", title := "Appointment Reminder",
                     message := "m with Omar" },
                   { userId := "pat2", title := "Appointment Reminder",
                     message := "m with Dr. Bilal" } ],
        updates := [], caught := some .typeError } ∧
    (reminderSweep 1717246860000
        (reminderSweep 1717246800000 [dueThenBrokenReminder]).docs).calls.length = 2 := by
  decide

/-! ## Properties of the socket registry -/

/-- C9: the code at the failing input.  The socket "c2" is already registered for "u0";
after `register(u1, c1)` and `register(u1, c2)` the registry maps "u1" to "c2", but the
disconnect of "c2" deletes the entry of "u0" and stops, so "u1" is still mapped to "c2" and
a push addressed to "u1" is still emitted to "c2". -/
theorem registry_churn_leaves_stale_entry :
    onRegister (onRegister [("u0", "c2")] "c1" "u1") "c2" "u1" = [("u0", "c2"), ("u1", "c2")] ∧
    pushTargets (onRegister (onRegister [("u0", "c2")] "c1" "u1") "c2" "u1") "u1" = ["c2"] ∧
    onDisconnect (onRegister (onRegister [("u0", "c2")] "c1" "u1") "c2" "u1") "c2" =
      [("u1", "c2")] ∧
    pushTargets (onDisconnect (onRegister (onRegister [("u0", "c2")] "c1" "u1") "c2" "u1") "c2")
      "u1" = ["c2"] := by
  decide

/-- C10: the code at the failing input.  The socket "c" has registered as "u1" and then as
"u2"; its disconnect handler deletes the entry of "u1" only, and "u2" is still mapped to
"c". -/
theorem disconnect_removes_first_entry_only :
    onRegister (onRegister [] "c" "u1") "c" "u2" = [("u1", "c"), ("u2", "c")] ∧
    onDisconnect (onRegister (onRegister [] "c" "u1") "c" "u2") "c" = [("u2", "c")] ∧
    (onDisconnect (onRegister (onRegister [] "c" "u1") "c" "u2") "c").get "u2" = some "c" := by
  decide

theorem Registry.get_set_self (m : Registry) (u v : String) : (m.set u v).get u = some v := by
  unfold Registry.set Registry.get
  split
  · rename_i h
    induction m with
    | nil => simp at h
    | cons e m ih =>
      by_cases he : e.1 = u
      · simp [List.find?, he]
      · have h2 : m.any (fun x => x.1 == u) = true := by
          simpa [List.any_cons, he] using h
        have hb : (e.1 == u) = false := by simpa using he
        rw [List.map_cons, hb]
        simp only [Bool.false_eq_true, if_false]
        rw [List.find?_cons_of_neg _ (by simp [hb])]
        exact ih h2
  · rename_i h
    have hnone : m.find? (fun e => e.1 == u) = none := by
      rw [List.find?_eq_none]
      intro x hx hc
      apply h
      rw [List.any_eq_true]
      exact ⟨x, hx, hc⟩
    simp [List.find?_append, hnone]

theorem Registry.mem_set {m : Registry} {u v : String} {e : String × String}
    (he : e ∈ m.set u v) : e = (u, v) ∨ (e ∈ m ∧ e.1 ≠ u) := by
  unfold Registry.set at he
  split at he
  · obtain ⟨x, hx, hxe⟩ := List.mem_map.1 he
    by_cases hk : x.1 = u
    · simp [hk] at hxe
      exact Or.inl hxe.symm
    · simp [hk] at hxe
      subst hxe
      exact Or.inr ⟨hx, hk⟩
  · rename_i h
    rcases List.mem_append.1 he with h1 | h1
    · right
      refine ⟨h1, fun hk => h ?_⟩
      rw [List.any_eq_true]
      exact ⟨e, h1, by simp [hk]⟩
    · simp at h1
      exact Or.inl h1

/-- What does hold for the registry churn: when no other user of the starting registry is
mapped to the socket `c2`, the two registrations leave `u1` mapped to `c2`, a push goes to
`c2` only, and after the disconnect of `c2` there is no entry and no push for `u1`. -/
theorem registry_churn_unshared_socket (m : Registry) (u1 c1 c2 : String)
    (hc2 : c2.toList.isEmpty = false) (H : ∀ e ∈ m, e.2 = c2 → e.1 = u1) :
    (onRegister (onRegister m c1 u1) c2 u1).get u1 = some c2 ∧
    pushTargets (onRegister (onRegister m c1 u1) c2 u1) u1 = [c2] ∧
    (onDisconnect (onRegister (onRegister m c1 u1) c2 u1) c2).get u1 = none ∧
    pushTargets (onDisconnect (onRegister (onRegister m c1 u1) c2 u1) c2) u1 = [] := by
  have hget : (onRegister (onRegister m c1 u1) c2 u1).get u1 = some c2 :=
    Registry.get_set_self _ u1 c2
  have H2 : ∀ e ∈ onRegister (onRegister m c1 u1) c2 u1, e.2 = c2 → e.1 = u1 := by
    intro e he hv
    rcases Registry.mem_set he with h | ⟨h, _⟩
    · rw [h]
    · rcases Registry.mem_set h with h1 | ⟨h1, _⟩
      · rw [h1]
      · exact H e h1 hv
  generalize onRegister (onRegister m c1 u1) c2 u1 = m2 at hget H2
  have hdel : (onDisconnect m2 c2).get u1 = none := by
    unfold onDisconnect
    cases hf : m2.find? (fun e => e.2 == c2) with
    | none =>
      exfalso
      unfold Registry.get at hget
      cases hg : m2.find? (fun e => e.1 == u1) with
      | none => simp [hg] at hget
      | some x =>
        simp [hg] at hget
        have hx := List.mem_of_find?_eq_some hg
        rw [List.find?_eq_none] at hf
        exact hf x hx (by simp [hget])
    | some e =>
      have he := List.mem_of_find?_eq_some hf
      have hv : e.2 = c2 := by
        have := List.find?_some hf
        simpa using this
      have hk := H2 e he hv
      simp only [hk]
      unfold Registry.get Registry.delete
      have : (m2.filter (fun e => e.1 != u1)).find? (fun e => e.1 == u1) = none := by
        rw [List.find?_eq_none]
        intro x hx
        have := (List.mem_filter.1 hx).2
        simpa using this
      rw [this]
      rfl
  refine ⟨hget, ?_, hdel, ?_⟩
  · simp only [pushTargets, hget, hc2]
    rfl
  · simp [pushTargets, hdel]

/-- What does hold for the disconnect handler: when all entries whose value is the socket
`c` belong to one user, no entry is mapped to `c` afterwards. -/
theorem disconnect_clears_single_user (m : Registry) (c : String)
    (H : ∀ e1 ∈ m, ∀ e2 ∈ m, e1.2 = c → e2.2 = c → e1.1 = e2.1) :
    ∀ e ∈ onDisconnect m c, e.2 ≠ c := by
  intro e he hv
  unfold onDisconnect at he
  cases hf : m.find? (fun e => e.2 == c) with
  | none =>
    rw [hf] at he
    rw [List.find?_eq_none] at hf
    exact hf e he (by simp [hv])
  | some e0 =>
    rw [hf] at he
    have h0 := List.mem_of_find?_eq_some hf
    have hv0 : e0.2 = c := by
      have := List.find?_some hf
      simpa using this
    simp only [Registry.delete] at he
    obtain ⟨hm, hk⟩ := List.mem_filter.1 he
    have := H e hm e0 h0 hv hv0
    simp [this] at hk

/-! ## Properties of the availability expiration sweep -/

theorem sweepAvailabilities_eq (env : Env) (now : Int) :
    ∀ (l : List AvailabilityDoc),
      sweepAvailabilities env now l =
        (l.filter (fun a => !availabilityExpired env now a),
         (l.filter (availabilityExpired env now)).map (fun a => a.id))
  | [] => rfl
  | a :: rest => by
    rw [sweepAvailabilities, sweepAvailabilities_eq env now rest]
    cases h : availabilityExpired env now a <;> simp [h]

theorem availabilityExpired_iff {env : Env} {now T : Int} {a : AvailabilityDoc}
    (hnow : timeClip now = some now) (ht : a.endTime.truthy = true)
    (hT : newDateOf env a.endTime = some T) :
    availabilityExpired env now a = true ↔ T + 60000 ≤ now := by
  have hv : T.natAbs ≤ 8640000000000000 := by
    cases he : a.endTime <;> rw [he] at hT <;> simp only [newDateOf] at hT
    · exact absurd hT (by simp)
    · exact (timeClip_eq_some hT).1 ▸ (timeClip_eq_some hT).2
    · exact (timeClip_eq_some hT).1 ▸ (timeClip_eq_some hT).2
    · exact (timeClip_eq_some hT).1 ▸ (timeClip_eq_some hT).2
    · rename_i s
      cases hp : env.dateParse s.toList with
      | none => rw [hp] at hT; exact absurd hT (by simp)
      | some x =>
        rw [hp] at hT
        exact (timeClip_eq_some hT).1 ▸ (timeClip_eq_some hT).2
    · rename_i ms
      cases hp : env.dateParse (env.timestampText ms) with
      | none => rw [hp] at hT; exact absurd hT (by simp)
      | some x =>
        rw [hp] at hT
        exact (timeClip_eq_some hT).1 ▸ (timeClip_eq_some hT).2
  unfold availabilityExpired
  simp only [ht, Bool.not_true, Bool.false_eq_true, if_false, hT]
  exact nowAtLeast_grace hnow hv

theorem availabilitySweep_eq (env : Env) (now : Int) :
    ∀ (l : List DoctorDoc),
      availabilitySweep env now l =
        { doctors := l.map (DoctorDoc.afterSweep env now),
          deleted := l.flatMap (fun d =>
            ((d.availabilities.filter (availabilityExpired env now)).map
              (fun a => (d.id, a.id)))) }
  | [] => rfl
  | d :: ds => by
    rw [availabilitySweep, availabilitySweep_eq env now ds, sweepAvailabilities_eq]
    simp [DoctorDoc.afterSweep]

/-- C11: in one run of the availability sweep a slot whose `endTime` field is present and
denotes the instant `T` is left in place when `now < T + 60000` and is deleted when
`now >= T + 60000`; the slots of every doctor after the sweep are exactly those not
deleted. -/
theorem availability_deleted_iff_grace_elapsed (env : Env) (now T : Int)
    (docs : List DoctorDoc) (d : DoctorDoc) (a : AvailabilityDoc)
    (hnow : timeClip now = some now) (hd : d ∈ docs) (ha : a ∈ d.availabilities)
    (ht : a.endTime.truthy = true) (hT : newDateOf env a.endTime = some T) :
    (availabilityExpired env now a = true ↔ T + 60000 ≤ now) ∧
    (availabilitySweep env now docs).doctors = docs.map (DoctorDoc.afterSweep env now) ∧
    (now < T + 60000 → a ∈ (d.afterSweep env now).availabilities) ∧
    (T + 60000 ≤ now →
      a ∉ (d.afterSweep env now).availabilities ∧
      (d.id, a.id) ∈ (availabilitySweep env now docs).deleted) := by
  have hiff := availabilityExpired_iff hnow ht hT
  rw [availabilitySweep_eq]
  refine ⟨hiff, rfl, ?_, ?_⟩
  · intro h
    have hne : availabilityExpired env now a = false := by
      cases hc : availabilityExpired env now a
      · rfl
      · have := hiff.1 hc
        omega
    simp [DoctorDoc.afterSweep, ha, hne]
  · intro h
    have he := hiff.2 h
    refine ⟨by simp [DoctorDoc.afterSweep, he], ?_⟩
    simp only [List.mem_flatMap, List.mem_map, List.mem_filter]
    exact ⟨d, hd, a, ⟨ha, he⟩, rfl⟩

theorem availability_deleted_iff_grace_elapsed_witness :
    scenarioSlot ∈
      (DoctorDoc.afterSweep envISO 1717249379000
        { id := "doc1", availabilities := [scenarioSlot] }).availabilities ∧
    (availabilitySweep envISO 1717249380000
      [{ id := "doc1", availabilities := [scenarioSlot] }]).deleted = [("doc1", "slot1")] :=
  ⟨(availability_deleted_iff_grace_elapsed envISO 1717249379000 1717249320000
      [{ id := "doc1", availabilities := [scenarioSlot] }]
      { id := "doc1", availabilities := [scenarioSlot] } scenarioSlot
      (by decide) (by decide) (by decide) (by decide) (by decide)).2.2.1 (by decide),
   by decide⟩

/-! ## Properties of the notification endpoints -/

theorem mem_unreadQuery {userId : JSVal} {store : List NotificationDoc} {d : NotificationDoc} :
    d ∈ unreadQuery userId store ↔ d ∈ store ∧ isUnreadOf userId d := by
  simp [unreadQuery, isUnreadOf]

theorem id_mem_unreadQuery {userId : JSVal} {store : List NotificationDoc}
    (hid : (store.map (fun d => d.id)).Nodup) {d : NotificationDoc} (hd : d ∈ store) :
    d.id ∈ (unreadQuery userId store).map (fun d => d.id) ↔ isUnreadOf userId d := by
  constructor
  · intro h
    obtain ⟨x, hx, hxd⟩ := List.mem_map.1 h
    obtain ⟨hxs, hxu⟩ := mem_unreadQuery.1 hx
    have : x = d := List.inj_on_of_nodup_map hid hxs hd hxd
    rw [← this]
    exact hxu
  · intro h
    exact List.mem_map.2 ⟨d, mem_unreadQuery.2 ⟨hd, h⟩, rfl⟩

theorem postMarkAllRead_ok {userId : JSVal} {store : List NotificationDoc}
    (ht : userId.truthy = true) (hid : (store.map (fun d => d.id)).Nodup) :
    postMarkAllRead none none userId store =
      { response := { status := 200, body := .success },
        store := store.map (fun d => if isUnreadOf userId d then d.markRead else d),
        ops := [.query userId, .commit ((unreadQuery userId store).map (fun d => d.id))] } := by
  unfold postMarkAllRead
  simp only [ht, Bool.not_true, Bool.false_eq_true, if_false]
  congr 1
  apply List.map_congr_left
  intro d hd
  by_cases h : isUnreadOf userId d
  · rw [if_pos h, if_pos ((id_mem_unreadQuery hid hd).2 h)]
  · rw [if_neg h, if_neg (fun hc => h ((id_mem_unreadQuery hid hd).1 hc))]

/-- C12 (as stated) fails: a notification of "u1" stored without a `read` field is not
selected by the query for `read == false`, and after a successful mark-all-read for "u1"
its `read` field is still not `true`. -/
theorem mark_all_read_skips_record_without_flag :
    (postMarkAllRead none none (.str "u1") [bareDoc]).response =
      { status := 200, body := .success } ∧
    (postMarkAllRead none none (.str "u1") [bareDoc]).store = [bareDoc] ∧
    bareDoc.data.userId = .str "u1" ∧ bareDoc.data.read ≠ .bool true := by
  decide

/-- C12 (amended): after a successful mark-all-read for a non-empty user id `u`, every
notification of `u` whose `read` flag was `false` has `read = true` and is otherwise as
before, and every other notification (another recipient, or a `read` field that is not
`false`) is unchanged; so every notification of `u` whose `read` field is a boolean has
`read = true`.  The batch holds exactly the ids of the unread notifications of `u`. -/
theorem mark_all_read_scoped (store : List NotificationDoc) (u : String)
    (hu : u.toList.isEmpty = false) (hid : (store.map (fun d => d.id)).Nodup) :
    (postMarkAllRead none none (.str u) store).response = { status := 200, body := .success } ∧
    (postMarkAllRead none none (.str u) store).ops =
      [.query (.str u), .commit ((unreadQuery (.str u) store).map (fun d => d.id))] ∧
    (postMarkAllRead none none (.str u) store).store.length = store.length ∧
    (∀ (i : Nat) (d : NotificationDoc), store.get? i = some d →
      (d.data.userId = .str u → d.data.read = .bool false →
        (postMarkAllRead none none (.str u) store).store.get? i =
          some { d with data := { d.data with read := .bool true } }) ∧
      (d.data.userId ≠ .str u ∨ d.data.read ≠ .bool false →
        (postMarkAllRead none none (.str u) store).store.get? i = some d)) ∧
    (∀ d ∈ (postMarkAllRead none none (.str u) store).store,
      d.data.userId = .str u → (∃ b, d.data.read = .bool b) → d.data.read = .bool true) := by
  have ht : (JSVal.str u).truthy = true := by
    simp only [JSVal.truthy, hu]
    rfl
  rw [postMarkAllRead_ok ht hid]
  refine ⟨rfl, rfl, by simp, ?_, ?_⟩
  · intro i d hd
    have hget : (store.map (fun d => if isUnreadOf (.str u) d then d.markRead else d)).get? i =
        some (if isUnreadOf (.str u) d then d.markRead else d) := by
      rw [List.get?_eq_getElem?] at hd ⊢
      rw [List.getElem?_map, hd]
      rfl
    constructor
    · intro h1 h2
      simp only [hget]
      rw [if_pos ⟨h1, h2⟩]
      rfl
    · intro h
      simp only [hget]
      rw [if_neg]
      rintro ⟨h1, h2⟩
      rcases h with h | h
      · exact h h1
      · exact h h2
  · intro d hd hdu hb
    simp only [List.mem_map] at hd
    obtain ⟨x, _, hx⟩ := hd
    by_cases hc : isUnreadOf (.str u) x
    · rw [if_pos hc] at hx
      rw [← hx]
      rfl
    · rw [if_neg hc] at hx
      subst hx
      obtain ⟨b, hb⟩ := hb
      cases b
      · exact absurd ⟨hdu, hb⟩ hc
      · exact hb

theorem mark_all_read_scoped_witness :
    (postMarkAllRead none none (.str "u1") fiveAndThree).ops =
      [.query (.str "u1"), .commit ["a1", "a2", "a3", "a4", "a5"]] ∧
    (postMarkAllRead none none (.str "u1") fiveAndThree).store.get? 1 =
      some (unreadDoc "b1" "u2" 11) :=
  ⟨(mark_all_read_scoped fiveAndThree "u1" (by decide) (by decide)).2.1.trans (by decide),
   ((mark_all_read_scoped fiveAndThree "u1" (by decide) (by decide)).2.2.2.1 1
      (unreadDoc "b1" "u2" 11) (by decide)).2 (Or.inl (by decide))⟩

/-- C20: when the body of a mark-all-read request has no `userId` (the field is absent or its
value is falsy, the empty string for one), the handler responds 400 with the error
"userId is required", calls the store neither for a read nor for a write, and leaves the
collection as it is, whatever the store would have answered. -/
theorem mark_all_read_requires_user (failQuery failCommit : Option String) (userId : JSVal)
    (store : List NotificationDoc) (h : userId.truthy = false) :
    postMarkAllRead failQuery failCommit userId store =
      { response := { status := 400, body := .error "userId is required" },
        store := store, ops := [] } := by
  unfold postMarkAllRead
  simp [h]

theorem mark_all_read_requires_user_witness :
    postMarkAllRead none none .undefined fiveAndThree =
      { response := { status := 400, body := .error "userId is required" },
        store := fiveAndThree, ops := [] } ∧
    postMarkAllRead none none (.str "") fiveAndThree =
      { response := { status := 400, body := .error "userId is required" },
        store := fiveAndThree, ops := [] } :=
  ⟨mark_all_read_requires_user none none .undefined fiveAndThree (by decide),
   mark_all_read_requires_user none none (.str "") fiveAndThree (by decide)⟩

theorem fsKey_le_of_docKey_le {a b : NotificationDoc} (h : docKey b ≤ docKey a) :
    fsKey b.data.createdAt ≤ fsKey a.data.createdAt := by
  unfold docKey at h
  rw [Prod.Lex.le_iff] at h
  rcases h with h | h
  · exact le_of_lt h
  · exact le_of_eq h.1

theorem fsKey_timestamp_le {x y : Int}
    (h : fsKey (.timestamp x) ≤ fsKey (.timestamp y)) : x ≤ y := by
  unfold fsKey at h
  rw [Prod.Lex.le_iff] at h
  rcases h with h | h
  · exact absurd h (lt_irrefl _)
  · have h2 := h.2
    rw [Prod.Lex.le_iff] at h2
    rcases h2 with h3 | h3
    · exact le_of_lt h3
    · exact le_of_eq h3.1

theorem orderByCreatedAtDesc_sorted (l : List NotificationDoc) :
    (orderByCreatedAtDesc l).Pairwise (fun a b => docKey b ≤ docKey a) := by
  unfold orderByCreatedAtDesc
  have : IsTotal NotificationDoc (fun a b => docKey b ≤ docKey a) :=
    ⟨fun a b => le_total (docKey b) (docKey a)⟩
  have : IsTrans NotificationDoc (fun a b => docKey b ≤ docKey a) :=
    ⟨fun a b c h1 h2 => le_trans h2 h1⟩
  exact List.sorted_insertionSort (fun a b => docKey b ≤ docKey a) _

theorem listing_perm (store : List NotificationDoc) (u : String) :
    (orderByCreatedAtDesc (unreadQuery (.str u) store)).Perm
      (store.filter (fun d => d.data.userId = .str u ∧ d.data.read = .bool false ∧
        d.data.createdAt ≠ .undefined)) := by
  unfold orderByCreatedAtDesc unreadQuery
  refine (List.perm_insertionSort _ _).trans ?_
  rw [List.filter_filter]
  apply List.Perm.of_eq
  apply List.filter_congr
  intro d _
  by_cases h1 : d.data.userId = .str u <;> by_cases h2 : d.data.read = .bool false <;>
    by_cases h3 : d.data.createdAt = .undefined <;> simp [h1, h2, h3]

theorem mem_listing {store : List NotificationDoc} {u : String} {d : NotificationDoc} :
    d ∈ orderByCreatedAtDesc (unreadQuery (.str u) store) ↔
      d ∈ store ∧ d.data.userId = .str u ∧ d.data.read = .bool false ∧
        d.data.createdAt ≠ .undefined := by
  rw [(listing_perm store u).mem_iff]
  simp

/-- C13 (as stated) fails: an unread notification of "u1" stored without a `createdAt` field
is left out by the `orderBy('createdAt')` clause, and the listing for "u1" is empty; and an
unread notification of "u1" whose data has an `id` field of its own is returned under that
value, not under its document id "n3". -/
theorem listing_is_not_the_stored_unread_records :
    undatedDoc.data.userId = .str "u1" ∧ undatedDoc.data.read = .bool false ∧
    getNotifications none "u1" [undatedDoc] = { status := 200, body := .notifications [] } ∧
    getNotifications none "u1" [ownIdDoc] =
      { status := 200, body := .notifications [{ id := .str "x", data := ownIdDoc.data }] } ∧
    ownIdDoc.id = "n3" := by
  decide

/-- C13 (amended): the listing for the user id `u` returns exactly the stored notifications
whose `userId` equals `u`, whose `read` field is `false` and which have a `createdAt` field
(none of another recipient, none with `read = true`), ordered by `createdAt` descending in
the order of the store; among timestamps that is from the latest to the earliest.  Each is
returned with its fields and its document id, an `id` field of the record itself taking the
place of the document id. -/
theorem unread_listing (store : List NotificationDoc) (u : String) :
    ∃ docs : List NotificationDoc, getNotifications none u store =
        { status := 200, body := .notifications (docs.map NotificationDoc.listed) } ∧
      docs.Perm (store.filter (fun d => d.data.userId = .str u ∧ d.data.read = .bool false ∧
        d.data.createdAt ≠ .undefined)) ∧
      (∀ d, d ∈ docs ↔ d ∈ store ∧ d.data.userId = .str u ∧ d.data.read = .bool false ∧
        d.data.createdAt ≠ .undefined) ∧
      docs.Pairwise (fun a b => fsKey b.data.createdAt ≤ fsKey a.data.createdAt) ∧
      docs.Pairwise (fun a b => ∀ ta tb, a.data.createdAt = .timestamp ta →
        b.data.createdAt = .timestamp tb → tb ≤ ta) ∧
      (∀ d ∈ docs, d.listed.data = d.data ∧
        (d.data.id = .undefined → d.listed.id = .str d.id) ∧
        (d.data.id ≠ .undefined → d.listed.id = d.data.id)) := by
  have hperm := listing_perm store u
  have hsorted := orderByCreatedAtDesc_sorted (unreadQuery (.str u) store)
  have hkey := hsorted.imp (fun {a b} h => fsKey_le_of_docKey_le h)
  refine ⟨_, rfl, hperm, ?_, hkey, ?_, ?_⟩
  · intro d
    exact mem_listing
  · refine hkey.imp ?_
    intro a b h ta tb ha hb
    rw [ha, hb] at h
    exact fsKey_timestamp_le h
  · intro d _
    refine ⟨rfl, ?_, ?_⟩
    · intro h
      simp [NotificationDoc.listed, h]
    · intro h
      simp [NotificationDoc.listed, h]

theorem get?_append_left_of_some {α : Type} {l : List α} {i : Nat} {a : α} (ext : List α)
    (h : l.get? i = some a) : (l ++ ext).get? i = some a := by
  rw [List.get?_eq_getElem?] at h ⊢
  have hi : i < l.length := by
    by_contra hc
    rw [List.getElem?_eq_none (by omega)] at h
    exact absurd h (by simp)
  rw [List.getElem?_append_left hi]
  exact h

theorem get?_map_of_some {α : Type} {l : List α} {i : Nat} {a : α} (f : α → α)
    (h : l.get? i = some a) : (l.map f).get? i = some (f a) := by
  rw [List.get?_eq_getElem?] at h ⊢
  rw [List.getElem?_map, h]
  rfl

theorem markRead_of_read {d : NotificationDoc} (h : d.data.read = .bool true) :
    d.markRead = d := by
  unfold NotificationDoc.markRead
  rw [← h]

/-- One step leaves a notification that is read where it is and as it is. -/
theorem ApiOp.run_keeps_read (op : ApiOp) (s : Server) (i : Nat) (d : NotificationDoc)
    (hd : s.notifications.get? i = some d) (hr : d.data.read = .bool true) :
    (op.run s).notifications.get? i = some d := by
  cases op with
  | list fail userId => exact hd
  | markRead fail missing notificationId =>
    simp only [ApiOp.run, postMarkRead]
    split
    · exact hd
    · split
      · simp only
        rw [get?_map_of_some _ hd]
        split
        · rw [markRead_of_read hr]
        · rfl
      · exact hd
  | markAllRead failQuery failCommit userId =>
    simp only [ApiOp.run, postMarkAllRead]
    split
    · exact hd
    · split
      · exact hd
      · split
        · exact hd
        · simp only
          rw [get?_map_of_some _ hd]
          split
          · rw [markRead_of_read hr]
          · rfl
  | send fail newId notification =>
    simp only [ApiOp.run, postSendNotification]
    split
    · exact hd
    · exact get?_append_left_of_some _ hd
  | labStatus fail newId now labId status remarks =>
    simp only [ApiOp.run, postLabStatus]
    split
    · exact hd
    · exact get?_append_left_of_some _ hd
  | notify addOk pushOk newId now userId title message =>
    simp only [ApiOp.run, sendNotification]
    split
    · split
      · exact get?_append_left_of_some _ hd
      · exact get?_append_left_of_some _ hd
    · exact hd

/-- C14: once the `read` flag of a stored notification is `true`, no sequence of mark-read,
mark-all-read, send and lab-status requests, listings and `sendNotification` calls of the
reminder sweep, whatever their arguments and whether the store accepts them or not, sets it
back: the notification stays at its place in the collection, unchanged. -/
theorem read_flag_never_reverts (ops : List ApiOp) (s : Server) (i : Nat) (d : NotificationDoc)
    (hd : s.notifications.get? i = some d) (hr : d.data.read = .bool true) :
    (runOps ops s).notifications.get? i = some d ∧
    ∃ d1, (runOps ops s).notifications.get? i = some d1 ∧ d1.id = d.id ∧
      d1.data.read = .bool true := by
  have key : (runOps ops s).notifications.get? i = some d := by
    induction ops generalizing s with
    | nil => exact hd
    | cons op rest ih =>
      unfold runOps
      rw [List.foldl_cons]
      exact ih (op.run s) (ApiOp.run_keeps_read op s i d hd hr)
  exact ⟨key, d, key, rfl, hr⟩

theorem read_flag_never_reverts_witness :
    (runOps
      [ .markAllRead none none (.str "u1"), .markRead none "no document" "r1",
        .send none "n2" payloadWithoutRead, .labStatus none "n3" 7 (.str "u1") (.str "ok") .null,
        .notify true true "n4" 8 "u1" "Appointment Reminder" "m", .list none "u1" ]
      serverWithU1).notifications.get? 0 = some readDoc :=
  (read_flag_never_reverts _ serverWithU1 0 readDoc (by decide) (by decide)).1

/-- C15: when the store accepts the write, `sendNotification` adds exactly one record, with
the given `userId`, `title` and `message`, `read = false` and the time of the call as
`createdAt`; it then emits that record as a "notification" event to the socket the registry
maps the user to, and to that socket only, and emits nothing when the registry has no entry
for the user. -/
theorem send_notification_stores_and_pushes (newId : String) (now : Int)
    (userId title message : String) (s : Server) :
    (sendNotification true true newId now userId title message s).notifications =
      s.notifications ++
        [{ id := newId,
           data := { userId := .str userId, title := .str title, message := .str message,
                     type := .undefined, read := .bool false, createdAt := .timestamp now } }] ∧
    (sendNotification true true newId now userId title message s).userSockets = s.userSockets ∧
    (∀ c, s.userSockets.get userId = some c → c.toList.isEmpty = false →
      (sendNotification true true newId now userId title message s).emitted =
        s.emitted ++
          [{ target := .room c, event := "notification",
             payload := { userId := .str userId, title := .str title, message := .str message,
                          type := .undefined, read := .bool false,
                          createdAt := .timestamp now } }]) ∧
    (s.userSockets.get userId = none →
      (sendNotification true true newId now userId title message s).emitted = s.emitted) := by
  refine ⟨rfl, rfl, ?_, ?_⟩
  · intro c hc hne
    simp only [sendNotification, pushTargets, hc, hne, Notification.toPayload]
    rfl
  · intro hc
    simp [sendNotification, pushTargets, hc]

theorem send_notification_stores_and_pushes_witness :
    (sendNotification true true "n4" 8 "u1" "Appointment Reminder" "m" serverWithU1).emitted =
      [{ target := .room "c1", event := "notification",
         payload := { userId := .str "u1", title := .str "Appointment Reminder",
                      message := .str "m", type := .undefined, read := .bool false,
                      createdAt := .timestamp 8 } }] :=
  (send_notification_stores_and_pushes "n4" 8 "u1" "Appointment Reminder" "m"
    serverWithU1).2.2.1 "c1" (by decide) (by decide)

/-- C17 (as stated) fails: a payload without a `userId` is emitted to all sockets and is
also added to the `notifications` collection. -/
theorem send_without_recipient_is_stored :
    broadcastPayload.userId = .undefined ∧
    (postSendNotification none "n2" broadcastPayload serverWithU1).2.notifications =
      [readDoc, { id := "n2", data := broadcastPayload }] ∧
    (postSendNotification none "n2" broadcastPayload serverWithU1).2.emitted =
      [{ target := .all, event := "notification", payload := broadcastPayload }] := by
  decide

/-- C17 (amended): for a payload without a `userId` (absent or falsy), when the store accepts
the write the send handler adds the payload as one record to the `notifications` collection,
emits it once to all connected sockets and answers 200. -/
theorem send_without_recipient (newId : String) (notification : Payload) (s : Server)
    (h : notification.userId.truthy = false) :
    postSendNotification none newId notification s =
      ({ status := 200, body := .text "Notification sent" },
       { userSockets := s.userSockets,
         notifications := s.notifications ++ [{ id := newId, data := notification }],
         emitted := s.emitted ++
           [{ target := .all, event := "notification", payload := notification }] }) := by
  simp [postSendNotification, sendEmissions, h]

theorem send_without_recipient_witness :
    (postSendNotification none "n2" broadcastPayload serverWithU1).1 =
      { status := 200, body := .text "Notification sent" } :=
  congrArg Prod.fst (send_without_recipient "n2" broadcastPayload serverWithU1 (by decide))

/-- C18: when the store accepts the write, the send handler emits a payload whose `userId`
is the non-empty string `u` to the socket the registry maps `u` to and to nothing else, emits
nothing when the registry has no entry for `u`, and emits a payload without `userId` (absent
or falsy) once to all connected sockets.  When the store rejects the write nothing is
emitted. -/
theorem send_routing (newId : String) (notification : Payload) (s : Server) :
    (∀ u : String, notification.userId = .str u → u.toList.isEmpty = false →
      (∀ c, s.userSockets.get u = some c → c.toList.isEmpty = false →
        (postSendNotification none newId notification s).2.emitted =
          s.emitted ++ [{ target := .room c, event := "notification",
                          payload := notification }]) ∧
      (s.userSockets.get u = none →
        (postSendNotification none newId notification s).2.emitted = s.emitted)) ∧
    (notification.userId.truthy = true →
      ∀ e ∈ (sendEmissions s.userSockets notification), e.target ≠ .all) ∧
    (notification.userId.truthy = false →
      (postSendNotification none newId notification s).2.emitted =
        s.emitted ++ [{ target := .all, event := "notification", payload := notification }]) ∧
    (∀ message, (postSendNotification (some message) newId notification s).2.emitted =
      s.emitted) := by
  refine ⟨?_, ?_, ?_, ?_⟩
  · intro u hu hne
    have ht : (JSVal.str u).truthy = true := by
      simp only [JSVal.truthy, hne]
      rfl
    constructor
    · intro c hc hcne
      simp only [postSendNotification, sendEmissions, hu, ht, if_true, registryLookup,
        pushTargets, hc, hcne]
      rfl
    · intro hc
      simp only [postSendNotification, sendEmissions, hu, ht, if_true, registryLookup,
        pushTargets, hc]
      simp
  · intro ht e he
    simp only [sendEmissions, ht, if_true, List.mem_map] at he
    obtain ⟨c, _, hc⟩ := he
    rw [← hc]
    simp
  · intro h
    simp [postSendNotification, sendEmissions, h]
  · intro message
    rfl

theorem send_routing_witness :
    (postSendNotification none "n2" payloadWithoutRead serverWithU1).2.emitted =
      [{ target := .room "c1", event := "notification", payload := payloadWithoutRead }] :=
  ((send_routing "n2" payloadWithoutRead serverWithU1).1 "u1" (by decide) (by decide)).1 "c1"
    (by decide) (by decide)

/-- C19 (as stated) fails: a payload for "u1" without a `read` field is stored as it is,
without a `read` field, and the listing of the unread notifications of "u1" does not return
it. -/
theorem posted_payload_keeps_missing_read_flag :
    payloadWithoutRead.read = .undefined ∧
    (postSendNotification none "n2" payloadWithoutRead
        { userSockets := [], notifications := [], emitted := [] }).2.notifications =
      [{ id := "n2", data := payloadWithoutRead }] ∧
    getNotifications none "u1"
        (postSendNotification none "n2" payloadWithoutRead
          { userSockets := [], notifications := [], emitted := [] }).2.notifications =
      { status := 200, body := .notifications [] } := by
  decide

/-- C19 (amended): a record created through the send handler is stored with exactly the
fields of the payload, so its `read` field is the one of the payload: a payload that does
not specify a `read` flag is stored without one and is not returned by the unread listing of
any user, while a payload for the user `u` with `read = false` and a `createdAt` field is
returned by the unread listing of `u`. -/
theorem posted_payload_stored_as_is (newId : String) (notification : Payload) (s : Server) :
    (postSendNotification none newId notification s).2.notifications =
      s.notifications ++ [{ id := newId, data := notification }] ∧
    (notification.read = .undefined → ∀ u l,
      getNotifications none u (postSendNotification none newId notification s).2.notifications =
        { status := 200, body := .notifications l } →
      ∀ x ∈ l, x.data ≠ notification) ∧
    (∀ u, notification.userId = .str u → notification.read = .bool false →
      notification.createdAt ≠ .undefined → ∀ l,
      getNotifications none u (postSendNotification none newId notification s).2.notifications =
        { status := 200, body := .notifications l } →
      NotificationDoc.listed { id := newId, data := notification } ∈ l) := by
  refine ⟨rfl, ?_, ?_⟩
  · intro hr u l hl x hx hc
    simp only [getNotifications, Response.mk.injEq, Body.notifications.injEq, true_and] at hl
    rw [← hl] at hx
    obtain ⟨d, hd, hdx⟩ := List.mem_map.1 hx
    have := (mem_listing.1 hd).2.2.1
    rw [← hdx] at hc
    simp only [NotificationDoc.listed] at hc
    rw [hc, hr] at this
    exact absurd this (by simp)
  · intro u hu hr hc l hl
    simp only [getNotifications, Response.mk.injEq, Body.notifications.injEq, true_and] at hl
    rw [← hl]
    apply List.mem_map_of_mem
    apply mem_listing.2
    refine ⟨?_, hu, hr, hc⟩
    simp [postSendNotification]

theorem posted_payload_stored_as_is_witness :
    (∀ x ∈ ([] : List ListedNotification), x.data ≠ payloadWithoutRead) ∧
    NotificationDoc.listed { id := "n2", data := unreadPayload } ∈
      [({ id := .str "n2", data := unreadPayload } : ListedNotification)] :=
  ⟨(posted_payload_stored_as_is "n2" payloadWithoutRead
      { userSockets := [], notifications := [], emitted := [] }).2.1 (by decide) "u1" []
      (by decide),
   (posted_payload_stored_as_is "n2" unreadPayload
      { userSockets := [], notifications := [], emitted := [] }).2.2 "u1" (by decide)
      (by decide) (by decide) _ (by decide)⟩

/-! ## The reminder sweep and the outcome of its dispatches -/

theorem dispatchCalls_all_rejected (now : Int) (outcome : Nat → Bool × Bool)
    (newId : Nat → String) (h : ∀ k, (outcome k).1 = false) :
    ∀ (cs : List NotifyCall) (k : Nat) (s : Server),
      dispatchCalls now outcome newId k cs s = s
  | [], _, _ => rfl
  | c :: cs, k, s => by
    rw [dispatchCalls, dispatchCalls_all_rejected now outcome newId h cs (k + 1)]
    simp [sendNotification, h k]

theorem isDue_markSent (t now : Int) (r : ReminderEntry) :
    isDue t (markSent now r) = (isDue t r && !isDue now r) := by
  by_cases h : isDue now r = true
  · rw [isDue_marked t now r h, h]
    simp
  · have e : markSent now r = r := by
      unfold markSent
      rw [if_neg h]
    rw [e]
    simp [h]

theorem reminderCalls_markSent (d : ReminderDoc) (rs : List ReminderEntry) (now : Int)
    (r : ReminderEntry) :
    reminderCalls (d.withReminders rs).data (markSent now r) = reminderCalls d.data r := by
  unfold markSent
  split <;> rfl

/-- C16: for a reminder document whose entries all carry a timestamp, one tick marks every
due unsent entry `sent = true`, writes the list back and catches no error, whatever the
outcome of each `sendNotification` call (record rejected by the store, emission failed, both
or neither); when the store rejects every record nothing is stored or emitted, and still the
next tick makes no call for an entry that was due at this one. -/
theorem reminder_marked_whatever_dispatch_does (outcome outcome2 : Nat → Bool × Bool)
    (newId newId2 : Nat → String) (now t2 : Int) (d : ReminderDoc) (rs : List ReminderEntry)
    (s s2 : Server) (hrs : d.data.reminders = some rs) (hwf : WellFormed rs) :
    (reminderTick outcome newId now [d] s).1.docs =
      [d.withReminders (rs.map (markSent now))] ∧
    (reminderTick outcome newId now [d] s).1.updates =
      (if rs.any (isDue now) then [(d.id, rs.map (markSent now))] else []) ∧
    (reminderTick outcome newId now [d] s).1.caught = none ∧
    (∀ r ∈ rs, isDue now r = true → (markSent now r).sent = .bool true) ∧
    ((∀ k, (outcome k).1 = false) → (reminderTick outcome newId now [d] s).2 = s) ∧
    (reminderTick outcome2 newId2 t2 (reminderTick outcome newId now [d] s).1.docs s2).1.calls =
      rs.flatMap (fun r =>
        if isDue t2 r && !isDue now r then reminderCalls d.data r else []) := by
  have h1 := reminderSweep_single now d rs hrs hwf
  refine ⟨h1.1, h1.2.2.1, h1.2.2.2, ?_, ?_, ?_⟩
  · intro r _ hdue
    simp [markSent, hdue]
  · intro h
    exact dispatchCalls_all_rejected now outcome newId h _ 0 s
  · simp only [reminderTick]
    rw [h1.1, (reminderSweep_single t2 (d.withReminders (rs.map (markSent now)))
      (rs.map (markSent now)) rfl (markSent_wellFormed now rs hwf)).2.1, List.flatMap_map]
    congr 1
    funext r
    rw [isDue_markSent, reminderCalls_markSent]

theorem reminder_marked_whatever_dispatch_does_witness :
    (reminderTick (fun _ => (false, false)) (fun _ => "x") 1717246800000
      [{ id := "rem1", data := scenarioReminder }]
      { userSockets := [], notifications := [], emitted := [] }).1.updates =
      [("rem1",
        [ { time := .timestamp 1717164000000, sent := .bool true,
            message := "You have a video appointment tomorrow" },
          { time := .timestamp 1717246800000, sent := .bool true,
            message := "You have a video appointment in 1 hour" } ])] :=
  (reminder_marked_whatever_dispatch_does (fun _ => (false, false)) (fun _ => (true, true))
    (fun _ => "x") (fun _ => "y") 1717246800000 1717246860000
    { id := "rem1", data := scenarioReminder }
    [ { time := .timestamp 1717164000000, sent := .bool true,
        message := "You have a video appointment tomorrow" },
      { time := .timestamp 1717246800000, sent := .bool false,
        message := "You have a video appointment in 1 hour" } ]
    { userSockets := [], notifications := [], emitted := [] }
    { userSockets := [], notifications := [], emitted := [] } rfl (by decide)).2.1.trans
    (by decide)

/-! ## Responses of the notification endpoints on errors -/

/-- C21 (as stated) fails: when no notification has the id, the store rejects the update,
the handler catches the error and responds with status 500, not with a 4xx status. -/
theorem mark_read_of_missing_id_is_500 :
    postMarkRead none "No document to update" "nope" [readDoc] =
      ({ status := 500, body := .error "No document to update" }, [readDoc]) := by
  decide

/-- C21 (amended): the mark-one-read handler responds 200 with `{success: true}` when a
notification with the id exists and the store accepts the update, which sets `read = true`
on that notification and changes nothing else; when no notification with the id exists it
responds with status 500 and the message of the store's error, and the collection is
unchanged. -/
theorem mark_read_result (missing notificationId : String) (store : List NotificationDoc) :
    ((∃ d ∈ store, d.id = notificationId) →
      postMarkRead none missing notificationId store =
        ({ status := 200, body := .success },
         store.map (fun d =>
           if d.id = notificationId then { d with data := { d.data with read := .bool true } }
           else d))) ∧
    ((∀ d ∈ store, d.id ≠ notificationId) →
      postMarkRead none missing notificationId store =
        ({ status := 500, body := .error missing }, store)) := by
  constructor
  · rintro ⟨d, hd, hid⟩
    unfold postMarkRead
    have : store.any (fun d => decide (d.id = notificationId)) = true := by
      rw [List.any_eq_true]
      exact ⟨d, hd, by simp [hid]⟩
    simp only [this, if_true]
    rfl
  · intro h
    unfold postMarkRead
    have : store.any (fun d => decide (d.id = notificationId)) = false := by
      rw [List.any_eq_false]
      intro d hd
      simp [h d hd]
    simp [this]

theorem mark_read_result_witness :
    postMarkRead none "No document to update" "a1" [unreadDoc "a1" "u1" 10] =
      ({ status := 200, body := .success },
       [{ id := "a1",
          data := { userId := .str "u1", title := .str "t", message := .str "m",
                    type := .undefined, read := .bool true, createdAt := .timestamp 10 } }]) :=
  (mark_read_result "No document to update" "a1" [unreadDoc "a1" "u1" 10]).1
    ⟨unreadDoc "a1" "u1" 10, by decide, by decide⟩

/-- C22 (as stated) fails: when the store rejects the write with the message
"quota exceeded", the send handler and the lab-status handler respond 500 with a fixed text
that does not carry the message. -/
theorem send_handlers_hide_store_message :
    (postSendNotification (some "quota exceeded") "n2" unreadPayload serverWithU1).1 =
      { status := 500, body := .text "Error sending notification" } ∧
    (postLabStatus (some "quota exceeded") "n3" 7 (.str "u1") (.str "ok") .null
        serverWithU1).1 =
      { status := 500, body := .text "Error sending lab status notification" } := by
  decide

/-- C22 (amended): when the store operation fails with an error whose message is `M`, the
listing, mark-one-read and mark-all-read handlers respond with status 500 and the body
`{error: M}`; the send handler and the lab-status handler respond with status 500 and the
fixed texts "Error sending notification" and "Error sending lab status notification", the
message being logged only.  None of them changes the collection or emits anything. -/
theorem store_error_responses (M missing newId notificationId u : String) (now : Int)
    (userId labId status remarks : JSVal) (notification : Payload) (failCommit : Option String)
    (store : List NotificationDoc) (s : Server) (hu : userId.truthy = true) :
    getNotifications (some M) u store = { status := 500, body := .error M } ∧
    postMarkRead (some M) missing notificationId store =
      ({ status := 500, body := .error M }, store) ∧
    (postMarkAllRead (some M) failCommit userId store).response =
      { status := 500, body := .error M } ∧
    (postMarkAllRead (some M) failCommit userId store).store = store ∧
    (postMarkAllRead none (some M) userId store).response =
      { status := 500, body := .error M } ∧
    (postMarkAllRead none (some M) userId store).store = store ∧
    postSendNotification (some M) newId notification s =
      ({ status := 500, body := .text "Error sending notification" }, s) ∧
    postLabStatus (some M) newId now labId status remarks s =
      ({ status := 500, body := .text "Error sending lab status notification" }, s) := by
  refine ⟨rfl, rfl, ?_, ?_, ?_, ?_, rfl, ?_⟩
  · simp [postMarkAllRead, hu]
  · simp [postMarkAllRead, hu]
  · simp [postMarkAllRead, hu]
  · simp [postMarkAllRead, hu]
  · simp [postLabStatus]

theorem store_error_responses_witness :
    getNotifications (some "quota exceeded") "u1" fiveAndThree =
      { status := 500, body := .error "quota exceeded" } :=
  (store_error_responses "quota exceeded" "No document to update" "n2" "a1" "u1" 7 (.str "u1")
    (.str "u1") (.str "ok") .null unreadPayload none fiveAndThree serverWithU1 (by decide)).1

/-! ## The write-back of the reminder sweep -/

theorem markSent_ne_of_due {now : Int} {r : ReminderEntry} (h : isDue now r = true) :
    markSent now r ≠ r := by
  intro hc
  have h1 : (markSent now r).sent = .bool true := by simp [markSent, h]
  rw [hc] at h1
  simp [isDue, h1, JSVal.truthy] at h

theorem map_eq_self_mem {α : Type} (f : α → α) :
    ∀ (l : List α), l.map f = l → ∀ a ∈ l, f a = a
  | [], _, a, ha => by simp at ha
  | x :: xs, h, a, ha => by
    simp only [List.map_cons, List.cons.injEq] at h
    rcases List.mem_cons.1 ha with e | e
    · rw [e]; exact h.1
    · exact map_eq_self_mem f xs h.2 a e

theorem any_due_iff_changed (now : Int) (rs : List ReminderEntry) :
    rs.any (isDue now) = true ↔ rs.map (markSent now) ≠ rs := by
  constructor
  · intro h hc
    rw [List.any_eq_true] at h
    obtain ⟨r, hr, hdue⟩ := h
    have := map_eq_self_mem _ rs hc r hr
    exact markSent_ne_of_due hdue this
  · intro h
    by_contra hc
    simp only [Bool.not_eq_true] at hc
    exact h (map_markSent_of_none_due now rs hc)

theorem reminderSweep_updates (now : Int) :
    ∀ (docs : List ReminderDoc), (∀ d ∈ docs, d.WellFormed) →
      (reminderSweep now docs).updates = docs.filterMap (expectedUpdate now) ∧
      (reminderSweep now docs).caught = none
  | [], _ => by simp [reminderSweep]
  | d :: ds, h => by
    have ih := reminderSweep_updates now ds (fun x hx => h x (List.mem_cons_of_mem _ hx))
    have hd := h d (List.mem_cons_self _ _)
    unfold ReminderDoc.WellFormed at hd
    cases hrs : d.data.reminders with
    | none => rw [hrs] at hd; exact absurd hd id
    | some rs =>
      rw [hrs] at hd
      rw [reminderSweep]
      simp only [hrs, remindMap_ok now d.data rs hd]
      by_cases hany : rs.any (isDue now) = true
      · simp [hany, ih.1, ih.2, expectedUpdate, hrs]
      · simp [hany, ih.1, ih.2, expectedUpdate, hrs]

/-- C27: for reminder documents whose entries all carry a timestamp, one sweep issues for
each document exactly one update, carrying the document id and the whole new entry list,
when at least one of its entries is flipped to sent in that sweep, and no update when none
of its entries changes; the updates follow the order of the documents. -/
theorem reminder_write_back (now : Int) (docs : List ReminderDoc)
    (hwf : ∀ d ∈ docs, d.WellFormed) :
    (reminderSweep now docs).updates = docs.filterMap (expectedUpdate now) ∧
    (∀ d ∈ docs, ∀ (rs : List ReminderEntry), d.data.reminders = some rs →
      (rs.any (isDue now) = true ↔ rs.map (markSent now) ≠ rs) ∧
      (rs.map (markSent now) ≠ rs →
        expectedUpdate now d = some (d.id, rs.map (markSent now)) ∧
        (reminderSweep now [d]).updates = [(d.id, rs.map (markSent now))] ∧
        (rs.map (markSent now)).length = rs.length) ∧
      (rs.map (markSent now) = rs →
        expectedUpdate now d = none ∧ (reminderSweep now [d]).updates = [])) := by
  refine ⟨(reminderSweep_updates now docs hwf).1, ?_⟩
  intro d hd rs hrs
  have hwfd : HealthHub.WellFormed rs := by
    have := hwf d hd
    unfold ReminderDoc.WellFormed at this
    rw [hrs] at this
    exact this
  have hsingle := (reminderSweep_single now d rs hrs hwfd).2.2.1
  refine ⟨any_due_iff_changed now rs, ?_, ?_⟩
  · intro hne
    have hany := (any_due_iff_changed now rs).2 hne
    refine ⟨by simp [expectedUpdate, hrs, hany], ?_, by simp⟩
    rw [hsingle, if_pos hany]
  · intro he
    have hany : ¬ rs.any (isDue now) = true := fun hc => (any_due_iff_changed now rs).1 hc he
    refine ⟨by simp [expectedUpdate, hrs, hany], ?_⟩
    rw [hsingle, if_neg hany]

theorem reminder_write_back_witness :
    (reminderSweep 1717246800000
        [{ id := "rem1", data := scenarioReminder },
         { id := "rem2", data := { scenarioReminder with reminders := some [] } }]).updates =
      [("rem1",
        [ { time := .timestamp 1717164000000, sent := .bool true,
            message := "You have a video appointment tomorrow" },
          { time := .timestamp 1717246800000, sent := .bool true,
            message := "You have a video appointment in 1 hour" } ])] :=
  (reminder_write_back 1717246800000
    [{ id := "rem1", data := scenarioReminder },
     { id := "rem2", data := { scenarioReminder with reminders := some [] } }]
    (by decide)).1.trans (by decide)

/-! ## A disconnect of a replaced socket -/

theorem Registry.find_map_other (u v c : String) (h : v ≠ u) (m : Registry) :
    (m.map (fun e => if e.1 == u then (u, c) else e)).find? (fun e => e.1 == v) =
      m.find? (fun e => e.1 == v) := by
  induction m with
  | nil => rfl
  | cons e m ih =>
    rw [List.map_cons, List.find?_cons, List.find?_cons, ih]
    by_cases he : e.1 = u
    · have h1 : (e.1 == u) = true := by simpa using he
      have h2 : (u == v) = false := by simpa using Ne.symm h
      have h3 : (e.1 == v) = false := by rw [he]; exact h2
      simp only [h1, if_true, h2, h3]
    · have h1 : (e.1 == u) = false := by simpa using he
      simp only [h1, Bool.false_eq_true, if_false]

theorem Registry.get_set_other (m : Registry) {u v : String} (c : String) (h : v ≠ u) :
    (m.set u c).get v = m.get v := by
  unfold Registry.set Registry.get
  split
  · rw [Registry.find_map_other u v c h m]
  · rw [List.find?_append]
    have h2 : (u == v) = false := by simpa using Ne.symm h
    have : ([(u, c)] : Registry).find? (fun e => e.1 == v) = none := by
      rw [List.find?_cons, h2]
      rfl
    rw [this]
    simp

theorem Registry.get_delete_other (m : Registry) {w v : String} (h : v ≠ w) :
    (m.delete w).get v = m.get v := by
  unfold Registry.delete Registry.get
  congr 1
  induction m with
  | nil => rfl
  | cons e m ih =>
    rw [List.filter_cons, List.find?_cons]
    by_cases hew : e.1 = w
    · have h1 : (e.1 != w) = false := by simp [hew]
      have h3 : (e.1 == v) = false := by simpa [hew] using Ne.symm h
      simp only [h1, Bool.false_eq_true, if_false, h3, ih]
    · have h1 : (e.1 != w) = true := by simp [hew]
      simp only [h1, if_true, List.find?_cons, ih]

/-- C28 (as stated) fails: when another user "v" is mapped to the socket "c1" in the starting
registry, the disconnect of "c1" deletes the entry of "v". -/
theorem stale_disconnect_removes_other_user :
    onDisconnect (onRegister (onRegister [("v", "c1")] "c1" "u") "c2" "u") "c1" =
      [("u", "c2")] ∧
    Registry.get [("v", "c1")] "v" = some "c1" ∧
    (onDisconnect (onRegister (onRegister [("v", "c1")] "c1" "u") "c2" "u") "c1").get "v" =
      none := by
  decide

/-- C28 (amended): from any registry state, after `register(u, c1)`, `register(u, c2)` with
`c1 ≠ c2` and the disconnect of `c1`, the registry still maps `u` to `c2`, and the mapping of
every other user that has no entry with the socket `c1` is unchanged; so when no other user is
mapped to `c1`, every other user's mapping is unchanged. -/
theorem stale_disconnect_keeps_live_channel (m : Registry) (u c1 c2 : String) (hne : c1 ≠ c2) :
    (onDisconnect (onRegister (onRegister m c1 u) c2 u) c1).get u = some c2 ∧
    (∀ v, v ≠ u → (∀ e ∈ m, e.1 = v → e.2 ≠ c1) →
      (onDisconnect (onRegister (onRegister m c1 u) c2 u) c1).get v = m.get v) ∧
    ((∀ e ∈ m, e.1 ≠ u → e.2 ≠ c1) → ∀ v, v ≠ u →
      (onDisconnect (onRegister (onRegister m c1 u) c2 u) c1).get v = m.get v) := by
  have hget : (onRegister (onRegister m c1 u) c2 u).get u = some c2 :=
    Registry.get_set_self _ u c2
  have hother : ∀ v, v ≠ u → (onRegister (onRegister m c1 u) c2 u).get v = m.get v := by
    intro v hv
    unfold onRegister
    rw [Registry.get_set_other _ c2 hv, Registry.get_set_other _ c1 hv]
  have hmem : ∀ e ∈ onRegister (onRegister m c1 u) c2 u, e.2 = c1 → e.1 ≠ u ∧ e ∈ m := by
    intro e he hv
    rcases Registry.mem_set he with h | ⟨h, hk⟩
    · rw [h] at hv
      exact absurd hv.symm hne
    · rcases Registry.mem_set h with h1 | ⟨h1, _⟩
      · rw [h1] at hk
        exact absurd rfl hk
      · exact ⟨hk, h1⟩
  have key : ∀ v, (v = u ∨ ∀ e ∈ m, e.1 = v → e.2 ≠ c1) →
      (onDisconnect (onRegister (onRegister m c1 u) c2 u) c1).get v =
        (onRegister (onRegister m c1 u) c2 u).get v := by
    intro v hv
    unfold onDisconnect
    cases hf : (onRegister (onRegister m c1 u) c2 u).find? (fun e => e.2 == c1) with
    | none => rfl
    | some e =>
      have he := List.mem_of_find?_eq_some hf
      have hval : e.2 = c1 := by
        have := List.find?_some hf
        simpa using this
      obtain ⟨hk, hm⟩ := hmem e he hval
      simp only
      apply Registry.get_delete_other
      rcases hv with hv | hv
      · rw [hv]
        exact Ne.symm hk
      · intro hc
        exact hv e hm hc.symm hval
  refine ⟨?_, ?_, ?_⟩
  · rw [key u (Or.inl rfl), hget]
  · intro v hv h
    rw [key v (Or.inr h), hother v hv]
  · intro h v hv
    rw [key v (Or.inr (fun e he hev => h e he (hev ▸ hv))), hother v hv]

theorem stale_disconnect_keeps_live_channel_witness :
    (onDisconnect (onRegister (onRegister [("w", "c9")] "c1" "u") "c2" "u") "c1").get "u" =
      some "c2" :=
  (stale_disconnect_keeps_live_channel [("w", "c9")] "u" "c1" "c2" (by decide)).1

/-! ## Slot-portions that are skipped, and unknown meridiem tokens -/

theorem jsSplitGo_sep_absent (sep : List Char) :
    ∀ (l cur : List Char), ¬ sep <:+: l → jsSplitGo sep 0 l cur = [cur.reverse ++ l]
  | [], cur, _ => by simp [jsSplitGo]
  | c :: l, cur, h => by
    have hp : sep.isPrefixOf (c :: l) = false := by
      cases hb : sep.isPrefixOf (c :: l) with
      | false => rfl
      | true => exact absurd (List.isPrefixOf_iff_prefix.1 hb).isInfix h
    have hl : ¬ sep <:+: l := fun e => h (e.trans (List.suffix_cons c l).isInfix)
    rw [jsSplitGo, hp]
    simp only [Bool.false_eq_true, if_false]
    rw [jsSplitGo_sep_absent sep l (c :: cur) hl]
    simp

theorem parseSlotEnd_no_separator {slot : List Char} (h : ¬ " - ".toList <:+: slot) :
    parseSlotEnd slot = none := by
  unfold parseSlotEnd jsSplit
  rw [jsSplitGo_sep_absent _ slot [] h]
  simp

theorem jsSplit_space_none {E : List Char} (h : ' ' ∉ E) : jsSplit " " E = [E] := by
  have e : " ".toList = [' '] := rfl
  unfold jsSplit
  rw [e, jsSplitGo_single_none ' ' _ [] h]
  simp

theorem parseSlotEnd_no_space {slot : List Char} (h : ' ' ∉ endTimeText slot) :
    parseSlotEnd slot = none := by
  unfold endTimeText at h
  unfold parseSlotEnd
  simp only
  split
  · rfl
  · rw [jsSplit_space_none h]
    simp [falsyPiece]

theorem expireStep_of_skipped {env : Env} {now : Int} {a : AppointmentData} {s : String}
    (hslot : a.slotPortion = .str s) (hp : parseSlotEnd s.toList = none) :
    expireStep env now a = .ok none := by
  have hE : appointmentEnd env a = .ok none := by
    unfold appointmentEnd
    split
    · rfl
    · simp only [hslot, hp]
  unfold expireStep
  rw [hE]

/-- C23: an appointment whose slot-portion text contains no " - ", or whose cleaned end time
(the second piece with "portion" removed, trimmed) contains no space and so has no second
space-separated token, gets no write from the appointment expiration sweep at any `now`, and
the sweep goes on with the records after it: its writes and its outcome are those of the
pass over the remaining records. -/
theorem malformed_slot_skipped (env : Env) (now : Int) (d : AppointmentDoc)
    (ds : List AppointmentDoc) (s : String) (hslot : d.data.slotPortion = .str s)
    (h : ¬ " - ".toList <:+: s.toList ∨ ' ' ∉ endTimeText s.toList) :
    parseSlotEnd s.toList = none ∧
    expireStep env now d.data = .ok none ∧
    appointmentSweep env now (d :: ds) =
      { docs := d :: (appointmentSweep env now ds).docs,
        writes := (appointmentSweep env now ds).writes,
        caught := (appointmentSweep env now ds).caught } ∧
    (appointmentSweep env now [d]).writes = [] := by
  have hp : parseSlotEnd s.toList = none := by
    rcases h with h | h
    · exact parseSlotEnd_no_separator h
    · exact parseSlotEnd_no_space h
  have hs : expireStep env now d.data = .ok none := expireStep_of_skipped hslot hp
  refine ⟨hp, hs, ?_, ?_⟩
  · rw [appointmentSweep_cons, hs]
  · rw [appointmentSweep_single, hs]

theorem malformed_slot_skipped_witness :
    (¬ " - ".toList <:+: "6:42 PM portion".toList ∧
      expireStep envPKT 1800000000000 noSeparatorAppointment.data = .ok none) ∧
    (' ' ∉ endTimeText "6:12 PM - 6:42 portion".toList ∧
      expireStep envPKT 1800000000000 noMeridiemAppointment.data = .ok none) :=
  ⟨⟨by decide,
    (malformed_slot_skipped envPKT 1800000000000 noSeparatorAppointment [] "6:42 PM portion" rfl
      (Or.inl (by decide))).2.1⟩,
   ⟨by decide,
    (malformed_slot_skipped envPKT 1800000000000 noMeridiemAppointment []
      "6:12 PM - 6:42 portion" rfl (Or.inr (by decide))).2.1⟩⟩

theorem parseSlotEnd_of_endTimeText {slot hs ms X : List Char}
    (hparts : 2 ≤ (jsSplit " - " slot).length)
    (hE : endTimeText slot = hs ++ ':' :: (ms ++ ' ' :: X))
    (hhs : hs ≠ []) (hhd : ∀ c ∈ hs, c ∈ decimalDigits)
    (hms : ms ≠ []) (hmd : ∀ c ∈ ms, c ∈ decimalDigits)
    (hX : X ≠ []) (hXs : ' ' ∉ X) :
    parseSlotEnd slot =
      some (adjustHour X (some (digitsValue hs : Int)), some (digitsValue ms : Int)) := by
  have hnsp : ' ' ∉ hs ++ ':' :: ms := by
    simp only [List.mem_append, List.mem_cons, not_or]
    exact ⟨fun h => (digit_facts (hhd _ h)).2.1 rfl, by decide,
      fun h => (digit_facts (hmd _ h)).2.1 rfl⟩
  have hpieces : jsSplit " " (hs ++ ':' :: (ms ++ ' ' :: X)) = [hs ++ ':' :: ms, X] := by
    unfold jsSplit
    have e : " ".toList = [' '] := rfl
    have e2 : hs ++ ':' :: (ms ++ ' ' :: X) = (hs ++ ':' :: ms) ++ ' ' :: X := by simp
    rw [e, e2, jsSplitGo_single_first ' ' _ _ [] hnsp, jsSplitGo_single_none ' ' _ [] hXs]
    simp
  have hncol : ':' ∉ hs := fun h => (digit_facts (hhd _ h)).2.2.2.2.1 rfl
  have hncol2 : ':' ∉ ms := fun h => (digit_facts (hmd _ h)).2.2.2.2.1 rfl
  have hhm : jsSplit ":" (hs ++ ':' :: ms) = [hs, ms] := by
    unfold jsSplit
    have e : ":".toList = [':'] := rfl
    rw [e, jsSplitGo_single_first ':' _ _ [] hncol, jsSplitGo_single_none ':' _ [] hncol2]
    simp
  have hne1 : (hs ++ ':' :: ms).isEmpty = false := by
    cases hs <;> simp
  have hne2 : X.isEmpty = false := by
    cases X with
    | nil => exact absurd rfl hX
    | cons _ _ => rfl
  have hlen : ¬ (jsSplit " - " slot).length < 2 := by omega
  unfold endTimeText at hE
  unfold parseSlotEnd
  simp only [hlen, if_false, hE, hpieces, List.get?_cons_zero, List.get?_cons_succ, falsyPiece,
    hne1, hne2, Option.getD_some, hhm, parseIntOpt, parseInt10_digits hhs hhd,
    parseInt10_digits hms hmd]
  simp

theorem adjustHour_unknown {X : List Char} (hpm : jsToLowerCase X ≠ "pm".toList)
    (ham : jsToLowerCase X ≠ "am".toList) (hour : JSNum) : adjustHour X hour = hour := by
  unfold adjustHour
  rw [if_neg (fun h => hpm h.1), if_neg (fun h => ham h.1)]

theorem appointmentEnd_of_parse {env : Env} {a : AppointmentData} {s : String} {hour minute : JSNum}
    (hdate : a.date.truthy = true) (hslot : a.slotPortion = .str s)
    (hne : s.toList ≠ []) (hp : parseSlotEnd s.toList = some (hour, minute)) :
    appointmentEnd env a =
      .ok (some (newDateLocal env (getFullYear env (appointmentDateOf env a.date))
        (getMonth env (appointmentDateOf env a.date))
        (getDate env (appointmentDateOf env a.date)) hour minute)) := by
  have ht : (JSVal.str s).truthy = true := by
    show (!s.toList.isEmpty) = true
    cases hl : s.toList with
    | nil => exact absurd hl hne
    | cons c cs => rfl
  unfold appointmentEnd
  simp only [hslot, hdate, ht, Bool.not_true, Bool.or_self, Bool.false_eq_true, if_false, hp]

theorem slot_nonempty_of_parts {slot : List Char} (h : 2 ≤ (jsSplit " - " slot).length) :
    slot ≠ [] := by
  intro hc
  rw [hc] at h
  simp [jsSplit, jsSplitGo] at h

/-- C30: when the cleaned end time of the slot-portion (the second piece around " - " with
"portion" removed, trimmed) reads "h:mm X", with `h` and `mm` decimal digit strings and `X`
a non-empty token without a space that is neither "am" nor "pm" in any letter case, the
record is not skipped: the hour handed on is `h` unchanged and the minute `mm`, the end
date-time is the appointment date at `h:mm`, and the record is marked expired exactly when
that time plus the grace minute has passed. -/
theorem unknown_meridiem_keeps_hour (env : Env) (now : Int) (a : AppointmentData) (s : String)
    (hs ms X : List Char)
    (hdate : a.date.truthy = true) (hslot : a.slotPortion = .str s)
    (hparts : 2 ≤ (jsSplit " - " s.toList).length)
    (hE : endTimeText s.toList = hs ++ ':' :: (ms ++ ' ' :: X))
    (hhs : hs ≠ []) (hhd : ∀ c ∈ hs, c ∈ decimalDigits)
    (hms : ms ≠ []) (hmd : ∀ c ∈ ms, c ∈ decimalDigits)
    (hX : X ≠ []) (hXs : ' ' ∉ X)
    (hpm : jsToLowerCase X ≠ "pm".toList) (ham : jsToLowerCase X ≠ "am".toList) :
    parseSlotEnd s.toList = some (some (digitsValue hs : Int), some (digitsValue ms : Int)) ∧
    appointmentEnd env a =
      .ok (some (newDateLocal env (getFullYear env (appointmentDateOf env a.date))
        (getMonth env (appointmentDateOf env a.date))
        (getDate env (appointmentDateOf env a.date))
        (some (digitsValue hs : Int)) (some (digitsValue ms : Int)))) ∧
    (∀ E : Int, newDateLocal env (getFullYear env (appointmentDateOf env a.date))
        (getMonth env (appointmentDateOf env a.date))
        (getDate env (appointmentDateOf env a.date))
        (some (digitsValue hs : Int)) (some (digitsValue ms : Int)) = some E →
      timeClip now = some now → a.status ≠ .str "expired" →
      expireStep env now a =
        if E + 60000 ≤ now then .ok (some { status := "expired", updatedAt := now })
        else .ok none) := by
  have hp : parseSlotEnd s.toList =
      some (some (digitsValue hs : Int), some (digitsValue ms : Int)) := by
    rw [parseSlotEnd_of_endTimeText hparts hE hhs hhd hms hmd hX hXs,
      adjustHour_unknown hpm ham]
  have hend := @appointmentEnd_of_parse env a s _ _ hdate hslot (slot_nonempty_of_parts hparts) hp
  refine ⟨hp, hend, ?_⟩
  intro E hE2 hnow hst
  rw [hE2] at hend
  exact expireStep_of_end hnow hend hst

theorem unknown_meridiem_keeps_hour_witness :
    parseSlotEnd "6:12 PM - 6:42 XM portion".toList = some (some 6, some 42) ∧
    expireStep envPKT 1717206180000 unknownMeridiemAppointment.data =
      .ok (some { status := "expired", updatedAt := 1717206180000 }) :=
  have h := unknown_meridiem_keeps_hour envPKT 1717206180000 unknownMeridiemAppointment.data
    "6:12 PM - 6:42 XM portion" "6".toList "42".toList "XM".toList rfl rfl (by decide)
    (by decide) (by decide) (by decide) (by decide) (by decide) (by decide) (by decide)
    (by decide) (by decide)
  ⟨h.1, (h.2.2 1717206120000 (by decide) (by decide) (by decide)).trans (by decide)⟩

/-! ## The lab-status notification -/

theorem string_truthy (s : String) : (JSVal.str s).truthy = !decide (s = "") := by
  show (!s.toList.isEmpty) = !decide (s = "")
  cases s with
  | mk data =>
    cases data with
    | nil => rfl
    | cons c cs =>
      have h : (String.mk (c :: cs) = "") = False := by
        apply propext
        constructor
        · intro h
          exact absurd (congrArg String.data h) (by simp)
        · exact False.elim
      simp [h]

/-- C24: the notification built by the lab-status endpoint has `userId = labId`, type
"labStatusUpdate" and `read = false`; for a status text `st` and a remarks text `rm` its
message is "Your lab status has been updated to: " followed by `st` and, when `rm` is not
empty, by " Remarks: " and `rm`, and with no remarks in the request it ends after `st`.
The client helper `sendLabStatusNotification` builds the same `userId`, message, type and
`read` for the same inputs, whatever their values, and that is the record it stores. -/
theorem lab_status_notification_format (now : Int) (isoNow newId : String)
    (labId status remarks : JSVal) (st rm : String) (s : Server) (socket : Bool) (store : List NotificationDoc) :
    (labStatusNotification now labId status remarks).userId = labId ∧
    (labStatusNotification now labId status remarks).type = .str "labStatusUpdate" ∧
    (labStatusNotification now labId status remarks).read = .bool false ∧
    (labStatusNotification now labId (.str st) (.str rm)).message =
      .str ("Your lab status has been updated to: " ++ st ++
        (if rm = "" then "" else " Remarks: " ++ rm)) ∧
    (labStatusNotification now labId (.str st) .undefined).message =
      .str ("Your lab status has been updated to: " ++ st) ∧
    (clientLabStatusNotification isoNow labId status remarks).userId =
      (labStatusNotification now labId status remarks).userId ∧
    (clientLabStatusNotification isoNow labId status remarks).message =
      (labStatusNotification now labId status remarks).message ∧
    (clientLabStatusNotification isoNow labId status remarks).type =
      (labStatusNotification now labId status remarks).type ∧
    (clientLabStatusNotification isoNow labId status remarks).read =
      (labStatusNotification now labId status remarks).read ∧
    (postLabStatus none newId now labId status remarks s).2.notifications =
      (if labId = .undefined then s.notifications
       else s.notifications ++
         [{ id := newId, data := labStatusNotification now labId status remarks }]) ∧
    (sendLabStatusNotification false socket newId isoNow labId status remarks store).1 =
      (if labId = .undefined then store
       else store ++
         [{ id := newId, data := clientLabStatusNotification isoNow labId status remarks }]) := by
  refine ⟨rfl, rfl, rfl, ?_, ?_, rfl, ?_, rfl, rfl, ?_, ?_⟩
  · simp only [labStatusNotification, string_truthy, jsToString]
    by_cases h : rm = "" <;> simp [h]
  · simp [labStatusNotification, JSVal.truthy, jsToString]
  · cases remarks with
    | undefined => simp [clientLabStatusNotification, labStatusNotification, defaultParam,
        JSVal.truthy]
    | _ => rfl
  · by_cases h : labId = .undefined <;> simp [postLabStatus, h]
  · by_cases h : labId = .undefined <;> simp [sendLabStatusNotification, h]

theorem lab_status_notification_format_witness :
    (labStatusNotification 1717182000000 (.str "lab7") (.str "approved")
        (.str "bring the license")).message =
      .str "Your lab status has been updated to: approved Remarks: bring the license" ∧
    (clientLabStatusNotification "2024-05-31T19:00:00.000Z" (.str "lab7") (.str "approved")
        .undefined).message = .str "Your lab status has been updated to: approved" :=
  have h := lab_status_notification_format 1717182000000 "2024-05-31T19:00:00.000Z" "n1"
    (.str "lab7") (.str "approved") .undefined "approved" "bring the license"
    serverWithU1 false []
  ⟨(lab_status_notification_format 1717182000000 "2024-05-31T19:00:00.000Z" "n1"
      (.str "lab7") (.str "approved") (.str "bring the license") "approved"
      "bring the license" serverWithU1 false []).2.2.2.1.trans (by decide),
   h.2.2.2.2.2.2.1.trans (h.2.2.2.2.1.trans (by decide))⟩

/-! ## The reminder documents written by the client -/

theorem scheduleAppointmentReminder_eq (cenv : ClientEnv) (fail : Bool) (newId : String)
    (req : ReminderRequest) (store : List ScheduledReminderDoc) :
    (scheduleAppointmentReminder cenv fail newId req store).1 =
        (scheduleAppointmentReminder cenv fail newId req []).1 ∧
    (scheduleAppointmentReminder cenv fail newId req store).2 =
        store ++ (scheduleAppointmentReminder cenv fail newId req []).2 ∧
    (∀ d ∈ (scheduleAppointmentReminder cenv fail newId req []).2,
        d.id = newId ∧ d.data.appointmentId = req.appointmentId) ∧
    (scheduleAppointmentReminder cenv fail newId req []).2.length =
        if (scheduleAppointmentReminder cenv fail newId req []).1 then 1 else 0 := by
  unfold scheduleAppointmentReminder
  rcases Option.eq_none_or_eq_some
    (toFirestoreTimestamp (reminderTime cenv req.appointmentTime (24 * 60 * 60 * 1000)))
    with ha | ⟨first, ha⟩
  · rw [ha]
    simp
  · rcases Option.eq_none_or_eq_some
      (toFirestoreTimestamp (reminderTime cenv req.appointmentTime (60 * 60 * 1000)))
      with hb | ⟨second, hb⟩
    · rw [ha, hb]
      simp
    · rw [ha, hb]
      simp only
      split <;> simp

/-- C25: for an appointment time `t` in epoch milliseconds, in a request with every field
present, whose two trigger times lie in the years the store can hold and whose write the
store accepts, `scheduleAppointmentReminder` returns `true` and adds one document whose
`reminders` list is exactly: the entry with trigger time `t - 86 400 000` and `sent = false`,
then the entry with trigger time `t - 3 600 000` and `sent = false`; the first trigger is
earlier than the second and both are earlier than `t`. -/
theorem reminder_entries_derived (cenv : ClientEnv) (newId : String) (req : ReminderRequest)
    (store : List ScheduledReminderDoc) (t : Int)
    (ht : req.appointmentTime = .num t)
    (hdef : JSVal.undefined ∉ [req.appointmentId, req.doctorId, req.patientId, req.doctorName,
      req.patientName, req.type])
    (hlo : -62135596800000 ≤ t - 86400000) (hhi : t - 3600000 < 253402300800000) :
    (∃ data : ScheduledReminder,
      scheduleAppointmentReminder cenv false newId req store =
        (true, store ++ [{ id := newId, data := data }]) ∧
      data.appointmentId = req.appointmentId ∧
      data.appointmentTime = .num t ∧
      data.reminders =
        [{ time := .timestamp (t - 86400000), sent := .bool false,
           message := "You have a " ++ jsToString req.type ++ " appointment tomorrow" },
         { time := .timestamp (t - 3600000), sent := .bool false,
           message := "You have a " ++ jsToString req.type ++ " appointment in 1 hour" }]) ∧
    t - 86400000 < t - 3600000 ∧ t - 3600000 < t := by
  have h1 : toFirestoreTimestamp (reminderTime cenv req.appointmentTime (24 * 60 * 60 * 1000)) =
      some (t - 86400000) := by
    have hc : timeClip (t - 86400000) = some (t - 86400000) := by
      unfold timeClip
      rw [if_pos (by omega)]
    simp only [ht, reminderTime, jsToNumber, Option.bind, toFirestoreTimestamp]
    norm_num
    rw [hc]
    simp only
    rw [if_pos (by omega)]
  have h2 : toFirestoreTimestamp (reminderTime cenv req.appointmentTime (60 * 60 * 1000)) =
      some (t - 3600000) := by
    have hc : timeClip (t - 3600000) = some (t - 3600000) := by
      unfold timeClip
      rw [if_pos (by omega)]
    simp only [ht, reminderTime, jsToNumber, Option.bind, toFirestoreTimestamp]
    norm_num
    rw [hc]
    simp only
    rw [if_pos (by omega)]
  have hdef2 : ¬ (false = true ∨ JSVal.undefined ∈ [req.appointmentId, req.doctorId,
      req.patientId, req.doctorName, req.patientName, req.appointmentTime, req.type]) := by
    simp only [List.mem_cons, List.mem_singleton, List.not_mem_nil, or_false, not_or] at hdef ⊢
    rw [ht]
    exact ⟨Bool.false_ne_true, hdef.1, hdef.2.1, hdef.2.2.1, hdef.2.2.2.1, hdef.2.2.2.2.1,
      fun h => JSVal.noConfusion h, hdef.2.2.2.2.2⟩
  refine ⟨⟨{ appointmentId := req.appointmentId, doctorId := req.doctorId,
             patientId := req.patientId, doctorName := req.doctorName,
             patientName := req.patientName, appointmentTime := req.appointmentTime,
             type := req.type,
             reminders :=
               [{ time := .timestamp (t - 86400000), sent := .bool false,
                  message := "You have a " ++ jsToString req.type ++ " appointment tomorrow" },
                { time := .timestamp (t - 3600000), sent := .bool false,
                  message := "You have a " ++ jsToString req.type ++ " appointment in 1 hour" }] },
           ?_, rfl, ht, rfl⟩, by omega, by omega⟩
  unfold scheduleAppointmentReminder
  rw [h1, h2]
  simp only
  rw [if_neg hdef2]

theorem reminder_entries_derived_witness :
    (scheduleAppointmentReminder plainClient false "r1" scenarioRequest []).2.map
        (fun d => d.data.reminders) =
      [[{ time := .timestamp 1717160400000, sent := .bool false,
          message := "You have a video appointment tomorrow" },
        { time := .timestamp 1717243200000, sent := .bool false,
          message := "You have a video appointment in 1 hour" }]] :=
  (reminder_entries_derived plainClient "r1" scenarioRequest [] 1717246800000 rfl (by decide)
    (by decide) (by decide)).1.elim (fun _ h => by rw [h.1]; simp [h.2.2.2]; decide)

/-- C26 (as stated) fails: two calls for the same appointment "A1", both accepted, leave two
documents with that appointment id. -/
theorem two_reminder_documents_for_one_appointment :
    documentsOf (.str "A1")
      (scheduleAll plainClient
        [{ fail := false, newId := "r1", appointmentData := scenarioRequest },
         { fail := false, newId := "r2", appointmentData := scenarioRequest }] []) = 2 := by
  decide

/-- C26 (amended): `scheduleAppointmentReminder` never reads the documents already stored;
every accepted call adds one new document with the appointment id of its argument and a
rejected call adds none, so after any sequence of calls the store holds for each appointment
id the documents it held before and one more for every accepted call made with that id. -/
theorem reminder_documents_per_accepted_call (cenv : ClientEnv) (calls : List ScheduleCall)
    (store : List ScheduledReminderDoc) (v : JSVal) :
    documentsOf v (scheduleAll cenv calls store) =
      documentsOf v store +
        calls.countP
          (fun c => c.accepted cenv && decide (c.appointmentData.appointmentId = v)) := by
  induction calls generalizing store with
  | nil => simp [scheduleAll]
  | cons c cs ih =>
    have hc := scheduleAppointmentReminder_eq cenv c.fail c.newId c.appointmentData store
    have hstep : scheduleAll cenv (c :: cs) store =
        scheduleAll cenv cs
          (scheduleAppointmentReminder cenv c.fail c.newId c.appointmentData store).2 := rfl
    rw [hstep, ih, hc.2.1, List.countP_cons]
    unfold documentsOf
    rw [List.countP_append]
    have hnew : List.countP (fun d => decide (d.data.appointmentId = v))
        (scheduleAppointmentReminder cenv c.fail c.newId c.appointmentData []).2 =
        if (c.accepted cenv && decide (c.appointmentData.appointmentId = v)) = true
        then 1 else 0 := by
      unfold ScheduleCall.accepted
      cases hl : (scheduleAppointmentReminder cenv c.fail c.newId c.appointmentData []).2 with
      | nil =>
        have h4 := hc.2.2.2
        rw [hl] at h4
        cases hb : (scheduleAppointmentReminder cenv c.fail c.newId c.appointmentData []).1
        · simp
        · rw [hb] at h4
          simp at h4
      | cons d ds =>
        have h4 := hc.2.2.2
        have h3 := hc.2.2.1 d (by rw [hl]; exact List.mem_cons_self _ _)
        rw [hl] at h4
        cases hb : (scheduleAppointmentReminder cenv c.fail c.newId c.appointmentData []).1
        · rw [hb] at h4
          simp at h4
        · rw [hb] at h4
          have hds : ds = [] := by
            simp at h4
            exact h4
          rw [hds, List.countP_cons, List.countP_nil, h3.2]
          simp
    rw [hnew]
    omega

/-! ## The end date-time lies on the appointment date -/

theorem dayOfYear_bounds (doe : Int) (h0 : 0 ≤ doe) (h1 : doe ≤ 146096) :
    0 ≤ doe - (365 * ((doe - doe / 1460 + doe / 36524 - doe / 146096) / 365)
      + (doe - doe / 1460 + doe / 36524 - doe / 146096) / 365 / 4
      - (doe - doe / 1460 + doe / 36524 - doe / 146096) / 365 / 100) ∧
    doe - (365 * ((doe - doe / 1460 + doe / 36524 - doe / 146096) / 365)
      + (doe - doe / 1460 + doe / 36524 - doe / 146096) / 365 / 4
      - (doe - doe / 1460 + doe / 36524 - doe / 146096) / 365 / 100) ≤ 365 := by
  have hk0 : 0 ≤ doe / 1460 := by omega
  have hk1 : doe / 1460 ≤ 100 := by omega
  have hc0 : 0 ≤ doe / 36524 := by omega
  have hc1 : doe / 36524 ≤ 4 := by omega
  obtain ⟨k, hk⟩ : ∃ k, doe / 1460 = k := ⟨_, rfl⟩
  obtain ⟨c, hc⟩ : ∃ c, doe / 36524 = c := ⟨_, rfl⟩
  rw [hk] at hk0 hk1
  rw [hc] at hc0 hc1
  interval_cases k <;> first | omega | (interval_cases c <;> omega)

theorem makeDay_of_month (era yoe mp dd : Int) (hy0 : 0 ≤ yoe) (hy1 : yoe ≤ 399)
    (hm0 : 0 ≤ mp) (hm1 : mp ≤ 11) :
    makeDay (yoe + era * 400 + (if (if mp < 10 then mp + 3 else mp - 9) ≤ 2 then 1 else 0))
      ((if mp < 10 then mp + 3 else mp - 9) - 1) dd =
      era * 146097 + (365 * yoe + yoe / 4 - yoe / 100) + (153 * mp + 2) / 5 - 719468 + dd - 1 := by
  unfold makeDay daysFromCivil
  interval_cases mp <;> norm_num <;> omega

theorem makeDay_of_parts (z era doe yoe doy mp : Int)
    (hera : era = (z + 719468) / 146097) (hdoe : doe = z + 719468 - era * 146097)
    (hyoe : yoe = (doe - doe / 1460 + doe / 36524 - doe / 146096) / 365)
    (hdoy : doy = doe - (365 * yoe + yoe / 4 - yoe / 100))
    (hmp : mp = (5 * doy + 2) / 153) :
    makeDay (yoe + era * 400 + (if (if mp < 10 then mp + 3 else mp - 9) ≤ 2 then 1 else 0))
      ((if mp < 10 then mp + 3 else mp - 9) - 1) (doy - (153 * mp + 2) / 5 + 1) = z ∧
    0 ≤ (if mp < 10 then mp + 3 else mp - 9) - 1 ∧
    (if mp < 10 then mp + 3 else mp - 9) - 1 ≤ 11 ∧
    1 ≤ doy - (153 * mp + 2) / 5 + 1 ∧ doy - (153 * mp + 2) / 5 + 1 ≤ 31 := by
  have h0 : 0 ≤ doe := by omega
  have h1 : doe ≤ 146096 := by omega
  have hb := dayOfYear_bounds doe h0 h1
  rw [← hyoe, ← hdoy] at hb
  have hy0 : 0 ≤ yoe := by omega
  have hy1 : yoe ≤ 399 := by omega
  have hm0 : 0 ≤ mp := by omega
  have hm1 : mp ≤ 11 := by omega
  refine ⟨?_, ?_, ?_, ?_, ?_⟩
  · rw [makeDay_of_month era yoe mp _ hy0 hy1 hm0 hm1]
    omega
  · split_ifs <;> omega
  · split_ifs <;> omega
  · omega
  · omega

theorem makeDay_civilFromDays (z : Int) :
    makeDay (civilFromDays z).1 (civilFromDays z).2.1 (civilFromDays z).2.2 = z ∧
    0 ≤ (civilFromDays z).2.1 ∧ (civilFromDays z).2.1 ≤ 11 ∧
    1 ≤ (civilFromDays z).2.2 ∧ (civilFromDays z).2.2 ≤ 31 :=
  makeDay_of_parts z _ _ _ _ _ rfl rfl rfl rfl rfl

theorem newDateLocal_of_day (env : Env) (t H M : Int)
    (hrange : t.natAbs + 86400000 ≤ 8640000000000000)
    (hyear : localYear env t < 0 ∨ 99 < localYear env t)
    (hH0 : 0 ≤ H) (hH1 : H < 24) (hM0 : 0 ≤ M) (hM1 : M < 60) :
    newDateLocal env (getFullYear env (some t)) (getMonth env (some t)) (getDate env (some t))
      (some H) (some M) = some (localMidnight env t + H * 3600000 + M * 60000) ∧
    (localMidnight env t + H * 3600000 + M * 60000 + env.tza) / msPerDay =
      (t + env.tza) / msPerDay ∧
    (localMidnight env t + H * 3600000 + M * 60000 + env.tza) % msPerDay =
      H * 3600000 + M * 60000 := by
  have hy : ¬ (0 ≤ (civilFromDays ((t + env.tza) / msPerDay)).1 ∧
      (civilFromDays ((t + env.tza) / msPerDay)).1 ≤ 99) := by
    unfold localYear at hyear
    omega
  have hday := (makeDay_civilFromDays ((t + env.tza) / msPerDay)).1
  have hE : makeDate ((t + env.tza) / msPerDay) (makeTime H M) - env.tza =
      localMidnight env t + H * 3600000 + M * 60000 := by
    unfold makeDate makeTime localMidnight
    omega
  refine ⟨?_, ?_, ?_⟩
  · show timeClip (makeDate (makeDay
        (if 0 ≤ (civilFromDays ((t + env.tza) / msPerDay)).1 ∧
            (civilFromDays ((t + env.tza) / msPerDay)).1 ≤ 99
          then 1900 + (civilFromDays ((t + env.tza) / msPerDay)).1
          else (civilFromDays ((t + env.tza) / msPerDay)).1)
        (civilFromDays ((t + env.tza) / msPerDay)).2.1
        (civilFromDays ((t + env.tza) / msPerDay)).2.2) (makeTime H M) - env.tza) = _
    rw [if_neg hy, hday, hE]
    unfold timeClip
    rw [if_pos]
    unfold localMidnight msPerDay
    omega
  · unfold localMidnight msPerDay
    omega
  · unfold localMidnight msPerDay
    omega

/-- C29 (as stated) fails: on local date 2024-06-01 the end text "13:30 PM" parses to hour 25
and minute 30, and the end date-time is 01:30 on 2024-06-02; the end text "11:75 PM" parses to
hour 23 and minute 75, and the end date-time is 00:15 on 2024-06-02; and for an appointment
on local date 0050-06-01 the end date-time lies in the year 1950. -/
theorem end_leaves_appointment_date :
    parseSlotEnd "12:30 PM - 13:30 PM portion".toList = some (some 25, some 30) ∧
    appointmentEnd envPKT lateHourAppointment.data = .ok (some (some 1717273800000)) ∧
    getDate envPKT (some 1717273800000) = some 2 ∧
    getDate envPKT (appointmentDateOf envPKT lateHourAppointment.data.date) = some 1 ∧
    parseSlotEnd "10:30 PM - 11:75 PM portion".toList = some (some 23, some 75) ∧
    appointmentEnd envPKT lateMinuteAppointment.data = .ok (some (some 1717269300000)) ∧
    getDate envPKT (some 1717269300000) = some 2 ∧
    getDate envPKT (appointmentDateOf envPKT lateMinuteAppointment.data.date) = some 1 ∧
    getFullYear envPKT (appointmentDateOf envPKT earlyYearAppointment.data.date) = some 50 ∧
    appointmentEnd envPKT earlyYearAppointment.data = .ok (some (some (-618056280000))) ∧
    getFullYear envPKT (some (-618056280000)) = some 1950 := by
  decide

/-- C29 (amended): for an appointment date `D` that is a valid date at least a day inside the
range of dates, with a local year outside 0 to 99, and a slot-portion whose end time parses
to an hour `H` from 0 to 23 and a minute `M` from 0 to 59, the end date-time is the local
midnight of `D` plus `H` hours and `M` minutes: it has the year, month and day of `D` and
the local time `H:M`, whatever the start of the slot is; the appointment, unless it is
already expired, is marked expired by any sweep at or after the end date-time plus one
minute. -/
theorem end_on_appointment_date (env : Env) (now : Int) (a : AppointmentData) (s : String)
    (t H M : Int)
    (hdate : a.date.truthy = true) (hD : appointmentDateOf env a.date = some t)
    (hrange : t.natAbs + 86400000 ≤ 8640000000000000)
    (hyear : localYear env t < 0 ∨ 99 < localYear env t)
    (hslot : a.slotPortion = .str s)
    (hparse : parseSlotEnd s.toList = some (some H, some M))
    (hH0 : 0 ≤ H) (hH1 : H < 24) (hM0 : 0 ≤ M) (hM1 : M < 60) :
    appointmentEnd env a =
      .ok (some (some (localMidnight env t + H * 3600000 + M * 60000))) ∧
    getFullYear env (some (localMidnight env t + H * 3600000 + M * 60000)) =
      getFullYear env (some t) ∧
    getMonth env (some (localMidnight env t + H * 3600000 + M * 60000)) =
      getMonth env (some t) ∧
    getDate env (some (localMidnight env t + H * 3600000 + M * 60000)) =
      getDate env (some t) ∧
    (localMidnight env t + H * 3600000 + M * 60000 + env.tza) % msPerDay =
      H * 3600000 + M * 60000 ∧
    (a.status ≠ .str "expired" → timeClip now = some now →
      localMidnight env t + H * 3600000 + M * 60000 + 60000 ≤ now →
      expireStep env now a = .ok (some { status := "expired", updatedAt := now })) := by
  have hne : s.toList ≠ [] := by
    intro hc
    have hn : parseSlotEnd [] = none := by decide
    rw [hc, hn] at hparse
    exact Option.noConfusion hparse
  have hnd := newDateLocal_of_day env t H M hrange hyear hH0 hH1 hM0 hM1
  have hend : appointmentEnd env a =
      .ok (some (some (localMidnight env t + H * 3600000 + M * 60000))) := by
    rw [appointmentEnd_of_parse hdate hslot hne hparse, hD, hnd.1]
  refine ⟨hend, ?_, ?_, ?_, hnd.2.2, ?_⟩
  · show some (civilFromDays ((_ + env.tza) / msPerDay)).1 = some _
    rw [hnd.2.1]
  · show some (civilFromDays ((_ + env.tza) / msPerDay)).2.1 = some _
    rw [hnd.2.1]
  · show some (civilFromDays ((_ + env.tza) / msPerDay)).2.2 = some _
    rw [hnd.2.1]
  · intro hst hnow hle
    rw [expireStep_of_end hnow hend hst, if_pos hle]

theorem end_on_appointment_date_witness :
    appointmentEnd envPKT nightAppointment.data = .ok (some (some 1717182900000)) ∧
    expireStep envPKT 1717182960000 nightAppointment.data =
      .ok (some { status := "expired", updatedAt := 1717182960000 }) ∧
    (1717182960000 : Int) < 1717182000000 + 23 * 3600000 + 45 * 60000 :=
  have h := end_on_appointment_date envPKT 1717182960000 nightAppointment.data
    "11:45 PM - 12:15 AM portion" 1717182000000 0 15 rfl rfl (by decide) (by decide) rfl
    (by decide) (by decide) (by decide) (by decide) (by decide)
  ⟨h.1.trans (by decide), h.2.2.2.2.2 (by decide) (by decide) (by decide), by decide⟩

end HealthHub
